import Mathlib

/-!
# expenses-go: validation, category resolution, batch creation and aggregation

A shallow embedding of `pkg/day`, `pkg/apperror`, `internal/domain/models`, of the
transaction / category / user services of `internal/service` (creation, listing, balances,
month index, total savings, category deletion, signup) and of the input sanitizer of the
transaction handler, followed by the properties proved about them.

Modelling conventions

* Go `string` is `String`; Go `int` is `Int` (no arithmetic that could overflow is
  performed on it, only comparisons and remainders); a `*T` that may be nil is `Option T`.
* `float64` amounts and exchange rates are the rationals they denote (`ℚ`): every finite
  float is a rational; validation only compares them with zero, and the sums, products and
  roundings of the aggregation are taken in exact arithmetic.  The namespace `float64`
  holds `round` and `TotalSavings` as the program evaluates them, every operation rounded
  to the nearest `float64`.
* The relational store reached through gorm is a pair of tables (lists of rows, oldest
  first).  A `Session` carries the committed tables, the working copy of the transaction
  in progress, and two counters indexing the oracles of `Env` (values returned by
  `uuid.NewString`, statements that fail in the storage layer).
-/

namespace Expenses

/-! ## `strings.ToUpper` -/

/-- The rune mapping of `unicode.ToUpper`, as far as membership in the ASCII rule tables
can observe it: `a`..`z` go to `A`..`Z`, the two non-ASCII runes whose upper case is an
ASCII letter (U+0131 dotless i, U+017F long s) go to `I` and `S`, and every other rune,
whose upper case is never an ASCII rune, is left in place. -/
def upperRune (c : Char) : Char :=
  if c = Char.ofNat 0x131 then 'I'
  else if c = Char.ofNat 0x17F then 'S'
  else c.toUpper

/-- Go `strings.ToUpper`: every rune of the string is mapped to upper case. -/
def ToUpper (s : String) : String := ⟨s.data.map upperRune⟩

/-! ## `internal/domain/models` -/

namespace models

abbrev TransactionType := String

def TransactionIncome : TransactionType := "INCOME"
def TransactionExpense : TransactionType := "EXPENSE"
def TransactionSaving : TransactionType := "SAVING"
def TransactionInstallment : TransactionType := "INSTALLMENTS"

abbrev Currency := String

def CurrencyUSD : Currency := "USD"
def CurrencyUYU : Currency := "UYU"
def CurrencyEUR : Currency := "EUR"

abbrev Month := String

def MonthJanuary : Month := "JANUARY"
def MonthFebruary : Month := "FEBRUARY"
def MonthMarch : Month := "MARCH"
def MonthApril : Month := "APRIL"
def MonthMay : Month := "MAY"
def MonthJune : Month := "JUNE"
def MonthJuly : Month := "JULY"
def MonthAugust : Month := "AUGUST"
def MonthSeptember : Month := "SEPTEMBER"
def MonthOctober : Month := "OCTOBER"
def MonthNovember : Month := "NOVEMBER"
def MonthDecember : Month := "DECEMBER"

/-- Row of the `categories` table (`models.Category`); the field `Type` of the source is
`Type_` here, the timestamps and the `User` association are not modelled. -/
structure Category where
  CategoryID : String
  Type_ : TransactionType
  Name : String
  Note : String
  UserID : String
deriving DecidableEq, Repr

/-- Row of the `transactions` table (`models.Transaction`).  `Category` is the preloaded
association, not a column: stored rows carry `none` there. -/
structure Transaction where
  TransactionID : String
  Type_ : TransactionType
  Amount : ℚ
  Currency : Currency
  Note : String
  Day : Option Int
  Month : Month
  Year : Int
  ExchangeRate : Option ℚ
  UserID : String
  CategoryID : Option String
  GoalID : Option String
  Category : Option Category
deriving DecidableEq, Repr

end models

/-! ## `pkg/apperror` -/

namespace apperror

abbrev Code := Int

def AuthBadAuth : Code := 1002
def AuthNeedLogin : Code := 1005
def ServerTooFewParams : Code := 2001
def ServerParamsMissing : Code := 2002
def ServerNotFound : Code := 2003
def UserNotFound : Code := 3001
def UserExists : Code := 3004
def TransactionNotFound : Code := 4001
def TransactionCategoryTypeMismatch : Code := 4002
def CategoryNotFound : Code := 5001
def CategoryHasTransactions : Code := 5002

/-- One `{"field": ..., "msg": ...}` entry of a validation error. -/
structure Issue where
  field : String
  msg : String
deriving DecidableEq, Repr

/-- One failed struct tag reported by the struct validator. -/
structure FieldError where
  field : String
  tag : String
deriving DecidableEq, Repr

/-- The values stored in `AppError.Data` (an `interface{}` in the source). -/
inductive Payload where
  | none
  | messages (l : List String)
  | issues (l : List Issue)
  | fields (l : List FieldError)
deriving DecidableEq, Repr

structure AppError where
  Code : Code
  Data : Payload
deriving DecidableEq, Repr

def New (code : Code) (data : Payload) : AppError :=
  { Code := code, Data := data }

end apperror

/-- The values of Go's `error` met in the services: an `apperror.AppError`, gorm's
`ErrRecordNotFound`, or any other failure of a storage statement. -/
inductive GoError where
  | app (e : apperror.AppError)
  | recordNotFound
  | storage
deriving DecidableEq, Repr

/-- The issue list carried by a validation error (empty for every other error). -/
def GoError.issues : GoError → List apperror.Issue
  | .app ⟨_, .issues l⟩ => l
  | _ => []

/-- The issue list of an optional error, `nil` having none. -/
def issuesOf : Option GoError → List apperror.Issue
  | some e => e.issues
  | none => []

/-! ## `pkg/day` -/

namespace day

def isLeapYear (year : Int) : Bool :=
  if Int.tmod year 400 = 0 then true
  else if Int.tmod year 100 = 0 then false
  else decide (Int.tmod year 4 = 0)

def MaxDays (month : String) (year : Int) : Int :=
  let upper := ToUpper month
  if upper = "APRIL" ∨ upper = "JUNE" ∨ upper = "SEPTEMBER" ∨ upper = "NOVEMBER" then 30
  else if upper = "JANUARY" ∨ upper = "MARCH" ∨ upper = "MAY" ∨ upper = "JULY"
      ∨ upper = "AUGUST" ∨ upper = "OCTOBER" ∨ upper = "DECEMBER" then 31
  else if upper = "FEBRUARY" then (if isLeapYear year then 29 else 28)
  else 31

end day

/-! ## `internal/service`: payloads and rule tables -/

open models apperror

structure CreateCategoryInput where
  Type_ : TransactionType
  Name : String
  Note : String
deriving DecidableEq, Repr

structure UpdateCategoryPayload where
  Type_ : TransactionType
  Name : String
  Note : String
deriving DecidableEq, Repr

structure CreateTransactionInput where
  Type_ : TransactionType
  Amount : ℚ
  Currency : Currency
  Note : String
  Day : Option Int
  Month : Month
  Year : Int
  ExchangeRate : Option ℚ
  CategoryID : Option String
  Category : Option UpdateCategoryPayload
deriving DecidableEq, Repr

/-- Key set of the map `validTransactionTypes`. -/
def validTransactionTypes : List TransactionType :=
  [TransactionIncome, TransactionExpense, TransactionSaving, TransactionInstallment]

/-- Key set of the map `validCurrencies`. -/
def validCurrencies : List Currency :=
  [CurrencyUSD, CurrencyUYU, CurrencyEUR]

/-- Key set of the map `validMonths`. -/
def validMonths : List Month :=
  [MonthJanuary, MonthFebruary, MonthMarch, MonthApril, MonthMay, MonthJune, MonthJuly,
   MonthAugust, MonthSeptember, MonthOctober, MonthNovember, MonthDecember]

/-- An order in which a `range` over `validTransactionTypes` may visit the keys (Go leaves
the iteration order of a map unspecified). -/
structure MapOrder where
  keys : List TransactionType
  perm : keys.Perm validTransactionTypes

def transactionKeys (order : MapOrder) : List String := order.keys

def validationIssue (index : Nat) (field message : String) : Issue :=
  { field := "transactions[" ++ toString index ++ "]." ++ field, msg := message }

/-- `TransactionService.validateTransaction`.  The source normalises the payload in place
and returns an error or nil; here the normalised payload is returned next to the error.
`order` is the iteration order met by `transactionKeys` during this call. -/
def validateTransaction (order : MapOrder) (payload : CreateTransactionInput) (index : Nat) :
    CreateTransactionInput × Option GoError :=
  let errorsList : List Issue := []
  let payload := { payload with Type_ := ToUpper payload.Type_ }
  let payload := { payload with Currency := ToUpper payload.Currency }
  let payload := { payload with Month := ToUpper payload.Month }
  let errorsList :=
    if ¬ payload.Type_ ∈ validTransactionTypes then
      errorsList ++ [validationIssue index "type"
        ("Allowed values: " ++ ", ".intercalate (transactionKeys order))]
    else errorsList
  let errorsList :=
    if payload.Amount ≤ 0 then
      errorsList ++ [validationIssue index "amount" "Amount must be greater than zero"]
    else errorsList
  let errorsList :=
    if ¬ payload.Currency ∈ validCurrencies then
      errorsList ++ [validationIssue index "currency" "Unsupported currency"]
    else errorsList
  let errorsList :=
    if payload.Month = "" then
      errorsList ++ [validationIssue index "month" "Month is required"]
    else if ¬ payload.Month ∈ validMonths then
      errorsList ++ [validationIssue index "month" "Invalid month"]
    else errorsList
  let errorsList :=
    if payload.Year < 2000 then
      errorsList ++ [validationIssue index "year" "Year must be >= 2000"]
    else errorsList
  let errorsList :=
    match payload.Day with
    | some d =>
      if d ≤ 0 ∨ d > day.MaxDays payload.Month payload.Year then
        errorsList ++ [validationIssue index "day" "Day is out of range for the provided month"]
      else errorsList
    | none => errorsList
  let errorsList :=
    if (payload.Currency = CurrencyUSD ∨ payload.Currency = CurrencyEUR)
        ∧ payload.ExchangeRate = none then
      errorsList ++ [validationIssue index "exchangeRate" "Exchange rate is required for USD/EUR"]
    else errorsList
  let errorsList :=
    if payload.CategoryID = none ∧ payload.Category = none then
      errorsList ++ [validationIssue index "category" "Either categoryId or category must be provided"]
    else errorsList
  let errorsList :=
    if payload.CategoryID ≠ none ∧ payload.Category ≠ none then
      errorsList ++ [validationIssue index "category" "Provide only categoryId or category"]
    else errorsList
  if errorsList.length > 0 then
    (payload, some (.app (New ServerParamsMissing (.issues errorsList))))
  else
    (payload, none)

/-! ## The store behind gorm -/

/-- The two tables, oldest row first.  Only live rows are kept: a soft-deleted row is
invisible to every query of the services. -/
structure DB where
  categories : List Category
  transactions : List Transaction
deriving DecidableEq, Repr

/-- What the services cannot control: the values returned by successive calls of
`uuid.NewString`, which storage statements fail (numbered in the order they are issued),
and the map iteration order met while validating the request at each index. -/
structure Env where
  uuid : Nat → String
  fault : Nat → Bool
  order : Nat → MapOrder

/-- A `*gorm.DB` value: the service's own handle `s.db`, or the handle `tx` that
`db.Transaction` passes to its callback. -/
inductive Handle where
  | root
  | tx
deriving DecidableEq, Repr

/-- State of the store during a request.  `committed` is what is persisted; `working` is
the view of the transaction in progress, which replaces `committed` on commit and is
dropped on rollback. -/
structure Session where
  committed : DB
  working : DB
  stmts : Nat
  uuids : Nat
deriving DecidableEq, Repr

/-- The tables a handle reads. -/
def Session.view (s : Session) : Handle → DB
  | .root => s.committed
  | .tx => s.working

/-- Apply a write through a handle: a statement on the root handle is committed at once
(and seen by the open transaction), one on the transaction handle touches the working
copy only. -/
def Session.write (s : Session) (h : Handle) (f : DB → DB) : Session :=
  match h with
  | .root => { s with committed := f s.committed, working := f s.working }
  | .tx => { s with working := f s.working }

/-- Count one issued statement. -/
def Session.tick (s : Session) : Session := { s with stmts := s.stmts + 1 }

/-- The next value of `uuid.NewString()`. -/
def NewString (env : Env) (s : Session) : String × Session :=
  (env.uuid s.uuids, { s with uuids := s.uuids + 1 })

/-- Statement `exec.Create(category)`: fails as the oracle says, else appends the row. -/
def insertCategory (env : Env) (exec : Handle) (row : Category) (s : Session) :
    Option GoError × Session :=
  if env.fault s.stmts then (some .storage, s.tick)
  else (none, (s.write exec fun db => { db with categories := db.categories ++ [row] }).tick)

/-- Statement `tx.Create(&transaction)`.  gorm reads the field `Category` of
`models.Transaction`, tagged `foreignKey:CategoryID`, as a has-one association: `CategoryID`
is looked up in `models.Category` first, so the foreign key is `categories.category_id` and
it refers to `transactions.transaction_id`.  The call inserts the row of the transaction
(its columns, `category_id` being the value `CategoryID` points to at that moment) and then
saves the association: the attached category gets the id of the transaction as its
`CategoryID` and is inserted with `ON CONFLICT (category_id) DO UPDATE SET category_id =
excluded.category_id`, which adds that row unless the table has a category with that id
already and changes no row otherwise.  The call fails as the oracle says. -/
def insertTransaction (env : Env) (exec : Handle) (row : Transaction) (s : Session) :
    Option GoError × Session :=
  if env.fault s.stmts then (some .storage, s.tick)
  else (none, (s.write exec fun db =>
    { categories :=
        match row.Category with
        | some c =>
          if db.categories.any (fun c2 => c2.CategoryID = row.TransactionID) then db.categories
          else db.categories ++ [{ c with CategoryID := row.TransactionID }]
        | none => db.categories,
      transactions := db.transactions ++ [{ row with Category := none }] }).tick)

/-- The struct `transaction` after a successful `tx.Create(&transaction)`: saving the
association has written the id of the transaction into `CategoryID` of the attached
category, and `transaction.CategoryID`, which `Create` set to the address of that field,
reads the same value. -/
def afterCreate (t : Transaction) : Transaction :=
  match t.Category with
  | some c =>
    { t with CategoryID := some t.TransactionID,
             Category := some { c with CategoryID := t.TransactionID } }
  | none => t

/-- Statement `exec.Where("category_id = ? AND user_id = ?", categoryID, userID).Take(&category)`:
fails as the oracle says, yields `ErrRecordNotFound` when no row matches, else the matching row. -/
def takeCategory (env : Env) (exec : Handle) (categoryID userID : String) (s : Session) :
    Except GoError Category × Session :=
  if env.fault s.stmts then (.error .storage, s.tick)
  else
    match (s.view exec).categories.find? (fun c => c.CategoryID = categoryID ∧ c.UserID = userID) with
    | some c => (.ok c, s.tick)
    | none => (.error .recordNotFound, s.tick)

/-- The wrapper `db.Transaction(fc)` of gorm: `fc` runs on a transaction opened on the
committed tables; its writes are committed when it returns nil and rolled back when it
returns an error, which is passed on. -/
def gorm.Transaction {α : Type} (fc : Session → Except GoError α × Session) (s : Session) :
    Except GoError α × Session :=
  match fc { s with working := s.committed } with
  | (.ok a, s1) => (.ok a, { s1 with committed := s1.working })
  | (.error e, s1) => (.error e, { s1 with working := s1.committed })

/-! ## `internal/service/category_service.go` -/

/-- The struct validator on `CreateCategoryInput`, read off its tags:
`Type` is `required,oneof=INCOME EXPENSE SAVING INSTALLMENTS`, `Name` is `required`, `Note`
has none.  One entry per field, for the first tag that fails. -/
def validateStruct (input : CreateCategoryInput) : List FieldError :=
  (if input.Type_ = "" then [⟨"Type", "required"⟩]
   else if ¬ input.Type_ ∈ ["INCOME", "EXPENSE", "SAVING", "INSTALLMENTS"] then [⟨"Type", "oneof"⟩]
   else [])
  ++ (if input.Name = "" then [⟨"Name", "required"⟩] else [])

/-- `CategoryService.createWithDB`; `exec` is the handle passed in, or `s.db` when it is
nil. -/
def createWithDB (env : Env) (db : Option Handle) (userID : String) (input : CreateCategoryInput)
    (s : Session) : Except GoError Category × Session :=
  match validateStruct input with
  | e :: es => (.error (.app (New ServerParamsMissing (.fields (e :: es)))), s)
  | [] =>
    let (id, s) := NewString env s
    let category : Category :=
      { CategoryID := id, Type_ := input.Type_, Name := input.Name, Note := input.Note,
        UserID := userID }
    let exec := db.getD Handle.root
    match insertCategory env exec category s with
    | (some err, s) => (.error err, s)
    | (none, s) => (.ok category, s)

/-- `CategoryService.getByIDWithDB`; `exec` is the handle passed in, or `s.db` when it is
nil. -/
def getByIDWithDB (env : Env) (db : Option Handle) (userID categoryID : String) (s : Session) :
    Except GoError Category × Session :=
  let exec := db.getD Handle.root
  match takeCategory env exec categoryID userID s with
  | (.error err, s) =>
    if err = .recordNotFound then (.error (.app (New CategoryNotFound .none)), s)
    else (.error err, s)
  | (.ok category, s) => (.ok category, s)

/-- `CategoryService.EnsureAndCreate`; the returned pointer is `some` on every successful
path. -/
def EnsureAndCreate (env : Env) (db : Option Handle) (userID : String)
    (categoryID : Option String) (payload : Option UpdateCategoryPayload)
    (transactionType : TransactionType) (s : Session) :
    Except GoError (Option Category) × Session :=
  match categoryID with
  | some id =>
    match getByIDWithDB env db userID id s with
    | (.error err, s) => (.error err, s)
    | (.ok category, s) =>
      if category.Type_ ≠ transactionType then
        (.error (.app (New TransactionCategoryTypeMismatch .none)), s)
      else (.ok (some category), s)
  | none =>
    match payload with
    | none => (.error (.app (New ServerTooFewParams .none)), s)
    | some payload =>
      if payload.Type_ ≠ "" ∧ payload.Type_ ≠ transactionType then
        (.error (.app (New TransactionCategoryTypeMismatch .none)), s)
      else
        let input : CreateCategoryInput :=
          { Type_ := transactionType, Name := payload.Name, Note := payload.Note }
        let input := if payload.Type_ ≠ "" then { input with Type_ := payload.Type_ } else input
        match createWithDB env db userID input s with
        | (.error err, s) => (.error err, s)
        | (.ok category, s) => (.ok (some category), s)

/-! ## `internal/service/transaction_service.go`: `Create` -/

/-- The body of the `for index := range payloads` loop of `Create`, from `index` on, run
on the transaction handle; `created` accumulates the inserted transactions. -/
def createLoop (env : Env) (userID : String) :
    Nat → List CreateTransactionInput → List Transaction → Session →
      Except GoError (List Transaction) × Session
  | _, [], created, s => (.ok created, s)
  | index, payload :: rest, created, s =>
    match validateTransaction (env.order index) payload index with
    | (_, some err) => (.error err, s)
    | (payload, none) =>
      match EnsureAndCreate env (some Handle.tx) userID payload.CategoryID payload.Category
          payload.Type_ s with
      | (.error err, s) => (.error err, s)
      | (.ok category, s) =>
        let (id, s) := NewString env s
        let transaction : Transaction :=
          { TransactionID := id, Type_ := payload.Type_, Amount := payload.Amount,
            Currency := payload.Currency, Note := payload.Note, Day := payload.Day,
            Month := payload.Month, Year := payload.Year, ExchangeRate := payload.ExchangeRate,
            UserID := userID, CategoryID := none, GoalID := none, Category := none }
        let transaction :=
          match category with
          | some c => { transaction with CategoryID := some c.CategoryID, Category := some c }
          | none => transaction
        match insertTransaction env Handle.tx transaction s with
        | (some err, s) => (.error err, s)
        | (none, s) =>
          createLoop env userID (index + 1) rest (created ++ [afterCreate transaction]) s

/-- `TransactionService.Create`. -/
def Create (env : Env) (userID : String) (payloads : List CreateTransactionInput) (s : Session) :
    Except GoError (List Transaction) × Session :=
  if payloads.length = 0 then
    (.error (.app (New ServerParamsMissing (.messages ["transactions are required"]))), s)
  else
    gorm.Transaction (createLoop env userID 0 payloads []) s

/-! ## `internal/service/category_service.go`: `Delete` -/

/-- Call `s.db.Begin()`: opens a transaction on the committed tables (the source does not
inspect its error). -/
def gorm.Begin (s : Session) : Session := { s with working := s.committed }

/-- Call `tx.Rollback()`: drops the writes of the open transaction. -/
def gorm.Rollback (s : Session) : Session := { s with working := s.committed }

/-- Call `tx.Commit()`: fails as the oracle says, persisting nothing, else persists the
writes of the open transaction. -/
def gorm.Commit (env : Env) (s : Session) : Option GoError × Session :=
  if env.fault s.stmts then (some .storage, { s.tick with working := s.committed })
  else (none, { s.tick with committed := s.working })

/-- Statement `tx.Model(&models.Transaction{}).Where("category_id = ? AND user_id = ?",
categoryID, userID).Count(&txCount)`: fails as the oracle says, else counts the matching
rows. -/
def countTransactions (env : Env) (exec : Handle) (categoryID userID : String) (s : Session) :
    Except GoError Int × Session :=
  if env.fault s.stmts then (.error .storage, s.tick)
  else
    (.ok (((s.view exec).transactions.filter
      (fun t => t.CategoryID = some categoryID ∧ t.UserID = userID)).length : Int), s.tick)

/-- Statement `tx.Where("category_id = ? AND user_id = ?", categoryID,
userID).Delete(&models.Transaction{})`: fails as the oracle says, else removes the matching
rows from the live table. -/
def deleteTransactionsOf (env : Env) (exec : Handle) (categoryID userID : String)
    (s : Session) : Option GoError × Session :=
  if env.fault s.stmts then (some .storage, s.tick)
  else
    let keep : Transaction → Bool :=
      fun t => ¬ (t.CategoryID = some categoryID ∧ t.UserID = userID)
    (none, (s.write exec fun db => { db with transactions := db.transactions.filter keep }).tick)

/-- Statement `tx.Model(&models.Transaction{}).Where("category_id = ? AND user_id = ?",
categoryID, userID).Update("category_id", nil)`: fails as the oracle says, else clears the
category id of the matching rows. -/
def clearCategoryOf (env : Env) (exec : Handle) (categoryID userID : String) (s : Session) :
    Option GoError × Session :=
  if env.fault s.stmts then (some .storage, s.tick)
  else
    let clear : Transaction → Transaction :=
      fun t => if t.CategoryID = some categoryID ∧ t.UserID = userID
        then { t with CategoryID := none } else t
    (none, (s.write exec fun db => { db with transactions := db.transactions.map clear }).tick)

/-- Statement `tx.Delete(&category)`: fails as the oracle says, else removes the row with
the primary key of `category` from the live table. -/
def deleteCategory (env : Env) (exec : Handle) (category : Category) (s : Session) :
    Option GoError × Session :=
  if env.fault s.stmts then (some .storage, s.tick)
  else
    let keep : Category → Bool := fun c => ¬ c.CategoryID = category.CategoryID
    (none, (s.write exec fun db => { db with categories := db.categories.filter keep }).tick)

/-- `CategoryService.Delete`; the result is the returned error, `none` for nil. -/
def CategoryService.Delete (env : Env) (userID categoryID : String) (deleteTransactions : Bool)
    (s : Session) : Option GoError × Session :=
  let s := gorm.Begin s
  match takeCategory env Handle.tx categoryID userID s with
  | (.error err, s) =>
    let s := gorm.Rollback s
    if err = .recordNotFound then (some (.app (New CategoryNotFound .none)), s)
    else (some err, s)
  | (.ok category, s) =>
    match countTransactions env Handle.tx categoryID userID s with
    | (.error err, s) => (some err, gorm.Rollback s)
    | (.ok txCount, s) =>
      if txCount > 0 ∧ ¬ deleteTransactions then
        (some (.app (New CategoryHasTransactions .none)), gorm.Rollback s)
      else
        let step :=
          if deleteTransactions then deleteTransactionsOf env Handle.tx categoryID userID s
          else clearCategoryOf env Handle.tx categoryID userID s
        match step with
        | (some err, s) => (some err, gorm.Rollback s)
        | (none, s) =>
          match deleteCategory env Handle.tx category s with
          | (some err, s) => (some err, gorm.Rollback s)
          | (none, s) => gorm.Commit env s

/-! ## `internal/service/transaction_service.go`: queries -/

/-- The optional parameters of the list and balance endpoints (`Type` is `Type_` here). -/
structure TransactionFilters where
  Type_ : Option TransactionType
  Day : Option Int
  Month : Option Month
  Year : Option Int
deriving DecidableEq, Repr

structure BalanceSummary where
  Total : ℚ
  UYU : ℚ
  USD : ℚ
  EUR : ℚ
deriving DecidableEq, Repr

structure TransactionBalances where
  Expenses : BalanceSummary
  Incomes : BalanceSummary
  Savings : BalanceSummary
deriving DecidableEq, Repr

/-- The association loaded by `Preload("Category")`: `Category` being a has-one association
keyed by `categories.category_id = transactions.transaction_id`, it is the category row
whose id is the id of the transaction, if any; the column `category_id` of the
transaction is left as stored. -/
def preload (db : DB) (t : Transaction) : Transaction :=
  { t with Category := db.categories.find? (fun c => c.CategoryID = t.TransactionID) }

/-- Statement `query.Preload("Category").Order("created_at DESC").Find(&transactions)`,
`query` being the conjunction of the `Where` conditions: fails as the oracle says, else
yields the matching rows, newest first, each with its category loaded. -/
def findTransactions (env : Env) (exec : Handle) (query : Transaction → Bool) (s : Session) :
    Except GoError (List Transaction) × Session :=
  if env.fault s.stmts then (.error .storage, s.tick)
  else
    (.ok ((((s.view exec).transactions.filter query).reverse).map (preload (s.view exec))),
      s.tick)

/-- `TransactionService.List`. -/
def TransactionService.List (env : Env) (userID : String) (filters : TransactionFilters)
    (s : Session) : Except GoError (List Transaction) × Session :=
  let query : Transaction → Bool := fun t => decide (t.UserID = userID)
  let query : Transaction → Bool :=
    match filters.Type_ with
    | some v => fun t => query t && decide (t.Type_ = v)
    | none => query
  let query : Transaction → Bool :=
    match filters.Day with
    | some v => fun t => query t && decide (t.Day = some v)
    | none => query
  let query : Transaction → Bool :=
    match filters.Month with
    | some v => fun t => query t && decide (t.Month = v)
    | none => query
  let query : Transaction → Bool :=
    match filters.Year with
    | some v => fun t => query t && decide (t.Year = v)
    | none => query
  findTransactions env Handle.root query s

/-- Go `math.Round` on an exact number: the nearest integer, halves away from zero. -/
def mathRound (x : ℚ) : Int :=
  if 0 ≤ x then ⌊x + 1 / 2⌋ else -⌊-x + 1 / 2⌋

def round (value : ℚ) : ℚ :=
  (mathRound (value * 100) : ℚ) / 100

def addToSummary (summary : BalanceSummary) (trx : Transaction) : BalanceSummary :=
  let summary : BalanceSummary :=
    if trx.Currency = CurrencyUYU then
      let summary := { summary with UYU := summary.UYU + trx.Amount }
      { summary with Total := summary.Total + trx.Amount }
    else if trx.Currency = CurrencyUSD then
      let summary := { summary with USD := summary.USD + trx.Amount }
      match trx.ExchangeRate with
      | some rate => { summary with Total := summary.Total + trx.Amount * rate }
      | none => summary
    else if trx.Currency = CurrencyEUR then
      let summary := { summary with EUR := summary.EUR + trx.Amount }
      match trx.ExchangeRate with
      | some rate => { summary with Total := summary.Total + trx.Amount * rate }
      | none => summary
    else summary
  let summary := { summary with Total := round summary.Total }
  let summary := { summary with UYU := round summary.UYU }
  let summary := { summary with USD := round summary.USD }
  let summary := { summary with EUR := round summary.EUR }
  summary

/-- One iteration of the loop of `Balances`: the `switch trx.Type`. -/
def balancesStep (summary : TransactionBalances) (trx : Transaction) : TransactionBalances :=
  if trx.Type_ = TransactionExpense ∨ trx.Type_ = TransactionInstallment then
    { summary with Expenses := addToSummary summary.Expenses trx }
  else if trx.Type_ = TransactionIncome then
    { summary with Incomes := addToSummary summary.Incomes trx }
  else if trx.Type_ = TransactionSaving then
    { summary with Savings := addToSummary summary.Savings trx }
  else summary

/-- `TransactionService.Balances`; `summary` starts as the zero value of its type. -/
def Balances (env : Env) (userID : String) (filters : TransactionFilters) (s : Session) :
    Except GoError TransactionBalances × Session :=
  match TransactionService.List env userID filters s with
  | (.error err, s) => (.error err, s)
  | (.ok transactions, s) =>
    let summary : TransactionBalances := ⟨⟨0, 0, 0, 0⟩, ⟨0, 0, 0, 0⟩, ⟨0, 0, 0, 0⟩⟩
    (.ok (transactions.foldl balancesStep summary), s)

/-- Statement `Model(&models.Transaction{}).Select("month, year").Where("user_id = ?",
userID).Find(&rows)`: fails as the oracle says, else yields the month and year of every
row of the user. -/
def findMonthYears (env : Env) (exec : Handle) (userID : String) (s : Session) :
    Except GoError (List (Month × Int)) × Session :=
  if env.fault s.stmts then (.error .storage, s.tick)
  else
    (.ok ((((s.view exec).transactions.filter (fun t => t.UserID = userID))).map
      (fun t => (t.Month, t.Year))), s.tick)

/-- Reading `m[key]` of a Go map kept as a list of entries with distinct keys; a missing
key reads as the nil slice. -/
def mapGet (m : List (Int × List Month)) (key : Int) : List Month :=
  match m.find? (fun e => e.1 = key) with
  | some e => e.2
  | none => []

/-- Assignment `m[key] = value` on a Go map kept as a list of entries with distinct keys. -/
def mapSet (m : List (Int × List Month)) (key : Int) (value : List Month) :
    List (Int × List Month) :=
  if m.any (fun e => e.1 = key) then m.map (fun e => if e.1 = key then (key, value) else e)
  else m ++ [(key, value)]

def containsMonth (list : List Month) (month : Month) : Bool :=
  match list with
  | [] => false
  | value :: rest => if value = month then true else containsMonth rest month

/-- The slice `order` of `sortMonths`. -/
def monthOrder : List Month :=
  [MonthJanuary, MonthFebruary, MonthMarch, MonthApril, MonthMay, MonthJune, MonthJuly,
   MonthAugust, MonthSeptember, MonthOctober, MonthNovember, MonthDecember]

/-- Reading `sortIndex[month]` in `sortMonths`: the position of the month in `order`, and
0, the zero value, for a key that is not in the map. -/
def sortIndex (month : Month) : Nat :=
  if month ∈ monthOrder then monthOrder.indexOf month else 0

/-- `sortMonths`: a copy of the slice sorted by `sort.Slice` with
`less i j = sortIndex[ordered[i]] < sortIndex[ordered[j]]`.  `sort.Slice` is modelled by an
insertion sort; the standard library's algorithm may order tied elements differently. -/
def sortMonths (months : List Month) : List Month :=
  months.insertionSort (fun a b => ¬ sortIndex b < sortIndex a)

/-- One iteration of the loop over the rows in `MonthsAndYears`. -/
def monthsStep (result : List (Int × List Month)) (row : Month × Int) :
    List (Int × List Month) :=
  let months := mapGet result row.2
  let months := if ¬ containsMonth months row.1 then months ++ [row.1] else months
  mapSet result row.2 months

/-- `TransactionService.MonthsAndYears`; the returned map is a list of entries with
distinct keys, and the second loop replaces the value of every key by its sorted copy. -/
def MonthsAndYears (env : Env) (userID : String) (s : Session) :
    Except GoError (List (Int × List Month)) × Session :=
  match findMonthYears env Handle.root userID s with
  | (.error err, s) => (.error err, s)
  | (.ok rows, s) =>
    let result : List (Int × List Month) := rows.foldl monthsStep []
    let result := result.map (fun e => (e.1, sortMonths e.2))
    (.ok result, s)

/-- Statement `Model(&models.Transaction{}).Select("COALESCE(SUM(amount),0)").Where("user_id
= ? AND type = ?", userID, models.TransactionSaving).Scan(&total)`: fails as the oracle
says, else yields the sum of the amounts of the matching rows. -/
def sumSavings (env : Env) (exec : Handle) (userID : String) (s : Session) :
    Except GoError ℚ × Session :=
  if env.fault s.stmts then (.error .storage, s.tick)
  else
    (.ok ((((s.view exec).transactions.filter
      (fun t => t.UserID = userID ∧ t.Type_ = TransactionSaving)).map
        (fun t => t.Amount)).sum), s.tick)

/-- `TransactionService.TotalSavings`. -/
def TotalSavings (env : Env) (userID : String) (s : Session) : Except GoError ℚ × Session :=
  match sumSavings env Handle.root userID s with
  | (.error err, s) => (.error err, s)
  | (.ok total, s) => (.ok (round total), s)

/-! ## The same functions in `float64` arithmetic -/

namespace float64

/-- The nearest integer, ties to the even one. -/
def roundHalfEven (y : ℚ) : Int :=
  if y - ⌊y⌋ < 1 / 2 then ⌊y⌋
  else if 1 / 2 < y - ⌊y⌋ then ⌊y⌋ + 1
  else if ⌊y⌋ % 2 = 0 then ⌊y⌋
  else ⌊y⌋ + 1

/-- The `float64` nearest to a real number (53 significant bits, ties to even), which is
the result of an arithmetic operation whose exact result is that number; overflow and
subnormal numbers are not modelled. -/
def nearest (x : ℚ) : ℚ :=
  (roundHalfEven (x / 2 ^ (Int.log 2 |x| - 52)) : ℚ) * 2 ^ (Int.log 2 |x| - 52)

/-- The function `round` as the program evaluates it: `math.Round(value*100) / 100` with
the product and the quotient rounded to `float64`; `math.Round` itself is exact. -/
def round (value : ℚ) : ℚ :=
  nearest ((mathRound (nearest (value * 100)) : ℚ) / 100)

/-- `TransactionService.TotalSavings` as the program evaluates it, the stored amounts
being `float64` values: the sum that the database returns (the exact sum for an engine
with decimal columns; the stored amount itself, for any engine, when a single row
matches) is scanned into a `float64` and passed to `round`. -/
def TotalSavings (env : Env) (userID : String) (s : Session) : Except GoError ℚ × Session :=
  match sumSavings env Handle.root userID s with
  | (.error err, s) => (.error err, s)
  | (.ok total, s) => (.ok (float64.round (nearest total)), s)

end float64

/-! ## `pkg/apperror`: the registry -/

namespace http

def StatusBadRequest : Int := 400
def StatusUnauthorized : Int := 401
def StatusNotFound : Int := 404
def StatusConflict : Int := 409
def StatusInternalServerError : Int := 500

end http

namespace apperror

/-- The metadata returned alongside an error response; the map `ShowMessage` is kept as
its entries, by language. -/
structure Definition where
  Message : String
  ShowMessage : List (String × String)
  HTTPStatus : Int
deriving DecidableEq, Repr

/-- The map `registry`, as its entries in the order of the source; the keys are distinct. -/
def registry : List (Code × Definition) :=
  [(AuthBadAuth,
      { Message := "Bad auth",
        ShowMessage := [("EN", "Incorrect email/password"),
                        ("ES", "Email o contraseña incorrectos")],
        HTTPStatus := http.StatusBadRequest }),
   (AuthNeedLogin,
      { Message := "You need to be logged in",
        ShowMessage := [("EN", "You need to be logged in"), ("ES", "Debe estar conectado")],
        HTTPStatus := http.StatusUnauthorized }),
   (ServerTooFewParams,
      { Message := "Too few parameters",
        ShowMessage := [("EN", "Too few parameters"), ("ES", "Faltan parametros")],
        HTTPStatus := http.StatusBadRequest }),
   (ServerParamsMissing,
      { Message := "Some body parameters are missing or are incorrect",
        ShowMessage := [("EN", "Some body parameters are missing or are incorrect"),
                        ("ES", "Faltan o son incorrectos algunos parametros de la solicitud")],
        HTTPStatus := http.StatusBadRequest }),
   (ServerNotFound,
      { Message := "Not found",
        ShowMessage := [("EN", "Not found"), ("ES", "Recurso no encontrado")],
        HTTPStatus := http.StatusNotFound }),
   (UserNotFound,
      { Message := "User does not exist",
        ShowMessage := [("EN", "User does not exist"), ("ES", "El usuario no existe")],
        HTTPStatus := http.StatusNotFound }),
   (UserExists,
      { Message := "User already exists",
        ShowMessage := [("EN", "User already exists"), ("ES", "El usuario ya existe")],
        HTTPStatus := http.StatusConflict }),
   (TransactionNotFound,
      { Message := "Transaction not exist",
        ShowMessage := [("EN", "Transaction not exist"), ("ES", "La transacción no existe")],
        HTTPStatus := http.StatusNotFound }),
   (TransactionCategoryTypeMismatch,
      { Message := "Transaction and category are not of the same type.",
        ShowMessage := [("EN", "Transaction and category are not of the same type."),
                        ("ES", "La transacción y la categoría no son del mismo tipo.")],
        HTTPStatus := http.StatusConflict }),
   (CategoryNotFound,
      { Message := "Category not exist",
        ShowMessage := [("EN", "Category not exist"), ("ES", "La categoria no existe")],
        HTTPStatus := http.StatusNotFound }),
   (CategoryHasTransactions,
      { Message := "Cannot delete a category with transactions",
        ShowMessage :=
          [("EN", "Cannot delete a category with transactions, try with the query ?deleteTransactions=true to delete all transactions."),
           ("ES", "No se puede eliminar una categoría con transacciones, pruebe con la query ?deleteTransactions=true para eliminar todas las transacciones")],
        HTTPStatus := http.StatusBadRequest })]

/-- `Lookup`: the registered definition of the code, or the definition of the unexpected
error when the code is not registered. -/
def Lookup (code : Code) : Definition :=
  match registry.find? (fun e => e.1 = code) with
  | some e => e.2
  | none =>
    { Message := "Unexpected error",
      ShowMessage := [("EN", "Unexpected error"), ("ES", "Error inesperado")],
      HTTPStatus := http.StatusInternalServerError }

end apperror

/-! ## `internal/http/handlers/transaction_handler.go`: `sanitizeTransactionInput` -/

/-- `unicode.IsSpace`: the white space of Latin-1 (`\t`, `\n`, `\v`, `\f`, `\r`, space,
U+0085, U+00A0) and the other runes with the Unicode property White_Space. -/
def isSpace (c : Char) : Bool :=
  c = '\t' ∨ c = '\n' ∨ c = Char.ofNat 0x0B ∨ c = Char.ofNat 0x0C ∨ c = '\r' ∨ c = ' '
    ∨ c = Char.ofNat 0x85 ∨ c = Char.ofNat 0xA0 ∨ c = Char.ofNat 0x1680
    ∨ (0x2000 ≤ c.toNat ∧ c.toNat ≤ 0x200A)
    ∨ c = Char.ofNat 0x2028 ∨ c = Char.ofNat 0x2029 ∨ c = Char.ofNat 0x202F
    ∨ c = Char.ofNat 0x205F ∨ c = Char.ofNat 0x3000

/-- Go `strings.TrimSpace`: the string without its leading and trailing white space. -/
def TrimSpace (s : String) : String :=
  ⟨(s.data.dropWhile isSpace).rdropWhile isSpace⟩

/-- The inline category as `sanitizeTransactionInput` leaves it. -/
def sanitizeCategory (c : UpdateCategoryPayload) : UpdateCategoryPayload :=
  { Type_ := ToUpper c.Type_, Name := TrimSpace c.Name, Note := TrimSpace c.Note }

/-- `sanitizeTransactionInput`; the input it updates in place is returned. -/
def sanitizeTransactionInput (input : CreateTransactionInput) : CreateTransactionInput :=
  let input := { input with Note := TrimSpace input.Note }
  let input :=
    match input.CategoryID with
    | some id => if TrimSpace id = "" then { input with CategoryID := none } else input
    | none => input
  match input.Category with
  | some c => { input with Category := some (sanitizeCategory c) }
  | none => input

/-! ## `internal/service/user_service.go` -/

/-- Row of the `users` table (`models.User`): `user_id` is the primary key and `email`
has a unique index. -/
structure models.User where
  UserID : String
  Email : String
  FirstName : String
  LastName : String
  Password : String
deriving DecidableEq, Repr

structure CreateUserInput where
  Email : String
  FirstName : String
  LastName : String
  Password : String
deriving DecidableEq, Repr

/-- The values of Go's `error` met in `UserService.Create`: an `apperror.AppError`, a
failure of a storage statement, or a failure of `bcrypt.GenerateFromPassword`. -/
inductive UserError where
  | app (e : apperror.AppError)
  | storage
  | hashing
deriving DecidableEq, Repr

/-- What `UserService` takes from its libraries and from the database engine:
`strings.ToLower` on arbitrary Unicode text, the SQL function `LOWER` of the engine, the
`email` rule of the struct validator, `bcrypt.GenerateFromPassword` (by the number of
random draws so far; `none` when it fails), the values of `uuid.NewString` (likewise), and
which storage statements fail (numbered in the order they are issued). -/
structure UserEnv where
  toLower : String → String
  sqlLower : String → String
  isEmail : String → Bool
  bcrypt : Nat → String → Option String
  uuid : Nat → String
  fault : Nat → Bool

/-- The `users` table (live rows, oldest first) and the counters indexing the oracles. -/
structure UserStore where
  users : List models.User
  stmts : Nat
  draws : Nat
deriving DecidableEq, Repr

/-- The struct validator on `CreateUserInput`, read off its tags: `Email` is
`required,email`, `FirstName` and `LastName` are `required`, `Password` is
`required,min=6` (at least 6 runes).  One entry per field, for the first tag that fails. -/
def validateUser (env : UserEnv) (input : CreateUserInput) : List FieldError :=
  (if input.Email = "" then [⟨"Email", "required"⟩]
   else if ¬ env.isEmail input.Email then [⟨"Email", "email"⟩]
   else [])
  ++ (if input.FirstName = "" then [⟨"FirstName", "required"⟩] else [])
  ++ (if input.LastName = "" then [⟨"LastName", "required"⟩] else [])
  ++ (if input.Password = "" then [⟨"Password", "required"⟩]
      else if input.Password.length < 6 then [⟨"Password", "min"⟩]
      else [])

/-- `UserService.userExists`: the statement `Model(&models.User{}).Where("LOWER(email) = ?",
email).Count(&count)` fails as the oracle says, else counts the matching rows; the result
is `count > 0`. -/
def userExists (env : UserEnv) (email : String) (s : UserStore) :
    Except UserError Bool × UserStore :=
  if env.fault s.stmts then (.error .storage, { s with stmts := s.stmts + 1 })
  else
    (.ok (decide (((s.users.filter (fun u => env.sqlLower u.Email = email)).length : Int) > 0)),
      { s with stmts := s.stmts + 1 })

/-- Statement `s.db.Create(user)`: fails as the oracle says, and when the row would repeat
a primary key or an email of the table (unique index), else appends the row. -/
def insertUser (env : UserEnv) (row : models.User) (s : UserStore) :
    Option UserError × UserStore :=
  if env.fault s.stmts ∨ s.users.any (fun u => u.UserID = row.UserID ∨ u.Email = row.Email) then
    (some .storage, { s with stmts := s.stmts + 1 })
  else (none, { s with users := s.users ++ [row], stmts := s.stmts + 1 })

/-- `UserService.Create`. -/
def UserService.Create (env : UserEnv) (input : CreateUserInput) (s : UserStore) :
    Except UserError models.User × UserStore :=
  match validateUser env input with
  | e :: es => (.error (.app (New ServerParamsMissing (.fields (e :: es)))), s)
  | [] =>
    let normalizedEmail := env.toLower input.Email
    match userExists env normalizedEmail s with
    | (.error err, s) => (.error err, s)
    | (.ok found, s) =>
      if found then (.error (.app (New UserExists .none)), s)
      else
        match env.bcrypt s.draws input.Password with
        | none => (.error .hashing, { s with draws := s.draws + 1 })
        | some hashed =>
          let s := { s with draws := s.draws + 1 }
          let user : models.User :=
            { UserID := env.uuid s.draws, Email := normalizedEmail,
              FirstName := input.FirstName, LastName := input.LastName, Password := hashed }
          let s := { s with draws := s.draws + 1 }
          match insertUser env user s with
          | (some err, s) => (.error err, s)
          | (none, s) => (.ok user, s)

/-! ## Vocabulary of the properties -/

/-- Two strings that differ at most in the case of their basic Latin letters. -/
def sameLetters (a b : String) : Prop :=
  a.data.map Char.toLower = b.data.map Char.toLower

instance (a b : String) : Decidable (sameLetters a b) :=
  inferInstanceAs (Decidable (a.data.map Char.toLower = b.data.map Char.toLower))

/-- The label `transactions[index].field` that an issue of the rule `field` carries. -/
def fieldLabel (index : Nat) (field : String) : String :=
  "transactions[" ++ toString index ++ "]." ++ field

/-- Validation of the request `p` at position `index` reports an issue on `field`. -/
def reports (order : MapOrder) (p : CreateTransactionInput) (index : Nat) (field : String) : Prop :=
  ∃ issue ∈ issuesOf (validateTransaction order p index).2, issue.field = fieldLabel index field

instance (order : MapOrder) (p : CreateTransactionInput) (index : Nat) (field : String) :
    Decidable (reports order p index field) :=
  inferInstanceAs (Decidable (∃ issue ∈ issuesOf (validateTransaction order p index).2,
    issue.field = fieldLabel index field))

/-- The request as `validateTransaction` leaves it: type, currency and month in upper case. -/
def normalized (p : CreateTransactionInput) : CreateTransactionInput :=
  { p with Type_ := ToUpper p.Type_, Currency := ToUpper p.Currency, Month := ToUpper p.Month }

/-- Rule "type": one of the four transaction types, ignoring case. -/
abbrev typeRule (p : CreateTransactionInput) : Prop :=
  ToUpper p.Type_ ∈ ["INCOME", "EXPENSE", "SAVING", "INSTALLMENTS"]

/-- Rule "amount": strictly positive. -/
abbrev amountRule (p : CreateTransactionInput) : Prop := 0 < p.Amount

/-- Rule "currency": one of the three currencies, ignoring case. -/
abbrev currencyRule (p : CreateTransactionInput) : Prop :=
  ToUpper p.Currency ∈ ["USD", "UYU", "EUR"]

/-- Rule "month": one of the twelve month names, ignoring case. -/
abbrev monthRule (p : CreateTransactionInput) : Prop :=
  ToUpper p.Month ∈ ["JANUARY", "FEBRUARY", "MARCH", "APRIL", "MAY", "JUNE", "JULY", "AUGUST",
    "SEPTEMBER", "OCTOBER", "NOVEMBER", "DECEMBER"]

/-- Rule "year": 2000 or later. -/
abbrev yearRule (p : CreateTransactionInput) : Prop := 2000 ≤ p.Year

/-- Rule "day": absent, or between 1 and `MaxDays` of the upper-cased month and the year. -/
abbrev dayRule (p : CreateTransactionInput) : Prop :=
  ∀ d ∈ p.Day, 1 ≤ d ∧ d ≤ day.MaxDays (ToUpper p.Month) p.Year

/-- Rule "exchangeRate": present whenever the currency is USD or EUR. -/
abbrev exchangeRateRule (p : CreateTransactionInput) : Prop :=
  ToUpper p.Currency = "USD" ∨ ToUpper p.Currency = "EUR" → p.ExchangeRate ≠ none

/-- Rule "category": exactly one of `categoryId` and `category` is present. -/
abbrev categoryRule (p : CreateTransactionInput) : Prop :=
  (p.CategoryID ≠ none ∧ p.Category = none) ∨ (p.CategoryID = none ∧ p.Category ≠ none)

/-- The names of the rules a request violates, in the order type, amount, currency, month,
year, day, exchangeRate, category. -/
def violatedRules (p : CreateTransactionInput) : List String :=
  (if typeRule p then [] else ["type"])
  ++ (if amountRule p then [] else ["amount"])
  ++ (if currencyRule p then [] else ["currency"])
  ++ (if monthRule p then [] else ["month"])
  ++ (if yearRule p then [] else ["year"])
  ++ (if dayRule p then [] else ["day"])
  ++ (if exchangeRateRule p then [] else ["exchangeRate"])
  ++ (if categoryRule p then [] else ["category"])

/-- Gregorian leap year, as the specification words it: divisible by 400, or divisible by
4 and not by 100. -/
def leapYear (year : Int) : Prop := 400 ∣ year ∨ (4 ∣ year ∧ ¬ 100 ∣ year)

instance (year : Int) : Decidable (leapYear year) :=
  inferInstanceAs (Decidable (400 ∣ year ∨ (4 ∣ year ∧ ¬ 100 ∣ year)))

/-- Days in a month of the calendar, for an upper-case month name, as the specification
words it: February has 29 days in leap years and 28 otherwise, April, June, September and
November have 30, all others 31. -/
def daysInMonth (month : String) (year : Int) : Int :=
  if month = "FEBRUARY" then (if leapYear year then 29 else 28)
  else if month ∈ ["APRIL", "JUNE", "SEPTEMBER", "NOVEMBER"] then 30
  else 31

/-- The transaction `t` carries the (normalised) fields of the request `q` and the user
id of the caller. -/
def carries (userID : String) (q : CreateTransactionInput) (t : Transaction) : Prop :=
  t.Type_ = ToUpper q.Type_ ∧ t.Amount = q.Amount ∧ t.Currency = ToUpper q.Currency
    ∧ t.Note = q.Note ∧ t.Day = q.Day ∧ t.Month = ToUpper q.Month ∧ t.Year = q.Year
    ∧ t.ExchangeRate = q.ExchangeRate ∧ t.UserID = userID

/-- The columns of a struct: the row that `tx.Create` inserts for it, the association
not being a column. -/
def stored (t : Transaction) : Transaction := { t with Category := none }

/-- Every transaction that refers to a category finds a category with that id in the
store, and that category has the type of the transaction. -/
def typeAgreement (db : DB) : Prop :=
  ∀ t ∈ db.transactions, ∀ id, t.CategoryID = some id →
    ∃ c ∈ db.categories, c.CategoryID = id ∧ c.Type_ = t.Type_

/-- The transaction passes the filters of the owner `userID`: it is owned by `userID` and
equals every filter value that is supplied. -/
def passes (userID : String) (filters : TransactionFilters) (t : Transaction) : Prop :=
  t.UserID = userID
    ∧ (∀ v ∈ filters.Type_, t.Type_ = v)
    ∧ (∀ v ∈ filters.Day, t.Day = some v)
    ∧ (∀ v ∈ filters.Month, t.Month = v)
    ∧ (∀ v ∈ filters.Year, t.Year = v)

instance (userID : String) (filters : TransactionFilters) (t : Transaction) :
    Decidable (passes userID filters t) :=
  inferInstanceAs (Decidable (t.UserID = userID
    ∧ (∀ v ∈ filters.Type_, t.Type_ = v)
    ∧ (∀ v ∈ filters.Day, t.Day = some v)
    ∧ (∀ v ∈ filters.Month, t.Month = v)
    ∧ (∀ v ∈ filters.Year, t.Year = v)))

/-- The filter that supplies no value. -/
def noFilters : TransactionFilters := ⟨none, none, none, none⟩

/-- What a transaction contributes to the figures of its summary, as the specification
words it: a UYU amount adds directly to the UYU subtotal and to the total; a USD or EUR
amount adds to its own subtotal and adds `amount * exchangeRate` to the total, which is
skipped when the exchange rate is absent. -/
def contribution (trx : Transaction) : BalanceSummary :=
  { Total :=
      if trx.Currency = "UYU" then trx.Amount
      else if trx.Currency = "USD" ∨ trx.Currency = "EUR" then
        (match trx.ExchangeRate with
         | some rate => trx.Amount * rate
         | none => 0)
      else 0,
    UYU := if trx.Currency = "UYU" then trx.Amount else 0,
    USD := if trx.Currency = "USD" then trx.Amount else 0,
    EUR := if trx.Currency = "EUR" then trx.Amount else 0 }

/-- A whole number of cents: 100 times the figure is an integer. -/
def isCents (x : ℚ) : Prop := ∃ n : Int, 100 * x = n

/-- Every figure of the summary is a whole number of cents. -/
def BalanceSummary.inCents (b : BalanceSummary) : Prop :=
  isCents b.Total ∧ isCents b.UYU ∧ isCents b.USD ∧ isCents b.EUR

/-- The all-zero summary. -/
def zeroSummary : BalanceSummary := ⟨0, 0, 0, 0⟩

/-- The number of a month in the calendar, JANUARY being 1 and DECEMBER 12 (0 for any
other string). -/
def monthNumber (month : String) : Nat :=
  if month = "JANUARY" then 1 else if month = "FEBRUARY" then 2
  else if month = "MARCH" then 3 else if month = "APRIL" then 4
  else if month = "MAY" then 5 else if month = "JUNE" then 6
  else if month = "JULY" then 7 else if month = "AUGUST" then 8
  else if month = "SEPTEMBER" then 9 else if month = "OCTOBER" then 10
  else if month = "NOVEMBER" then 11 else if month = "DECEMBER" then 12
  else 0

/-- What the first loop of `MonthsAndYears` maintains, `seen` being the rows read so far:
the keys are distinct, they are the years seen, and the list of a year holds the months
seen with it, once each. -/
structure IndexInv (m : List (Int × List Month)) (seen : List (Month × Int)) : Prop where
  keys : (m.map Prod.fst).Nodup
  nodup : ∀ y, (mapGet m y).Nodup
  months : ∀ y mo, mo ∈ mapGet m y ↔ (mo, y) ∈ seen
  years : ∀ y, y ∈ m.map Prod.fst ↔ ∃ mo, (mo, y) ∈ seen

instance : IsTotal Month (fun a b => ¬ sortIndex b < sortIndex a) :=
  ⟨fun a b => by
    by_cases h : sortIndex b < sortIndex a
    · exact Or.inr (by omega)
    · exact Or.inl h⟩

instance : IsTrans Month (fun a b => ¬ sortIndex b < sortIndex a) :=
  ⟨fun a b c h1 h2 => by
    show ¬ sortIndex c < sortIndex a
    have h1' : ¬ sortIndex b < sortIndex a := h1
    have h2' : ¬ sortIndex c < sortIndex b := h2
    omega⟩

/-- A string that is empty or only white space. -/
def blank (s : String) : Prop := ∀ c ∈ s.data, isSpace c = true

instance (s : String) : Decidable (blank s) :=
  inferInstanceAs (Decidable (∀ c ∈ s.data, isSpace c = true))

/-- Amount and exchange rate (when present) are not negative. -/
def nonNegative (t : Transaction) : Prop := 0 ≤ t.Amount ∧ ∀ r ∈ t.ExchangeRate, 0 ≤ r

/-- The sum, figure by figure, of the individually rounded contributions of the
transactions. -/
def roundedSum (txs : List Transaction) : BalanceSummary :=
  { Total := (txs.map (fun t => round (contribution t).Total)).sum,
    UYU := (txs.map (fun t => round (contribution t).UYU)).sum,
    USD := (txs.map (fun t => round (contribution t).USD)).sum,
    EUR := (txs.map (fun t => round (contribution t).EUR)).sum }

/-- Two emails that are equal ignoring case: equal once lower-cased by `strings.ToLower`. -/
def sameEmail (env : UserEnv) (a b : String) : Prop := env.toLower a = env.toLower b

instance (env : UserEnv) (a b : String) : Decidable (sameEmail env a b) :=
  inferInstanceAs (Decidable (env.toLower a = env.toLower b))

/-- No two users of the table have emails that are equal ignoring case. -/
def distinctEmails (env : UserEnv) (users : List models.User) : Prop :=
  users.Pairwise (fun u v => ¬ sameEmail env u.Email v.Email)

/-- On the emails of the table, the `LOWER` of the database engine computes what
`strings.ToLower` computes. -/
def lowerAgrees (env : UserEnv) (users : List models.User) : Prop :=
  ∀ u ∈ users, env.sqlLower u.Email = env.toLower u.Email

/-- The store after a sequence of calls of `UserService.Create`, whatever each returns. -/
def signups (env : UserEnv) (inputs : List CreateUserInput) (s : UserStore) : UserStore :=
  inputs.foldl (fun s input => (UserService.Create env input s).2) s

/-- The identifiers that `uuid.NewString` returns to a call that draws at most `k` of
them, starting in the state `s`, are pairwise distinct and are not ids of categories of the
store. -/
def freshIds (env : Env) (s : Session) (k : Nat) : Prop :=
  (∀ m n, s.uuids ≤ m → m < n → n < s.uuids + k → env.uuid m ≠ env.uuid n)
    ∧ ∀ n, s.uuids ≤ n → n < s.uuids + k →
        ∀ c ∈ s.committed.categories, c.CategoryID ≠ env.uuid n

/-- The struct that `Create` builds for the validated request `p` resolved to the category
`c`, with the identifier `id`, as it is before `tx.Create` is called. -/
def builtFor (id userID : String) (p : CreateTransactionInput) (c : Category) : Transaction :=
  { TransactionID := id, Type_ := p.Type_, Amount := p.Amount, Currency := p.Currency,
    Note := p.Note, Day := p.Day, Month := p.Month, Year := p.Year,
    ExchangeRate := p.ExchangeRate, UserID := userID, CategoryID := some c.CategoryID,
    GoalID := none, Category := some c }

/-- The amounts of the transactions of the user that have type SAVING, as the
specification words the total savings: of any currency, without conversion. -/
def savingsOf (userID : String) (db : DB) : List ℚ :=
  (db.transactions.filter (fun t => t.UserID = userID ∧ t.Type_ = "SAVING")).map
    (fun t => t.Amount)

/-! ### Sample data -/

/-- The iteration order that visits the keys as they are listed. -/
def sampleOrder : MapOrder := ⟨validTransactionTypes, List.Perm.refl _⟩

/-- An environment in which no statement fails and the n-th identifier is `id-n`. -/
def sampleEnv : Env :=
  { uuid := fun n => "id-" ++ toString n, fault := fun _ => false, order := fun _ => sampleOrder }

/-- A store in which user `u1` owns the EXPENSE category `c1` and user `u2` the INCOME
category `c2`, with no transaction yet. -/
def sampleSession : Session :=
  { committed := { categories := [⟨"c1", "EXPENSE", "food", "", "u1"⟩,
                                  ⟨"c2", "INCOME", "salary", "", "u2"⟩],
                   transactions := [] },
    working := { categories := [⟨"c1", "EXPENSE", "food", "", "u1"⟩,
                                ⟨"c2", "INCOME", "salary", "", "u2"⟩],
                 transactions := [] },
    stmts := 0, uuids := 0 }

/-- A valid request, in mixed case, that creates its category inline. -/
def inlineRequest : CreateTransactionInput :=
  { Type_ := "Income", Amount := 50, Currency := "usd", Note := "", Day := some 29,
    Month := "February", Year := 2024, ExchangeRate := some 40, CategoryID := none,
    Category := some ⟨"", "bonus", ""⟩ }

/-- A request whose only defect is its amount. -/
def zeroAmountRequest : CreateTransactionInput :=
  { Type_ := "EXPENSE", Amount := 0, Currency := "UYU", Note := "", Day := none,
    Month := "MARCH", Year := 2024, ExchangeRate := none, CategoryID := some "c1",
    Category := none }

/-- An inline category without a type of its own. -/
def giftsPayload : UpdateCategoryPayload := ⟨"", "gifts", ""⟩

/-- The transaction EXPENSE 100 UYU of user `u1`, in category `c1`. -/
def expenseRow : Transaction :=
  { TransactionID := "t1", Type_ := "EXPENSE", Amount := 100, Currency := "UYU", Note := "",
    Day := none, Month := "MARCH", Year := 2024, ExchangeRate := none, UserID := "u1",
    CategoryID := some "c1", GoalID := none, Category := none }

/-- The transaction INCOME 50 USD at exchange rate 40 of user `u1`. -/
def incomeRow : Transaction :=
  { TransactionID := "t2", Type_ := "INCOME", Amount := 50, Currency := "USD", Note := "",
    Day := some 5, Month := "JANUARY", Year := 2024, ExchangeRate := some 40, UserID := "u1",
    CategoryID := none, GoalID := none, Category := none }

/-- A SAVING transaction of another user, `u2`. -/
def otherRow : Transaction :=
  { TransactionID := "t3", Type_ := "SAVING", Amount := 7, Currency := "EUR", Note := "",
    Day := none, Month := "MAY", Year := 2023, ExchangeRate := none, UserID := "u2",
    CategoryID := none, GoalID := none, Category := none }

/-- The sample store with the three sample transactions. -/
def ledgerSession : Session :=
  { committed := { categories := sampleSession.committed.categories,
                   transactions := [expenseRow, incomeRow, otherRow] },
    working := { categories := sampleSession.committed.categories,
                 transactions := [expenseRow, incomeRow, otherRow] },
    stmts := 0, uuids := 0 }

/-- A request that passes validation and refers to a category that does not exist. -/
def missingCategoryRequest : CreateTransactionInput :=
  { Type_ := "EXPENSE", Amount := 12, Currency := "UYU", Note := "", Day := none,
    Month := "MARCH", Year := 2024, ExchangeRate := none, CategoryID := some "nope",
    Category := none }

/-- The request of the end-to-end test: INCOME 1000 USD at exchange rate 40, day 1,
JANUARY 2024, in the existing INCOME category `c2`. -/
def salaryRequest : CreateTransactionInput :=
  { Type_ := "INCOME", Amount := 1000, Currency := "USD", Note := "", Day := some 1,
    Month := "JANUARY", Year := 2024, ExchangeRate := some 40, CategoryID := some "c2",
    Category := none }

/-- A request of EXPENSE 0.004 UYU in category `c1`. -/
def tinyRequest : CreateTransactionInput :=
  { Type_ := "EXPENSE", Amount := mkRat 1 250, Currency := "UYU", Note := "", Day := none,
    Month := "MARCH", Year := 2024, ExchangeRate := none, CategoryID := some "c1",
    Category := none }

/-- A request with a blank `categoryId` and an inline category. -/
def blankIdRequest : CreateTransactionInput :=
  { Type_ := "INCOME", Amount := 50, Currency := "UYU", Note := " tip ", Day := none,
    Month := "MAY", Year := 2024, ExchangeRate := none, CategoryID := some " \t",
    Category := some ⟨"income", " bonus ", ""⟩ }

/-- Lower-casing of the basic Latin letters only. -/
def asciiLower (s : String) : String := ⟨s.data.map Char.toLower⟩

/-- An environment of the user service in which both lower-casings are `asciiLower`, an
email is any string with an `@`, hashing prefixes `#`, the n-th identifier is `id-n` and
no statement fails. -/
def sampleUserEnv : UserEnv :=
  { toLower := asciiLower, sqlLower := asciiLower, isEmail := fun e => e.data.contains '@',
    bcrypt := fun _ password => some ("#" ++ password),
    uuid := fun n => "id-" ++ toString n, fault := fun _ => false }

/-- A users table with the single user `bob@example.com`. -/
def sampleUsers : UserStore :=
  { users := [⟨"u1", "bob@example.com", "Bob", "Doe", "#secret"⟩], stmts := 0, draws := 0 }

/-- A signup with the email of the stored user in another case. -/
def bobSignup : CreateUserInput := ⟨"Bob@Example.com", "Robert", "Doe", "hunter22"⟩

/-- A signup with a new email. -/
def annSignup : CreateUserInput := ⟨"Ann@Example.com", "Ann", "Lee", "hunter22"⟩

/-- The transaction EXPENSE 0.004 UYU of user `u1` as `Create` returns it for
`tinyRequest` under the identifier `id`: its `CategoryID` and the id of its category are
that identifier. -/
def tinyRow (id : String) : Transaction :=
  { TransactionID := id, Type_ := "EXPENSE", Amount := mkRat 1 250, Currency := "UYU",
    Note := "", Day := none, Month := "MARCH", Year := 2024, ExchangeRate := none,
    UserID := "u1", CategoryID := some id, GoalID := none,
    Category := some ⟨id, "EXPENSE", "food", "", "u1"⟩ }

/-- The struct that `Create` builds for `inlineRequest` of user `u1`, with the transaction
id `tid` and the inline category created under the id `cid`. -/
def bonusStruct (tid cid : String) : Transaction :=
  builtFor tid "u1" (normalized inlineRequest) ⟨cid, "INCOME", "bonus", "", "u1"⟩

/-- A SAVING transaction of user `u1` with the given id, amount, currency and exchange
rate, without category. -/
def savingRow (id : String) (amount : ℚ) (currency : String) (rate : Option ℚ) : Transaction :=
  { TransactionID := id, Type_ := "SAVING", Amount := amount, Currency := currency, Note := "",
    Day := none, Month := "JUNE", Year := 2024, ExchangeRate := rate, UserID := "u1",
    CategoryID := none, GoalID := none, Category := none }

/-- A store in which `u1` has saved 1.004 USD (at rate 40) and 2.003 EUR (no rate) and
spent 100 UYU, and `u2` has saved 7 EUR. -/
def savingsSession : Session :=
  { committed := { categories := sampleSession.committed.categories,
                   transactions := [savingRow "s1" (mkRat 251 250) "USD" (some 40), expenseRow,
                                    savingRow "s2" (mkRat 2003 1000) "EUR" none, otherRow] },
    working := { categories := sampleSession.committed.categories,
                 transactions := [savingRow "s1" (mkRat 251 250) "USD" (some 40), expenseRow,
                                  savingRow "s2" (mkRat 2003 1000) "EUR" none, otherRow] },
    stmts := 0, uuids := 0 }

/-- The `float64` value of the decimal 1.115, which is a little below 1.115. -/
def float1115 : ℚ := mkRat 5021513584518103 4503599627370496

/-- A store whose only transaction is a SAVING of `u1` of amount 1.115, as a `float64`. -/
def tieSession : Session :=
  { committed := { categories := sampleSession.committed.categories,
                   transactions := [savingRow "s3" float1115 "UYU" none] },
    working := { categories := sampleSession.committed.categories,
                 transactions := [savingRow "s3" float1115 "UYU" none] },
    stmts := 0, uuids := 0 }

/-- The issue of the day check of `validateTransaction`, if any. -/
def dayIssues (p : CreateTransactionInput) (index : Nat) : List Issue :=
  match p.Day with
  | some d =>
    if d ≤ 0 ∨ d > day.MaxDays (ToUpper p.Month) p.Year then
      [validationIssue index "day" "Day is out of range for the provided month"]
    else []
  | none => []

/-- The issues `validateTransaction` collects, one summand per check of the source. -/
def ruleIssues (order : MapOrder) (p : CreateTransactionInput) (index : Nat) : List Issue :=
  (if ¬ ToUpper p.Type_ ∈ validTransactionTypes then
    [validationIssue index "type" ("Allowed values: " ++ ", ".intercalate (transactionKeys order))]
   else [])
  ++ (if p.Amount ≤ 0 then [validationIssue index "amount" "Amount must be greater than zero"] else [])
  ++ (if ¬ ToUpper p.Currency ∈ validCurrencies then
        [validationIssue index "currency" "Unsupported currency"] else [])
  ++ (if ToUpper p.Month = "" then [validationIssue index "month" "Month is required"]
      else if ¬ ToUpper p.Month ∈ validMonths then [validationIssue index "month" "Invalid month"]
      else [])
  ++ (if p.Year < 2000 then [validationIssue index "year" "Year must be >= 2000"] else [])
  ++ dayIssues p index
  ++ (if (ToUpper p.Currency = CurrencyUSD ∨ ToUpper p.Currency = CurrencyEUR)
          ∧ p.ExchangeRate = none then
        [validationIssue index "exchangeRate" "Exchange rate is required for USD/EUR"] else [])
  ++ (if p.CategoryID = none ∧ p.Category = none then
        [validationIssue index "category" "Either categoryId or category must be provided"] else [])
  ++ (if p.CategoryID ≠ none ∧ p.Category ≠ none then
        [validationIssue index "category" "Provide only categoryId or category"] else [])

/-! # Properties -/

/-! ## Strings and letter case -/

theorem upper_mem (c : Char) (h : 65 ≤ c.toNat ∧ c.toNat ≤ 90) :
    c ∈ "ABCDEFGHIJKLMNOPQRSTUVWXYZ".data := by
  have hc := Char.ofNat_toNat c
  obtain ⟨h1, h2⟩ := h
  generalize c.toNat = n at hc h1 h2
  subst hc
  interval_cases n <;> decide

theorem toLower_of_not_upper (c : Char) (h : ¬ (65 ≤ c.toNat ∧ c.toNat ≤ 90)) :
    c.toLower = c := by
  unfold Char.toLower
  simp only [ge_iff_le]
  rw [if_neg h]

theorem upperRune_congr (a b : Char) (h : a.toLower = b.toLower) : upperRune a = upperRune b := by
  by_cases ha : 65 ≤ a.toNat ∧ a.toNat ≤ 90
  · by_cases hb : 65 ≤ b.toNat ∧ b.toNat ≤ 90
    · have key : ∀ x ∈ "ABCDEFGHIJKLMNOPQRSTUVWXYZ".data, ∀ y ∈ "ABCDEFGHIJKLMNOPQRSTUVWXYZ".data,
          x.toLower = y.toLower → upperRune x = upperRune y := by decide
      exact key a (upper_mem a ha) b (upper_mem b hb) h
    · rw [toLower_of_not_upper b hb] at h
      subst h
      have key : ∀ x ∈ "ABCDEFGHIJKLMNOPQRSTUVWXYZ".data, upperRune x = upperRune x.toLower := by
        decide
      exact key a (upper_mem a ha)
  · rw [toLower_of_not_upper a ha] at h
    by_cases hb : 65 ≤ b.toNat ∧ b.toNat ≤ 90
    · subst h
      have key : ∀ x ∈ "ABCDEFGHIJKLMNOPQRSTUVWXYZ".data, upperRune x.toLower = upperRune x := by
        decide
      exact key b (upper_mem b hb)
    · rw [toLower_of_not_upper b hb] at h
      rw [h]

theorem ToUpper_congr (a b : String) (h : sameLetters a b) : ToUpper a = ToUpper b := by
  unfold ToUpper
  congr 1
  unfold sameLetters at h
  generalize a.data = l at h
  generalize b.data = r at h
  induction l generalizing r with
  | nil => cases r <;> simp_all
  | cons x xs ih =>
    cases r with
    | nil => simp at h
    | cons y ys =>
      simp only [List.map_cons, List.cons.injEq] at h ⊢
      exact ⟨upperRune_congr x y h.1, ih ys h.2⟩

theorem ToUpper_validMonths : ∀ m ∈ validMonths, ToUpper m = m := by decide

theorem fieldLabel_inj (index : Nat) (f g : String) :
    fieldLabel index f = fieldLabel index g ↔ f = g := by
  constructor
  · intro h
    unfold fieldLabel at h
    rw [String.ext_iff] at h ⊢
    simp only [String.data_append] at h
    exact List.append_cancel_left h
  · rintro rfl
    rfl

/-! ## `validateTransaction`, rule by rule -/

theorem ite_snoc {α : Type} (c : Prop) [Decidable c] (l : List α) (x : α) :
    (if c then l ++ [x] else l) = l ++ (if c then [x] else []) := by
  split <;> simp

theorem ite_append_left {α : Type} (c : Prop) [Decidable c] (l a b : List α) :
    (if c then l ++ a else l ++ b) = l ++ (if c then a else b) := by
  split <;> rfl

theorem pack_issues (n : CreateTransactionInput) (l : List Issue) :
    (if l.length > 0 then (n, some (GoError.app (New ServerParamsMissing (.issues l))))
      else (n, none))
      = (n, if l = [] then none else some (GoError.app (New ServerParamsMissing (.issues l)))) := by
  cases l <;> simp

theorem validateTransaction_eq (order : MapOrder) (p : CreateTransactionInput) (index : Nat) :
    validateTransaction order p index =
      (normalized p,
        if ruleIssues order p index = [] then none
        else some (.app (New ServerParamsMissing (.issues (ruleIssues order p index))))) := by
  unfold validateTransaction ruleIssues normalized dayIssues
  cases hd : p.Day <;>
    simp only [ite_snoc, ite_append_left, List.nil_append, List.append_nil] <;>
    exact pack_issues _ _

theorem issuesOf_validateTransaction (order : MapOrder) (p : CreateTransactionInput) (index : Nat) :
    issuesOf (validateTransaction order p index).2 = ruleIssues order p index := by
  rw [validateTransaction_eq]
  by_cases h : ruleIssues order p index = []
  · simp [h, issuesOf]
  · simp [h, issuesOf, GoError.issues, New]

theorem validateTransaction_none_iff (order : MapOrder) (p : CreateTransactionInput) (index : Nat) :
    (validateTransaction order p index).2 = none ↔ ruleIssues order p index = [] := by
  rw [validateTransaction_eq]
  by_cases h : ruleIssues order p index = [] <;> simp [h]

theorem ruleIssues_fields (order : MapOrder) (p : CreateTransactionInput) (index : Nat) :
    (ruleIssues order p index).map Issue.field
      = (violatedRules p).map (fieldLabel index) := by
  have e1 : (if ¬ ToUpper p.Type_ ∈ validTransactionTypes then
        [validationIssue index "type"
          ("Allowed values: " ++ ", ".intercalate (transactionKeys order))]
      else []).map Issue.field
      = (if typeRule p then [] else ["type"]).map (fieldLabel index) := by
    by_cases h : ToUpper p.Type_ ∈ validTransactionTypes
    · have hr : typeRule p := h
      rw [if_neg (not_not.mpr h), if_pos hr]; rfl
    · have hr : ¬ typeRule p := h
      rw [if_pos h, if_neg hr]; rfl
  have e2 : (if p.Amount ≤ 0 then
        [validationIssue index "amount" "Amount must be greater than zero"] else []).map
          Issue.field
      = (if amountRule p then [] else ["amount"]).map (fieldLabel index) := by
    by_cases h : p.Amount ≤ 0
    · have hr : ¬ amountRule p := not_lt.mpr h
      rw [if_pos h, if_neg hr]; rfl
    · have hr : amountRule p := not_le.mp h
      rw [if_neg h, if_pos hr]; rfl
  have e3 : (if ¬ ToUpper p.Currency ∈ validCurrencies then
        [validationIssue index "currency" "Unsupported currency"] else []).map
          Issue.field
      = (if currencyRule p then [] else ["currency"]).map (fieldLabel index) := by
    by_cases h : ToUpper p.Currency ∈ validCurrencies
    · have hr : currencyRule p := h
      rw [if_neg (not_not.mpr h), if_pos hr]; rfl
    · have hr : ¬ currencyRule p := h
      rw [if_pos h, if_neg hr]; rfl
  have e4 : (if ToUpper p.Month = "" then [validationIssue index "month" "Month is required"]
      else if ¬ ToUpper p.Month ∈ validMonths then
        [validationIssue index "month" "Invalid month"]
      else []).map Issue.field
      = (if monthRule p then [] else ["month"]).map (fieldLabel index) := by
    by_cases h : ToUpper p.Month ∈ validMonths
    · have h0 : ToUpper p.Month ≠ "" := by
        intro h0
        rw [h0] at h
        exact absurd h (by decide)
      have hr : monthRule p := h
      rw [if_neg h0, if_neg (not_not.mpr h), if_pos hr]; rfl
    · have hr : ¬ monthRule p := h
      by_cases h0 : ToUpper p.Month = ""
      · rw [if_pos h0, if_neg hr]; rfl
      · rw [if_neg h0, if_pos h, if_neg hr]; rfl
  have e5 : (if p.Year < 2000 then
        [validationIssue index "year" "Year must be >= 2000"] else []).map
          Issue.field
      = (if yearRule p then [] else ["year"]).map (fieldLabel index) := by
    by_cases h : p.Year < 2000
    · have hr : ¬ yearRule p := not_le.mpr h
      rw [if_pos h, if_neg hr]; rfl
    · have hr : yearRule p := not_lt.mp h
      rw [if_neg h, if_pos hr]; rfl
  have e6 : (dayIssues p index).map Issue.field
      = (if dayRule p then [] else ["day"]).map (fieldLabel index) := by
    unfold dayIssues
    split
    · rename_i d hd
      by_cases h : d ≤ 0 ∨ d > day.MaxDays (ToUpper p.Month) p.Year
      · have hr : ¬ dayRule p := by
          intro hr
          have := hr d (by rw [hd]; rfl)
          omega
        rw [if_pos h, if_neg hr]; rfl
      · have hr : dayRule p := by
          intro e hmem
          rw [hd] at hmem
          cases hmem
          omega
        rw [if_neg h, if_pos hr]; rfl
    · rename_i hd
      have hr : dayRule p := by
        intro d hmem
        rw [hd] at hmem
        cases hmem
      rw [if_pos hr]; rfl
  have e7 : (if (ToUpper p.Currency = CurrencyUSD ∨ ToUpper p.Currency = CurrencyEUR)
          ∧ p.ExchangeRate = none then
        [validationIssue index "exchangeRate" "Exchange rate is required for USD/EUR"]
      else []).map Issue.field
      = (if exchangeRateRule p then [] else ["exchangeRate"]).map (fieldLabel index) := by
    by_cases h : (ToUpper p.Currency = CurrencyUSD ∨ ToUpper p.Currency = CurrencyEUR)
        ∧ p.ExchangeRate = none
    · have hr : ¬ exchangeRateRule p := fun hr => hr h.1 h.2
      rw [if_pos h, if_neg hr]; rfl
    · have hr : exchangeRateRule p := fun hc hn => h ⟨hc, hn⟩
      rw [if_neg h, if_pos hr]; rfl
  have e8 : ((if p.CategoryID = none ∧ p.Category = none then
        [validationIssue index "category" "Either categoryId or category must be provided"]
      else [])
      ++ (if p.CategoryID ≠ none ∧ p.Category ≠ none then
        [validationIssue index "category" "Provide only categoryId or category"]
      else [])).map Issue.field
      = (if categoryRule p then [] else ["category"]).map (fieldLabel index) := by
    by_cases h1 : p.CategoryID = none <;> by_cases h2 : p.Category = none
    · have hr : ¬ categoryRule p := by
        rintro (⟨h, _⟩ | ⟨_, h⟩)
        · exact h h1
        · exact h h2
      rw [if_pos ⟨h1, h2⟩, if_neg (fun h => h.1 h1), if_neg hr]; rfl
    · have hr : categoryRule p := Or.inr ⟨h1, h2⟩
      rw [if_neg (fun h => h2 h.2), if_neg (fun h => h.1 h1), if_pos hr]; rfl
    · have hr : categoryRule p := Or.inl ⟨h1, h2⟩
      rw [if_neg (fun h => h1 h.1), if_neg (fun h => h.2 h2), if_pos hr]; rfl
    · have hr : ¬ categoryRule p := by
        rintro (⟨_, h⟩ | ⟨h, _⟩)
        · exact h2 h
        · exact h1 h
      rw [if_neg (fun h => h1 h.1), if_pos ⟨h1, h2⟩, if_neg hr]; rfl
  unfold ruleIssues violatedRules
  simp only [List.append_assoc]
  simp only [List.map_append]
  rw [e1, e2, e3, e4, e5, e6, e7, ← List.map_append, e8]

theorem reports_iff_violated (order : MapOrder) (p : CreateTransactionInput) (index : Nat)
    (field : String) : reports order p index field ↔ field ∈ violatedRules p := by
  unfold reports
  rw [issuesOf_validateTransaction]
  have h := ruleIssues_fields order p index
  constructor
  · rintro ⟨issue, hmem, hfield⟩
    have : fieldLabel index field ∈ (ruleIssues order p index).map Issue.field :=
      List.mem_map.mpr ⟨issue, hmem, hfield⟩
    rw [h] at this
    obtain ⟨g, hg, hgl⟩ := List.mem_map.mp this
    rw [(fieldLabel_inj index g field).mp hgl] at hg
    exact hg
  · intro hmem
    have : fieldLabel index field ∈ (violatedRules p).map (fieldLabel index) :=
      List.mem_map.mpr ⟨field, hmem, rfl⟩
    rw [← h] at this
    obtain ⟨issue, hi, hf⟩ := List.mem_map.mp this
    exact ⟨issue, hi, hf⟩

/-! ## Rules and reported fields -/

theorem violatedRules_nil_iff (p : CreateTransactionInput) :
    violatedRules p = [] ↔
      typeRule p ∧ amountRule p ∧ currencyRule p ∧ monthRule p ∧ yearRule p ∧ dayRule p
        ∧ exchangeRateRule p ∧ categoryRule p := by
  have one : ∀ (r : Prop) [Decidable r] (x : String), (if r then [] else [x]) = [] ↔ r := by
    intro r _ x
    by_cases h : r <;> simp [h]
  unfold violatedRules
  simp only [List.append_eq_nil, one, and_assoc]

theorem mem_ite_single (r : Prop) [Decidable r] (x f : String) :
    f ∈ (if r then [] else [x]) ↔ ¬ r ∧ f = x := by
  by_cases h : r <;> simp [h]

theorem mem_violatedRules (p : CreateTransactionInput) (f : String) :
    f ∈ violatedRules p ↔
      (¬ typeRule p ∧ f = "type") ∨ (¬ amountRule p ∧ f = "amount")
      ∨ (¬ currencyRule p ∧ f = "currency") ∨ (¬ monthRule p ∧ f = "month")
      ∨ (¬ yearRule p ∧ f = "year") ∨ (¬ dayRule p ∧ f = "day")
      ∨ (¬ exchangeRateRule p ∧ f = "exchangeRate") ∨ (¬ categoryRule p ∧ f = "category") := by
  unfold violatedRules
  simp only [List.mem_append, mem_ite_single, or_assoc]

theorem dayRule_iff (p : CreateTransactionInput) :
    dayRule p ↔
      (p.Day = none ∨ ∃ d, p.Day = some d ∧ 1 ≤ d ∧ d ≤ day.MaxDays (ToUpper p.Month) p.Year) := by
  unfold dayRule
  cases p.Day with
  | none => simp
  | some d => simp

theorem validateTransaction_none_iff_rules (order : MapOrder) (p : CreateTransactionInput)
    (index : Nat) :
    (validateTransaction order p index).2 = none ↔
      typeRule p ∧ amountRule p ∧ currencyRule p ∧ monthRule p ∧ yearRule p ∧ dayRule p
        ∧ exchangeRateRule p ∧ categoryRule p := by
  rw [validateTransaction_none_iff]
  have h := ruleIssues_fields order p index
  rw [← violatedRules_nil_iff]
  constructor
  · intro h0
    rw [h0] at h
    exact List.map_eq_nil_iff.mp h.symm
  · intro h0
    rw [h0] at h
    exact List.map_eq_nil_iff.mp h

/-! ## The calendar -/

theorem isLeapYear_iff (year : Int) : day.isLeapYear year = true ↔ leapYear year := by
  unfold day.isLeapYear leapYear
  simp only [← Int.dvd_iff_tmod_eq_zero]
  split_ifs with h1 h2
  · simp [h1]
  · simp only [Bool.false_eq_true, false_iff]
    omega
  · simp only [decide_eq_true_eq]
    omega

theorem MaxDays_validMonths (name : String) (year : Int) (h : name ∈ validMonths) :
    day.MaxDays name year = daysInMonth name year := by
  have hl : (if day.isLeapYear year = true then (29 : Int) else 28)
      = (if leapYear year then 29 else 28) := by
    by_cases hy : leapYear year
    · rw [if_pos hy, if_pos ((isLeapYear_iff year).mpr hy)]
    · rw [if_neg hy, if_neg (fun hc => hy ((isLeapYear_iff year).mp hc))]
  simp only [validMonths, MonthJanuary, MonthFebruary, MonthMarch, MonthApril, MonthMay, MonthJune,
    MonthJuly, MonthAugust, MonthSeptember, MonthOctober, MonthNovember, MonthDecember,
    List.mem_cons, List.mem_singleton, List.not_mem_nil, or_false] at h
  rcases h with h | h | h | h | h | h | h | h | h | h | h | h <;> subst h
  all_goals first
    | rfl
    | (unfold day.MaxDays daysInMonth
       rw [show ToUpper "FEBRUARY" = "FEBRUARY" by decide]
       simpa using hl)

theorem reports_day_iff (order : MapOrder) (p : CreateTransactionInput) (index : Nat)
    (hm : ToUpper p.Month ∈ validMonths) :
    reports order p index "day"
      ↔ ∃ d, p.Day = some d ∧ (d < 1 ∨ daysInMonth (ToUpper p.Month) p.Year < d) := by
  rw [reports_iff_violated, mem_violatedRules]
  simp only [String.reduceEq, and_false, and_true, false_or, or_false]
  rw [dayRule_iff, MaxDays_validMonths _ _ hm]
  cases p.Day with
  | none => simp
  | some d =>
    simp only [reduceCtorEq, Option.some.injEq, exists_eq_left', false_or, not_and, not_le]
    constructor
    · intro h
      by_cases h1 : d < 1
      · exact Or.inl h1
      · exact Or.inr (h (by omega))
    · rintro (h | h) h1
      · omega
      · exact h

theorem MaxDays_congr (a b : String) (year : Int) (h : ToUpper a = ToUpper b) :
    day.MaxDays a year = day.MaxDays b year := by
  unfold day.MaxDays
  rw [h]

theorem amount_issue_mem (order : MapOrder) (p : CreateTransactionInput) (index : Nat)
    (h : p.Amount ≤ 0) :
    validationIssue index "amount" "Amount must be greater than zero" ∈ ruleIssues order p index := by
  unfold ruleIssues
  simp only [List.mem_append]
  refine Or.inl (Or.inl (Or.inl (Or.inl (Or.inl (Or.inl (Or.inl (Or.inr ?_)))))))
  rw [if_pos h]
  exact List.mem_singleton.mpr rfl

/-! ## The store: what each statement can change -/

theorem insertCategory_tx {env : Env} {row : Category} {s s1 : Session} {r : Option GoError}
    (h : insertCategory env Handle.tx row s = (r, s1)) :
    s1.committed = s.committed ∧ s1.working.transactions = s.working.transactions := by
  unfold insertCategory at h
  split at h <;> cases h <;> simp [Session.tick, Session.write]

theorem insertTransaction_tx {env : Env} {row : Transaction} {s s1 : Session}
    {r : Option GoError} (h : insertTransaction env Handle.tx row s = (r, s1)) :
    s1.committed = s.committed := by
  unfold insertTransaction at h
  split at h <;> cases h <;> simp [Session.tick, Session.write]

theorem takeCategory_tables {env : Env} {exec : Handle} {categoryID userID : String}
    {s s1 : Session} {r : Except GoError Category}
    (h : takeCategory env exec categoryID userID s = (r, s1)) :
    s1.committed = s.committed ∧ s1.working = s.working := by
  unfold takeCategory at h
  split at h
  · cases h; simp [Session.tick]
  · split at h <;> cases h <;> simp [Session.tick]

theorem getByIDWithDB_tables {env : Env} {db : Option Handle} {userID categoryID : String}
    {s s1 : Session} {r : Except GoError Category}
    (h : getByIDWithDB env db userID categoryID s = (r, s1)) :
    s1.committed = s.committed ∧ s1.working = s.working := by
  unfold getByIDWithDB at h
  simp only at h
  split at h
  · rename_i heq
    split at h <;> cases h <;> exact takeCategory_tables heq
  · rename_i heq
    cases h
    exact takeCategory_tables heq

theorem createWithDB_tx {env : Env} {userID : String} {input : CreateCategoryInput}
    {s s1 : Session} {r : Except GoError Category}
    (h : createWithDB env (some Handle.tx) userID input s = (r, s1)) :
    s1.committed = s.committed ∧ s1.working.transactions = s.working.transactions := by
  unfold createWithDB at h
  split at h
  · cases h; simp
  · simp only [NewString, Option.getD_some] at h
    split at h
    · rename_i heq
      cases h
      have h2 := insertCategory_tx heq
      exact h2
    · rename_i heq
      cases h
      have h2 := insertCategory_tx heq
      exact h2

theorem EnsureAndCreate_tx {env : Env} {userID : String} {categoryID : Option String}
    {payload : Option UpdateCategoryPayload} {transactionType : TransactionType}
    {s s1 : Session} {r : Except GoError (Option Category)}
    (h : EnsureAndCreate env (some Handle.tx) userID categoryID payload transactionType s
      = (r, s1)) :
    s1.committed = s.committed ∧ s1.working.transactions = s.working.transactions := by
  unfold EnsureAndCreate at h
  split at h
  · split at h
    · rename_i heq
      cases h
      have := getByIDWithDB_tables heq
      exact ⟨this.1, by rw [this.2]⟩
    · rename_i heq
      have := getByIDWithDB_tables heq
      split at h <;> cases h <;> exact ⟨this.1, by rw [this.2]⟩
  · split at h
    · cases h; simp
    · split at h
      · cases h; simp
      · simp only at h
        split at h
        · rename_i heq
          cases h
          exact createWithDB_tx heq
        · rename_i heq
          cases h
          exact createWithDB_tx heq

theorem createLoop_committed (env : Env) (userID : String) (payloads : List CreateTransactionInput) :
    ∀ (index : Nat) (created : List Transaction) (s s1 : Session)
      (r : Except GoError (List Transaction)),
      createLoop env userID index payloads created s = (r, s1) → s1.committed = s.committed := by
  induction payloads with
  | nil =>
    intro index created s s1 r h
    unfold createLoop at h
    cases h
    rfl
  | cons p rest ih =>
    intro index created s s1 r h
    unfold createLoop at h
    split at h
    · cases h; rfl
    · split at h
      · rename_i heq
        cases h
        exact (EnsureAndCreate_tx heq).1
      · rename_i heq
        have h1 := (EnsureAndCreate_tx heq).1
        simp only [NewString] at h
        split at h
        · rename_i heq2
          cases h
          have h2 := insertTransaction_tx heq2
          rw [h2]
          exact h1
        · rename_i heq2
          have h2 := insertTransaction_tx heq2
          have h3 := ih _ _ _ _ _ h
          rw [h3, h2]
          exact h1

theorem takeCategory_none {env : Env} {exec : Handle} {categoryID userID : String} {s : Session}
    (hstore : env.fault s.stmts = false)
    (hf : (s.view exec).categories.find?
      (fun c => c.CategoryID = categoryID ∧ c.UserID = userID) = none) :
    takeCategory env exec categoryID userID s = (.error .recordNotFound, s.tick) := by
  unfold takeCategory
  rw [if_neg (by simp [hstore])]
  simp only [hf]

theorem takeCategory_some {env : Env} {exec : Handle} {categoryID userID : String} {s : Session}
    {c : Category} (hstore : env.fault s.stmts = false)
    (hf : (s.view exec).categories.find?
      (fun c => c.CategoryID = categoryID ∧ c.UserID = userID) = some c) :
    takeCategory env exec categoryID userID s = (.ok c, s.tick) := by
  unfold takeCategory
  rw [if_neg (by simp [hstore])]
  simp only [hf]

theorem EnsureAndCreate_id_tables {env : Env} {db : Option Handle} {userID id : String}
    {payload : Option UpdateCategoryPayload} {transactionType : TransactionType}
    {s s1 : Session} {r : Except GoError (Option Category)}
    (h : EnsureAndCreate env db userID (some id) payload transactionType s = (r, s1)) :
    s1.committed = s.committed ∧ s1.working = s.working := by
  unfold EnsureAndCreate at h
  simp only at h
  split at h
  · rename_i heq
    cases h
    exact getByIDWithDB_tables heq
  · rename_i heq
    split at h <;> cases h <;> exact getByIDWithDB_tables heq

/-! ## Successful runs of `Create` -/

theorem insertTransaction_ok {env : Env} {row : Transaction} {s s1 : Session}
    (h : insertTransaction env Handle.tx row s = (none, s1)) :
    s1.working.transactions = s.working.transactions ++ [stored row] := by
  unfold insertTransaction at h
  split at h
  · cases h
  · cases h
    simp [Session.tick, Session.write, stored]

theorem afterCreate_columns (t : Transaction) :
    (afterCreate t).TransactionID = t.TransactionID ∧ (afterCreate t).Type_ = t.Type_
      ∧ (afterCreate t).Amount = t.Amount ∧ (afterCreate t).Currency = t.Currency
      ∧ (afterCreate t).Note = t.Note ∧ (afterCreate t).Day = t.Day
      ∧ (afterCreate t).Month = t.Month ∧ (afterCreate t).Year = t.Year
      ∧ (afterCreate t).ExchangeRate = t.ExchangeRate ∧ (afterCreate t).UserID = t.UserID
      ∧ (afterCreate t).GoalID = t.GoalID := by
  unfold afterCreate
  split <;> exact ⟨rfl, rfl, rfl, rfl, rfl, rfl, rfl, rfl, rfl, rfl, rfl⟩

theorem afterCreate_category (t : Transaction) (c : Category) (h : t.Category = some c) :
    (afterCreate t).CategoryID = some t.TransactionID
      ∧ (afterCreate t).Category = some { c with CategoryID := t.TransactionID } := by
  unfold afterCreate
  rw [h]
  exact ⟨rfl, rfl⟩

theorem carries_afterCreate (userID : String) (q : CreateTransactionInput) (t : Transaction)
    (h : carries userID q t) : carries userID q (afterCreate t) := by
  obtain ⟨_, h1, h2, h3, h4, h5, h6, h7, h8, h9, _⟩ := afterCreate_columns t
  unfold carries at h ⊢
  rw [h1, h2, h3, h4, h5, h6, h7, h8, h9]
  exact h

theorem validateTransaction_ok {order : MapOrder} {p q : CreateTransactionInput} {index : Nat}
    (h : validateTransaction order p index = (q, none)) : q = normalized p := by
  rw [validateTransaction_eq] at h
  exact (congrArg Prod.fst h).symm

theorem createLoop_ok (env : Env) (userID : String) (payloads : List CreateTransactionInput) :
    ∀ (index : Nat) (created : List Transaction) (s s1 : Session) (out : List Transaction),
      createLoop env userID index payloads created s = (.ok out, s1) →
      ∃ built, out = created ++ built.map afterCreate
        ∧ List.Forall₂ (carries userID) payloads built
        ∧ s1.working.transactions = s.working.transactions ++ built.map stored := by
  induction payloads with
  | nil =>
    intro index created s s1 out h
    unfold createLoop at h
    cases h
    exact ⟨[], by simp, List.Forall₂.nil, by simp⟩
  | cons p rest ih =>
    intro index created s s1 out h
    unfold createLoop at h
    split at h
    · cases h
    · rename_i q hval
      have hq := validateTransaction_ok hval
      subst hq
      split at h
      · cases h
      · rename_i category s2 hens
        have h1 := (EnsureAndCreate_tx hens).2
        simp only [NewString] at h
        split at h
        · cases h
        · rename_i s3 hins
          have h2 := insertTransaction_ok hins
          obtain ⟨built, hout, hall, htx⟩ := ih _ _ _ _ _ h
          rw [List.append_assoc] at hout
          refine ⟨_ :: built, hout, List.Forall₂.cons ?_ hall, ?_⟩
          · cases category <;> simp [carries, normalized]
          · rw [htx, h2]
            simp only [List.singleton_append, List.map_cons, List.append_assoc]
            rw [← h1]

theorem Create_ok {env : Env} {userID : String} {payloads : List CreateTransactionInput}
    {s s1 : Session} {created : List Transaction}
    (h : Create env userID payloads s = (.ok created, s1)) :
    ∃ built, created = built.map afterCreate
      ∧ List.Forall₂ (carries userID) payloads built
      ∧ s1.committed.transactions = s.committed.transactions ++ built.map stored := by
  unfold Create at h
  split at h
  · cases h
  · unfold gorm.Transaction at h
    split at h
    · rename_i heq
      cases h
      obtain ⟨built, hout, hall, htx⟩ := createLoop_ok env userID payloads _ _ _ _ _ heq
      simp only [List.nil_append] at hout
      exact ⟨built, hout, hall, htx⟩
    · cases h

theorem Forall₂_carries_afterCreate (userID : String) (payloads : List CreateTransactionInput)
    (built : List Transaction) (h : List.Forall₂ (carries userID) payloads built) :
    List.Forall₂ (carries userID) payloads (built.map afterCreate) := by
  induction h with
  | nil => exact List.Forall₂.nil
  | cons hc _ ih => exact List.Forall₂.cons (carries_afterCreate userID _ _ hc) ih

theorem Forall₂_carries_stored (userID : String) (payloads : List CreateTransactionInput)
    (built : List Transaction) (h : List.Forall₂ (carries userID) payloads built) :
    List.Forall₂ (carries userID) payloads (built.map stored) := by
  induction h with
  | nil => exact List.Forall₂.nil
  | cons hc _ ih => exact List.Forall₂.cons hc ih

/-! ## Batch creation is atomic -/

/-- C1: batch create is all-or-nothing: whenever `Create` returns an error (a validation
failure at any index, `CategoryNotFound`, a type mismatch, an inline-category failure or a
storage error), the stored categories and transactions are exactly those before the call,
also when earlier items of the batch had inserted a transaction or created an inline
category. -/
theorem Create_all_or_nothing (env : Env) (userID : String)
    (payloads : List CreateTransactionInput) (s s1 : Session) (err : GoError)
    (h : Create env userID payloads s = (.error err, s1)) :
    s1.committed.categories = s.committed.categories
      ∧ s1.committed.transactions = s.committed.transactions := by
  have key : s1.committed = s.committed := by
    unfold Create at h
    split at h
    · cases h; rfl
    · unfold gorm.Transaction at h
      split at h
      · cases h
      · rename_i heq
        cases h
        have h2 := createLoop_committed env userID payloads _ _ _ _ _ heq
        exact h2
  rw [key]
  exact ⟨rfl, rfl⟩

/-- A batch whose first request inserts a transaction and an inline category and whose
second request is rejected: the committed tables are those of before. -/
theorem Create_all_or_nothing_witness :
    (createLoop sampleEnv "u1" 0 [inlineRequest] [] sampleSession).2.working.transactions ≠ []
      ∧ (Create sampleEnv "u1" [inlineRequest, zeroAmountRequest] sampleSession).2.committed.categories
          = sampleSession.committed.categories
      ∧ (Create sampleEnv "u1" [inlineRequest, zeroAmountRequest] sampleSession).2.committed.transactions
          = sampleSession.committed.transactions :=
  ⟨by decide,
   Create_all_or_nothing sampleEnv "u1" [inlineRequest, zeroAmountRequest] sampleSession _ _
     (by rfl)⟩

/-! ## Validation -/

/-- C2: `validateTransaction` returns no error exactly for the valid requests: after
upper-casing type, currency and month, the type is one of the four transaction types, the
amount is positive, the currency is one of the three currencies, the month is one of the
twelve month names, the year is at least 2000, the day is absent or between 1 and
`MaxDays` of the month and year, the exchange rate is present whenever the currency is USD
or EUR, and exactly one of `categoryId` and `category` is present. -/
theorem validateTransaction_accepts_iff (order : MapOrder) (p : CreateTransactionInput)
    (index : Nat) :
    (validateTransaction order p index).2 = none ↔
      (ToUpper p.Type_ ∈ ["INCOME", "EXPENSE", "SAVING", "INSTALLMENTS"]
        ∧ 0 < p.Amount
        ∧ ToUpper p.Currency ∈ ["USD", "UYU", "EUR"]
        ∧ ToUpper p.Month ∈ ["JANUARY", "FEBRUARY", "MARCH", "APRIL", "MAY", "JUNE", "JULY",
            "AUGUST", "SEPTEMBER", "OCTOBER", "NOVEMBER", "DECEMBER"]
        ∧ 2000 ≤ p.Year
        ∧ (p.Day = none
            ∨ ∃ d, p.Day = some d ∧ 1 ≤ d ∧ d ≤ day.MaxDays (ToUpper p.Month) p.Year)
        ∧ (ToUpper p.Currency = "USD" ∨ ToUpper p.Currency = "EUR" → p.ExchangeRate ≠ none)
        ∧ ((p.CategoryID ≠ none ∧ p.Category = none)
            ∨ (p.CategoryID = none ∧ p.Category ≠ none))) := by
  rw [← dayRule_iff]
  exact validateTransaction_none_iff_rules order p index

/-- C3: validation collects every violation: the issue list of `validateTransaction` has
exactly one entry per violated rule among type, amount, currency, month, year, day,
exchangeRate, category, in that order, the entry of a rule carrying the field
`transactions[index].<rule>`; a non-empty list is returned in a `ServerParamsMissing`
error; and a request with an unknown type, amount 0, unknown currency, empty month, year
1999, no day and neither `categoryId` nor `category` yields the 6 issues of type, amount,
currency, month, year and category. -/
theorem validateTransaction_reports_every_violation (order : MapOrder)
    (p : CreateTransactionInput) (index : Nat) :
    (issuesOf (validateTransaction order p index).2).map Issue.field
        = (violatedRules p).map (fun rule => "transactions[" ++ toString index ++ "]." ++ rule)
      ∧ ((validateTransaction order p index).2 = none
          ∨ (validateTransaction order p index).2
              = some (.app (New ServerParamsMissing
                  (.issues (issuesOf (validateTransaction order p index).2)))))
      ∧ (issuesOf (validateTransaction order
            { p with Type_ := "GIFT", Amount := 0, Currency := "ARS", Month := "", Year := 1999,
                     Day := none, CategoryID := none, Category := none } index).2).map Issue.field
          = ["transactions[" ++ toString index ++ "].type",
             "transactions[" ++ toString index ++ "].amount",
             "transactions[" ++ toString index ++ "].currency",
             "transactions[" ++ toString index ++ "].month",
             "transactions[" ++ toString index ++ "].year",
             "transactions[" ++ toString index ++ "].category"] := by
  refine ⟨?_, ?_, ?_⟩
  · rw [issuesOf_validateTransaction]
    exact ruleIssues_fields order p index
  · rw [issuesOf_validateTransaction, validateTransaction_eq]
    by_cases h : ruleIssues order p index = []
    · left; simp [h]
    · right; simp [h]
  · rw [issuesOf_validateTransaction, ruleIssues_fields]
    have hv :
        violatedRules
            { p with Type_ := "GIFT", Amount := 0, Currency := "ARS", Month := "", Year := 1999,
                     Day := none, CategoryID := none, Category := none }
          = ["type", "amount", "currency", "month", "year", "category"] := by
      unfold violatedRules
      have h1 : ¬ ToUpper "GIFT" ∈ ["INCOME", "EXPENSE", "SAVING", "INSTALLMENTS"] := by decide
      have h3 : ¬ ToUpper "ARS" ∈ ["USD", "UYU", "EUR"] := by decide
      have h4 : ¬ ToUpper "" ∈ ["JANUARY", "FEBRUARY", "MARCH", "APRIL", "MAY", "JUNE", "JULY",
        "AUGUST", "SEPTEMBER", "OCTOBER", "NOVEMBER", "DECEMBER"] := by decide
      have h7 : ¬ (ToUpper "ARS" = "USD" ∨ ToUpper "ARS" = "EUR") := by decide
      simp [h1, h3, h4, h7, dayRule, categoryRule]
    rw [hv]
    simp only [List.map_cons, List.map_nil, fieldLabel, String.append_assoc]
    rfl

/-- C4: for every request with amount <= 0, whatever its other fields, `Create` called
with that single request fails with the `ServerParamsMissing` validation error, whose
issue list has an entry for the field `transactions[0].amount`, and nothing is persisted. -/
theorem Create_rejects_nonpositive_amount (env : Env) (userID : String)
    (p : CreateTransactionInput) (s : Session) (h : p.Amount ≤ 0) :
    ∃ issues : List Issue,
      (Create env userID [p] s).1 = .error (.app (New ServerParamsMissing (.issues issues)))
        ∧ (∃ issue ∈ issues, issue.field = "transactions[0].amount")
        ∧ (Create env userID [p] s).2.committed = s.committed := by
  have hmem := amount_issue_mem (env.order 0) p 0 h
  have hne : ruleIssues (env.order 0) p 0 ≠ [] := List.ne_nil_of_mem hmem
  refine ⟨ruleIssues (env.order 0) p 0, ?_, ⟨_, hmem, by decide⟩, ?_⟩
  · unfold Create
    rw [if_neg (by simp)]
    unfold gorm.Transaction createLoop
    rw [validateTransaction_eq, if_neg hne]
  · unfold Create
    rw [if_neg (by simp)]
    unfold gorm.Transaction createLoop
    rw [validateTransaction_eq, if_neg hne]

/-- The request `zeroAmountRequest` alone, on the sample store: rejected on its amount. -/
theorem Create_rejects_nonpositive_amount_witness :
    zeroAmountRequest.Amount ≤ 0
      ∧ ∃ issues : List Issue,
          (Create sampleEnv "u1" [zeroAmountRequest] sampleSession).1
              = .error (.app (New ServerParamsMissing (.issues issues)))
            ∧ (∃ issue ∈ issues, issue.field = "transactions[0].amount")
            ∧ (Create sampleEnv "u1" [zeroAmountRequest] sampleSession).2.committed
                = sampleSession.committed :=
  ⟨by decide,
   Create_rejects_nonpositive_amount sampleEnv "u1" zeroAmountRequest sampleSession (by decide)⟩

/-- C5: validation reports an issue on the exchangeRate field if and only if the
upper-cased currency is USD or EUR and the exchange rate is absent; a UYU request never
gets one, with or without an exchange rate. -/
theorem exchangeRate_issue_iff (order : MapOrder) (p : CreateTransactionInput) (index : Nat) :
    (reports order p index "exchangeRate"
        ↔ (ToUpper p.Currency = "USD" ∨ ToUpper p.Currency = "EUR") ∧ p.ExchangeRate = none)
      ∧ ¬ (ToUpper p.Currency = "UYU" ∧ reports order p index "exchangeRate") := by
  have key : reports order p index "exchangeRate"
      ↔ (ToUpper p.Currency = "USD" ∨ ToUpper p.Currency = "EUR") ∧ p.ExchangeRate = none := by
    rw [reports_iff_violated, mem_violatedRules]
    simp only [String.reduceEq, and_false, and_true, false_or, or_false]
    simp only [Classical.not_imp, not_not]
  refine ⟨key, ?_⟩
  rintro ⟨hu, hr⟩
  rw [key, hu] at hr
  exact absurd hr.1 (by decide)

/-- C6: for a request whose month is one of the 12 valid months, validation reports an
issue on the day field if and only if the day is present and lies outside
`[1, days-in-month(month, year)]`; day 29 of FEBRUARY 2023 is rejected, day 29 of FEBRUARY
2024 is accepted, and day 31 of APRIL is rejected for every year. -/
theorem day_issue_iff (order : MapOrder) (p : CreateTransactionInput) (index : Nat) (year : Int)
    (hm : ToUpper p.Month ∈ validMonths) :
    (reports order p index "day"
        ↔ ∃ d, p.Day = some d ∧ (d < 1 ∨ daysInMonth (ToUpper p.Month) p.Year < d))
      ∧ reports order { p with Day := some 29, Month := "FEBRUARY", Year := 2023 } index "day"
      ∧ ¬ reports order { p with Day := some 29, Month := "FEBRUARY", Year := 2024 } index "day"
      ∧ reports order { p with Day := some 31, Month := "APRIL", Year := year } index "day" := by
  have hF : ToUpper "FEBRUARY" ∈ validMonths := by decide
  have hA : ToUpper "APRIL" ∈ validMonths := by decide
  refine ⟨reports_day_iff order p index hm, ?_, ?_, ?_⟩
  · rw [reports_day_iff _ _ _ hF]
    refine ⟨29, rfl, Or.inr ?_⟩
    show daysInMonth (ToUpper "FEBRUARY") 2023 < 29
    decide
  · rw [reports_day_iff _ _ _ hF]
    rintro ⟨d, hd, h⟩
    cases hd
    have h2 : ¬ ((29 : Int) < 1 ∨ daysInMonth (ToUpper "FEBRUARY") 2024 < 29) := by decide
    exact h2 h
  · rw [reports_day_iff _ _ _ hA]
    refine ⟨31, rfl, Or.inr ?_⟩
    show daysInMonth (ToUpper "APRIL") year < 31
    rw [show ToUpper "APRIL" = "APRIL" by decide]
    unfold daysInMonth
    rw [if_neg (by decide), if_pos (by decide)]
    decide

/-- A request with a valid month in mixed case and day 30: FEBRUARY 2024 has 29 days. -/
theorem day_issue_iff_witness :
    ToUpper "february" ∈ validMonths
      ∧ reports sampleOrder
          ⟨"EXPENSE", 10, "UYU", "", some 30, "february", 2024, none, some "c1", none⟩ 0 "day" :=
  ⟨by decide,
   ((day_issue_iff sampleOrder
      ⟨"EXPENSE", 10, "UYU", "", some 30, "february", 2024, none, some "c1", none⟩ 0 2024
      (by decide)).1).mpr ⟨30, rfl, Or.inr (by decide)⟩⟩

/-- C7: `MaxDays` is the calendar for every integer year and every month name in any
letter case: 30 for APRIL, JUNE, SEPTEMBER, NOVEMBER; 31 for JANUARY, MARCH, MAY, JULY,
AUGUST, OCTOBER, DECEMBER; for FEBRUARY 29 exactly when the year is divisible by 400, or
by 4 and not by 100, and 28 otherwise. -/
theorem MaxDays_calendar (month name : String) (year : Int) (hcase : sameLetters month name) :
    (name ∈ ["APRIL", "JUNE", "SEPTEMBER", "NOVEMBER"] → day.MaxDays month year = 30)
      ∧ (name ∈ ["JANUARY", "MARCH", "MAY", "JULY", "AUGUST", "OCTOBER", "DECEMBER"]
          → day.MaxDays month year = 31)
      ∧ (name = "FEBRUARY"
          → day.MaxDays month year
              = if 400 ∣ year ∨ (4 ∣ year ∧ ¬ 100 ∣ year) then 29 else 28) := by
  have hu : ToUpper month = ToUpper name := ToUpper_congr month name hcase
  refine ⟨?_, ?_, ?_⟩
  · intro hn
    simp only [List.mem_cons, List.mem_singleton, List.not_mem_nil, or_false] at hn
    rcases hn with h | h | h | h <;> subst h <;> rw [MaxDays_congr month _ year hu] <;> rfl
  · intro hn
    simp only [List.mem_cons, List.mem_singleton, List.not_mem_nil, or_false] at hn
    rcases hn with h | h | h | h | h | h | h <;> subst h <;>
      rw [MaxDays_congr month _ year hu] <;> rfl
  · intro hn
    subst hn
    rw [MaxDays_congr month _ year hu, MaxDays_validMonths "FEBRUARY" year (by decide)]
    unfold daysInMonth
    rw [if_pos rfl]
    by_cases hy : leapYear year
    · rw [if_pos hy, if_pos (show 400 ∣ year ∨ (4 ∣ year ∧ ¬ 100 ∣ year) from hy)]
    · rw [if_neg hy, if_neg (show ¬ (400 ∣ year ∨ (4 ∣ year ∧ ¬ 100 ∣ year)) from hy)]

/-- `MaxDays "feBruary" 2024` through the calendar statement: 2024 is a leap year. -/
theorem MaxDays_calendar_witness :
    sameLetters "feBruary" "FEBRUARY" ∧ day.MaxDays "feBruary" 2024 = 29 :=
  ⟨by decide, ((MaxDays_calendar "feBruary" "FEBRUARY" 2024 (by decide)).2.2 rfl).trans
    (by decide)⟩

/-- C8: validation reports an issue on the category field if and only if `categoryId` and
the inline category are both present or both absent; with exactly one of them present
there is no category issue. -/
theorem category_issue_iff (order : MapOrder) (p : CreateTransactionInput) (index : Nat) :
    (reports order p index "category"
        ↔ (p.CategoryID ≠ none ∧ p.Category ≠ none) ∨ (p.CategoryID = none ∧ p.Category = none))
      ∧ ¬ (((p.CategoryID ≠ none ∧ p.Category = none) ∨ (p.CategoryID = none ∧ p.Category ≠ none))
            ∧ reports order p index "category") := by
  have key : reports order p index "category" ↔ ¬ categoryRule p := by
    rw [reports_iff_violated, mem_violatedRules]
    simp only [String.reduceEq, and_false, and_true, false_or, or_false]
  constructor
  · rw [key]
    unfold categoryRule
    by_cases h1 : p.CategoryID = none <;> by_cases h2 : p.Category = none <;> simp [h1, h2]
  · rintro ⟨hone, hr⟩
    exact (key.mp hr) hone

/-- C9: type, currency and month are case-insensitive and normalised: a request that
differs from `p` only in the letter case of type, currency and month gets the same outcome
of `validateTransaction` (same normalised request, same issues) and the same outcome of
`Create`; when validation succeeds the three fields of the normalised request are the
upper-cased originals and lie in the canonical tables; and on every successful `Create`
both the transactions returned and the rows that the transactions table gains carry, in
the order of the batch, the upper-cased type, currency and month of their requests. -/
theorem validateTransaction_case_insensitive (order : MapOrder) (p : CreateTransactionInput)
    (index : Nat) (type currency month : String)
    (ht : sameLetters type p.Type_) (hc : sameLetters currency p.Currency)
    (hm : sameLetters month p.Month) :
    validateTransaction order { p with Type_ := type, Currency := currency, Month := month } index
        = validateTransaction order p index
      ∧ ((validateTransaction order p index).2 = none →
          (validateTransaction order p index).1
              = { p with Type_ := ToUpper p.Type_, Currency := ToUpper p.Currency,
                         Month := ToUpper p.Month }
            ∧ ToUpper p.Type_ ∈ validTransactionTypes
            ∧ ToUpper p.Currency ∈ validCurrencies
            ∧ ToUpper p.Month ∈ validMonths)
      ∧ (∀ (env : Env) (userID : String) (s : Session),
          Create env userID [{ p with Type_ := type, Currency := currency, Month := month }] s
            = Create env userID [p] s)
      ∧ (∀ (env : Env) (userID : String) (payloads : List CreateTransactionInput)
          (s s1 : Session) (created : List Transaction),
          Create env userID payloads s = (.ok created, s1) →
          List.Forall₂
              (fun q t => t.Type_ = ToUpper q.Type_ ∧ t.Currency = ToUpper q.Currency
                ∧ t.Month = ToUpper q.Month) payloads created
            ∧ ∃ rows, s1.committed.transactions = s.committed.transactions ++ rows
                ∧ List.Forall₂
                    (fun q row => row.Type_ = ToUpper q.Type_ ∧ row.Currency = ToUpper q.Currency
                      ∧ row.Month = ToUpper q.Month) payloads rows) := by
  have hsame : ∀ (order : MapOrder) (index : Nat),
      validateTransaction order { p with Type_ := type, Currency := currency, Month := month }
          index
        = validateTransaction order p index := by
    intro order index
    have e1 := ToUpper_congr _ _ ht
    have e2 := ToUpper_congr _ _ hc
    have e3 := ToUpper_congr _ _ hm
    unfold validateTransaction
    simp only [e1, e2, e3]
  refine ⟨hsame order index, ?_, ?_, ?_⟩
  · intro h
    have hv := (validateTransaction_none_iff_rules order p index).mp h
    refine ⟨?_, hv.1, hv.2.2.1, hv.2.2.2.1⟩
    rw [validateTransaction_eq]
    rfl
  · intro env userID s
    have hloop : createLoop env userID 0
          [{ p with Type_ := type, Currency := currency, Month := month }] []
        = createLoop env userID 0 [p] [] := by
      funext s0
      unfold createLoop
      rw [hsame]
    unfold Create
    simp only [List.length_singleton, hloop]
  · intro env userID payloads s s1 created hok
    obtain ⟨built, hcreated, hall, htx⟩ := Create_ok hok
    constructor
    · rw [hcreated]
      exact (Forall₂_carries_afterCreate userID payloads built hall).imp
        (fun _ _ hc => ⟨hc.1, hc.2.2.1, hc.2.2.2.2.2.1⟩)
    · exact ⟨built.map stored, htx, (Forall₂_carries_stored userID payloads built hall).imp
        (fun _ _ hc => ⟨hc.1, hc.2.2.1, hc.2.2.2.2.2.1⟩)⟩

/-- The request `inlineRequest` (type `Income`, currency `usd`, month `February`) against
its spelling in upper case: same outcome of validation, and `Create` on the sample store
persists one row, with the canonical `INCOME`, `USD`, `FEBRUARY`. -/
theorem validateTransaction_case_insensitive_witness :
    validateTransaction sampleOrder
        { inlineRequest with Type_ := "INCOME", Currency := "USD", Month := "FEBRUARY" } 0
      = validateTransaction sampleOrder inlineRequest 0
      ∧ (validateTransaction sampleOrder inlineRequest 0).1.Type_ = "INCOME"
      ∧ (validateTransaction sampleOrder inlineRequest 0).1.Currency = "USD"
      ∧ (validateTransaction sampleOrder inlineRequest 0).1.Month = "FEBRUARY"
      ∧ ∃ row, (Create sampleEnv "u1" [inlineRequest] sampleSession).2.committed.transactions
            = [row]
          ∧ row.Type_ = "INCOME" ∧ row.Currency = "USD" ∧ row.Month = "FEBRUARY" := by
  have h := validateTransaction_case_insensitive sampleOrder inlineRequest 0 "INCOME" "USD"
    "FEBRUARY" (by decide) (by decide) (by decide)
  refine ⟨h.1, by decide, by decide, by decide, ?_⟩
  obtain ⟨_, rows, hrows, hall⟩ := h.2.2.2 sampleEnv "u1" [inlineRequest] sampleSession
    (Create sampleEnv "u1" [inlineRequest] sampleSession).2
    [afterCreate (bonusStruct "id-1" "id-0")] (by rfl)
  cases hall with
  | cons hrow hrest =>
    cases hrest
    exact ⟨_, hrows, hrow.1.trans (by decide), hrow.2.1.trans (by decide),
      hrow.2.2.trans (by decide)⟩

/-! ## Category resolution -/

/-- C10: category resolution by identifier.  When the lookup statement itself does not
fail in the storage layer, `EnsureAndCreate` with a `categoryId` fails with
`CategoryNotFound` when no category with that id is owned by the user (also when the id
belongs to another user), fails with `TransactionCategoryTypeMismatch` when the category
with that id owned by the user has another type than the transaction, and otherwise
returns that category; in every case, no table is changed. -/
theorem EnsureAndCreate_by_id (env : Env) (db : Option Handle) (userID id : String)
    (payload : Option UpdateCategoryPayload) (transactionType : TransactionType) (s : Session)
    (hstore : env.fault s.stmts = false) :
    ((∀ c ∈ (s.view (db.getD Handle.root)).categories, c.CategoryID = id → c.UserID ≠ userID) →
        (EnsureAndCreate env db userID (some id) payload transactionType s).1
          = .error (.app (New CategoryNotFound .none)))
      ∧ (∀ c ∈ (s.view (db.getD Handle.root)).categories,
          c.CategoryID = id → c.UserID = userID →
          (∀ c2 ∈ (s.view (db.getD Handle.root)).categories, c2.CategoryID = id → c2 = c) →
          (c.Type_ ≠ transactionType →
            (EnsureAndCreate env db userID (some id) payload transactionType s).1
              = .error (.app (New TransactionCategoryTypeMismatch .none)))
          ∧ (c.Type_ = transactionType →
            (EnsureAndCreate env db userID (some id) payload transactionType s).1
              = .ok (some c)))
      ∧ (EnsureAndCreate env db userID (some id) payload transactionType s).2.committed
          = s.committed
      ∧ (EnsureAndCreate env db userID (some id) payload transactionType s).2.working
          = s.working := by
  refine ⟨?_, ?_, ?_, ?_⟩
  · intro hnone
    have hf : (s.view (db.getD Handle.root)).categories.find?
        (fun c => c.CategoryID = id ∧ c.UserID = userID) = none := by
      rw [List.find?_eq_none]
      intro c hc
      simp only [decide_eq_true_eq, not_and]
      exact hnone c hc
    unfold EnsureAndCreate getByIDWithDB
    simp only [takeCategory_none hstore hf]
    simp
  · intro c hc hid huser huniq
    have hf : (s.view (db.getD Handle.root)).categories.find?
        (fun c => c.CategoryID = id ∧ c.UserID = userID) = some c := by
      cases hfind : (s.view (db.getD Handle.root)).categories.find?
          (fun c => c.CategoryID = id ∧ c.UserID = userID) with
      | none =>
        rw [List.find?_eq_none] at hfind
        have := hfind c hc
        simp [hid, huser] at this
      | some c2 =>
        have h1 := List.find?_some hfind
        have h2 := List.mem_of_find?_eq_some hfind
        simp only [decide_eq_true_eq] at h1
        rw [huniq c2 h2 h1.1]
    unfold EnsureAndCreate getByIDWithDB
    simp only [takeCategory_some hstore hf]
    constructor
    · intro hty
      simp [hty]
    · intro hty
      simp [hty]
  · exact (@EnsureAndCreate_id_tables env db userID id payload transactionType s _ _
      (Prod.mk.eta).symm).1
  · exact (@EnsureAndCreate_id_tables env db userID id payload transactionType s _ _
      (Prod.mk.eta).symm).2

/-- On the sample store: `c2` belongs to another user, so `u1` gets `CategoryNotFound`;
the EXPENSE category `c1` referenced by an INCOME transaction is a type mismatch; referenced
by an EXPENSE transaction it is returned. -/
theorem EnsureAndCreate_by_id_witness :
    (EnsureAndCreate sampleEnv (some Handle.tx) "u1" (some "c2") none "INCOME" sampleSession).1
        = .error (.app (New CategoryNotFound .none))
      ∧ (EnsureAndCreate sampleEnv (some Handle.tx) "u1" (some "c1") none "INCOME" sampleSession).1
        = .error (.app (New TransactionCategoryTypeMismatch .none))
      ∧ (EnsureAndCreate sampleEnv (some Handle.tx) "u1" (some "c1") none "EXPENSE" sampleSession).1
        = .ok (some ⟨"c1", "EXPENSE", "food", "", "u1"⟩) :=
  ⟨(EnsureAndCreate_by_id sampleEnv (some Handle.tx) "u1" "c2" none "INCOME" sampleSession rfl).1
      (by decide),
   ((EnsureAndCreate_by_id sampleEnv (some Handle.tx) "u1" "c1" none "INCOME" sampleSession rfl).2.1
      ⟨"c1", "EXPENSE", "food", "", "u1"⟩ (by decide) rfl rfl (by decide)).1 (by decide),
   ((EnsureAndCreate_by_id sampleEnv (some Handle.tx) "u1" "c1" none "EXPENSE" sampleSession rfl).2.1
      ⟨"c1", "EXPENSE", "food", "", "u1"⟩ (by decide) rfl rfl (by decide)).2 rfl⟩

/-! ## Inline categories -/

theorem validateStruct_ok (input : CreateCategoryInput)
    (htype : input.Type_ ∈ validTransactionTypes) (hname : input.Name ≠ "") :
    validateStruct input = [] := by
  have h1 : input.Type_ ≠ "" := by
    intro h0
    rw [h0] at htype
    exact absurd htype (by decide)
  have h2 : input.Type_ ∈ ["INCOME", "EXPENSE", "SAVING", "INSTALLMENTS"] := htype
  unfold validateStruct
  rw [if_neg h1, if_neg (not_not.mpr h2), if_neg hname]
  rfl

theorem createWithDB_ok_of_valid (env : Env) (db : Option Handle) (userID : String)
    (input : CreateCategoryInput) (s : Session)
    (htype : input.Type_ ∈ validTransactionTypes) (hname : input.Name ≠ "")
    (hstore : env.fault s.stmts = false) :
    createWithDB env db userID input s
      = (.ok ⟨env.uuid s.uuids, input.Type_, input.Name, input.Note, userID⟩,
          (({ s with uuids := s.uuids + 1 } : Session).write (db.getD Handle.root)
            (fun d => { d with categories := d.categories
              ++ [⟨env.uuid s.uuids, input.Type_, input.Name, input.Note, userID⟩] })).tick) := by
  unfold createWithDB
  rw [validateStruct_ok input htype hname]
  simp only [NewString, insertCategory, hstore, Bool.false_eq_true, if_false]

/-- C11: inline category resolution.  For a request without `categoryId`, with inline
category fields having a non-empty name, whose transaction type is one of the four valid
types (as it is in every request that `Create` resolves, validation coming first), and
when the insert statement does not fail in the storage layer:
`EnsureAndCreate` fails with `TransactionCategoryTypeMismatch` and leaves the store as it
is when the inline type is non-empty and differs from the transaction type; otherwise it
returns a new category owned by the requesting user, with the inline name and note and
the type of the transaction, and the table read through its handle gains exactly that
category while the transactions stay as they are. -/
theorem EnsureAndCreate_inline (env : Env) (db : Option Handle) (userID : String)
    (payload : UpdateCategoryPayload) (transactionType : TransactionType) (s : Session)
    (hname : payload.Name ≠ "") (htype : transactionType ∈ validTransactionTypes)
    (hstore : env.fault s.stmts = false) :
    (payload.Type_ ≠ "" ∧ payload.Type_ ≠ transactionType →
        EnsureAndCreate env db userID none (some payload) transactionType s
          = (.error (.app (New TransactionCategoryTypeMismatch .none)), s))
      ∧ (¬ (payload.Type_ ≠ "" ∧ payload.Type_ ≠ transactionType) →
          (EnsureAndCreate env db userID none (some payload) transactionType s).1
              = .ok (some ⟨env.uuid s.uuids, transactionType, payload.Name, payload.Note, userID⟩)
            ∧ ((EnsureAndCreate env db userID none (some payload) transactionType s).2.view
                  (db.getD Handle.root)).categories
                = (s.view (db.getD Handle.root)).categories
                  ++ [⟨env.uuid s.uuids, transactionType, payload.Name, payload.Note, userID⟩]
            ∧ ((EnsureAndCreate env db userID none (some payload) transactionType s).2.view
                  (db.getD Handle.root)).transactions
                = (s.view (db.getD Handle.root)).transactions) := by
  constructor
  · intro hmis
    unfold EnsureAndCreate
    simp only [if_pos hmis]
  · intro hok
    have hin : (if payload.Type_ ≠ "" then
          ({ Type_ := payload.Type_, Name := payload.Name, Note := payload.Note } :
            CreateCategoryInput)
        else { Type_ := transactionType, Name := payload.Name, Note := payload.Note })
        = { Type_ := transactionType, Name := payload.Name, Note := payload.Note } := by
      by_cases h0 : payload.Type_ = ""
      · rw [if_neg (not_not.mpr h0)]
      · rw [if_pos h0]
        have : payload.Type_ = transactionType := by
          by_contra hne
          exact hok ⟨h0, hne⟩
        rw [this]
    unfold EnsureAndCreate
    simp only [if_neg hok, hin]
    rw [createWithDB_ok_of_valid env db userID _ s htype hname hstore]
    cases hdb : db.getD Handle.root <;>
      simp [Session.view, Session.write, Session.tick]

/-- The inline category `gifts` for an EXPENSE transaction of `u1` on the sample store: it
is created under the next identifier with the type EXPENSE; with the inline type INCOME
the call fails with `TransactionCategoryTypeMismatch` and the store is as before. -/
theorem EnsureAndCreate_inline_witness :
    (EnsureAndCreate sampleEnv (some Handle.tx) "u1" none (some giftsPayload) "EXPENSE"
          sampleSession).1
        = .ok (some ⟨"id-0", "EXPENSE", "gifts", "", "u1"⟩)
      ∧ (EnsureAndCreate sampleEnv (some Handle.tx) "u1" none (some giftsPayload) "EXPENSE"
          sampleSession).2.working.categories
        = sampleSession.working.categories ++ [⟨"id-0", "EXPENSE", "gifts", "", "u1"⟩]
      ∧ EnsureAndCreate sampleEnv (some Handle.tx) "u1" none
            (some { giftsPayload with Type_ := "INCOME" }) "EXPENSE" sampleSession
          = (.error (.app (New TransactionCategoryTypeMismatch .none)), sampleSession) := by
  have h := (EnsureAndCreate_inline sampleEnv (some Handle.tx) "u1" giftsPayload "EXPENSE"
    sampleSession (by decide) (by decide) rfl).2 (by decide)
  exact ⟨h.1, h.2.1,
    (EnsureAndCreate_inline sampleEnv (some Handle.tx) "u1" { giftsPayload with Type_ := "INCOME" }
      "EXPENSE" sampleSession (by decide) (by decide) rfl).1 (by decide)⟩

/-! ## The category of a created transaction -/

theorem takeCategory_ok {env : Env} {exec : Handle} {categoryID userID : String}
    {s s1 : Session} {c : Category}
    (h : takeCategory env exec categoryID userID s = (.ok c, s1)) :
    c ∈ (s.view exec).categories ∧ c.CategoryID = categoryID ∧ c.UserID = userID := by
  unfold takeCategory at h
  split at h
  · cases h
  · split at h
    · rename_i c2 hfind
      cases h
      have h1 := List.find?_some hfind
      simp only [decide_eq_true_eq] at h1
      exact ⟨List.mem_of_find?_eq_some hfind, h1.1, h1.2⟩
    · cases h

theorem getByIDWithDB_ok {env : Env} {db : Option Handle} {userID categoryID : String}
    {s s1 : Session} {c : Category}
    (h : getByIDWithDB env db userID categoryID s = (.ok c, s1)) :
    c ∈ (s.view (db.getD Handle.root)).categories ∧ c.CategoryID = categoryID
      ∧ c.UserID = userID := by
  unfold getByIDWithDB at h
  simp only at h
  split at h
  · split at h <;> cases h
  · rename_i heq
    cases h
    exact takeCategory_ok heq

theorem insertCategory_ok {env : Env} {row : Category} {s s1 : Session}
    (h : insertCategory env Handle.tx row s = (none, s1)) :
    s1.working.categories = s.working.categories ++ [row] := by
  unfold insertCategory at h
  split at h
  · cases h
  · cases h
    simp [Session.tick, Session.write]

theorem insertCategory_err {env : Env} {exec : Handle} {row : Category} {s s1 : Session}
    {e : GoError} (h : insertCategory env exec row s = (some e, s1)) :
    s1.working = s.working ∧ s1.committed = s.committed := by
  unfold insertCategory at h
  split at h
  · cases h
    simp [Session.tick]
  · cases h

theorem createWithDB_ok {env : Env} {userID : String} {input : CreateCategoryInput}
    {s s1 : Session} {c : Category}
    (h : createWithDB env (some Handle.tx) userID input s = (.ok c, s1)) :
    c.UserID = userID ∧ c.Type_ = input.Type_ ∧ c.Name = input.Name ∧ c.Note = input.Note
      ∧ s1.working.categories = s.working.categories ++ [c] := by
  unfold createWithDB at h
  split at h
  · cases h
  · simp only [NewString, Option.getD_some] at h
    split at h
    · cases h
    · rename_i heq
      cases h
      have h2 := insertCategory_ok heq
      exact ⟨rfl, rfl, rfl, rfl, h2⟩

theorem EnsureAndCreate_ok {env : Env} {userID : String} {categoryID : Option String}
    {payload : Option UpdateCategoryPayload} {transactionType : TransactionType}
    {s s1 : Session} {r : Option Category}
    (h : EnsureAndCreate env (some Handle.tx) userID categoryID payload transactionType s
      = (.ok r, s1)) :
    ∃ c, r = some c ∧ c ∈ s1.working.categories ∧ c.UserID = userID
      ∧ c.Type_ = transactionType
      ∧ ∃ extra, s1.working.categories = s.working.categories ++ extra := by
  unfold EnsureAndCreate at h
  split at h
  · split at h
    · cases h
    · rename_i c s2 heq
      have ht := getByIDWithDB_tables heq
      have hc := getByIDWithDB_ok heq
      split at h
      · cases h
      · rename_i hty
        cases h
        simp only [Option.getD_some, Session.view] at hc
        refine ⟨c, rfl, ?_, hc.2.2, not_not.mp hty, [], ?_⟩
        · rw [ht.2]; exact hc.1
        · rw [ht.2]; simp
  · split at h
    · cases h
    · rename_i pl
      split at h
      · cases h
      · rename_i hchk
        simp only at h
        split at h
        · cases h
        · rename_i c s2 heq
          cases h
          obtain ⟨hu, hty, _, _, hcat⟩ := createWithDB_ok heq
          refine ⟨c, rfl, ?_, hu, ?_, [c], hcat⟩
          · rw [hcat]; simp
          · rw [hty]
            by_cases h0 : pl.Type_ = ""
            · rw [if_neg (not_not.mpr h0)]
            · rw [if_pos h0]
              by_contra hne
              exact hchk ⟨h0, hne⟩

theorem insertTransaction_categories {env : Env} {row : Transaction} {s s1 : Session}
    {r : Option GoError} (h : insertTransaction env Handle.tx row s = (r, s1)) :
    s1.uuids = s.uuids
      ∧ (∃ extra, s1.working.categories = s.working.categories ++ extra)
      ∧ ∀ c2 ∈ s1.working.categories,
          c2 ∈ s.working.categories ∨ c2.CategoryID = row.TransactionID := by
  unfold insertTransaction at h
  split at h
  · cases h
    exact ⟨rfl, ⟨[], by simp [Session.tick]⟩, fun c2 hc2 => Or.inl hc2⟩
  · cases h
    refine ⟨rfl, ?_, ?_⟩
    · simp only [Session.tick, Session.write]
      split
      · split
        · exact ⟨[], by simp⟩
        · exact ⟨_, rfl⟩
      · exact ⟨[], by simp⟩
    · intro c2 hc2
      simp only [Session.tick, Session.write] at hc2
      split at hc2
      · split at hc2
        · exact Or.inl hc2
        · rw [List.mem_append, List.mem_singleton] at hc2
          rcases hc2 with hc2 | hc2
          · exact Or.inl hc2
          · exact Or.inr (by rw [hc2])
      · exact Or.inl hc2

theorem insertTransaction_clone {env : Env} {row : Transaction} {s s1 : Session}
    {c : Category} (h : insertTransaction env Handle.tx row s = (none, s1))
    (hc : row.Category = some c)
    (hfresh : ∀ c2 ∈ s.working.categories, c2.CategoryID ≠ row.TransactionID) :
    { c with CategoryID := row.TransactionID } ∈ s1.working.categories := by
  unfold insertTransaction at h
  split at h
  · cases h
  · cases h
    have hany : s.working.categories.any (fun c2 => c2.CategoryID = row.TransactionID)
        = false := by
      rw [List.any_eq_false]
      intro c2 hc2
      simpa using hfresh c2 hc2
    simp only [Session.tick, Session.write, hc, hany, Bool.false_eq_true, if_false]
    exact List.mem_append_right _ (List.mem_singleton.mpr rfl)

theorem takeCategory_uuids {env : Env} {exec : Handle} {categoryID userID : String}
    {s s1 : Session} {r : Except GoError Category}
    (h : takeCategory env exec categoryID userID s = (r, s1)) : s1.uuids = s.uuids := by
  unfold takeCategory at h
  split at h
  · cases h; rfl
  · split at h <;> cases h <;> rfl

theorem getByIDWithDB_uuids {env : Env} {db : Option Handle} {userID categoryID : String}
    {s s1 : Session} {r : Except GoError Category}
    (h : getByIDWithDB env db userID categoryID s = (r, s1)) : s1.uuids = s.uuids := by
  unfold getByIDWithDB at h
  simp only at h
  split at h
  · rename_i heq
    split at h <;> cases h <;> exact takeCategory_uuids heq
  · rename_i heq
    cases h
    exact takeCategory_uuids heq

theorem createWithDB_uuids {env : Env} {userID : String} {input : CreateCategoryInput}
    {s s1 : Session} {c : Category}
    (h : createWithDB env (some Handle.tx) userID input s = (.ok c, s1)) :
    c.CategoryID = env.uuid s.uuids ∧ s1.uuids = s.uuids + 1 := by
  unfold createWithDB at h
  split at h
  · cases h
  · simp only [NewString, Option.getD_some] at h
    split at h
    · cases h
    · rename_i heq
      cases h
      unfold insertCategory at heq
      split at heq
      · cases heq
      · cases heq
        exact ⟨rfl, rfl⟩

theorem EnsureAndCreate_uuids {env : Env} {userID : String} {categoryID : Option String}
    {payload : Option UpdateCategoryPayload} {transactionType : TransactionType}
    {s s1 : Session} {r : Option Category}
    (h : EnsureAndCreate env (some Handle.tx) userID categoryID payload transactionType s
      = (.ok r, s1)) :
    s.uuids ≤ s1.uuids ∧ s1.uuids ≤ s.uuids + 1
      ∧ ∀ c2 ∈ s1.working.categories,
          c2 ∈ s.working.categories ∨ (c2.CategoryID = env.uuid s.uuids ∧ s.uuids < s1.uuids) := by
  unfold EnsureAndCreate at h
  split at h
  · split at h
    · cases h
    · rename_i c s2 heq
      have ht := getByIDWithDB_tables heq
      have hu := getByIDWithDB_uuids heq
      split at h
      · cases h
      · cases h
        refine ⟨by omega, by omega, ?_⟩
        intro c2 hc2
        rw [ht.2] at hc2
        exact Or.inl hc2
  · split at h
    · cases h
    · split at h
      · cases h
      · simp only at h
        split at h
        · cases h
        · rename_i c s2 heq
          cases h
          obtain ⟨hid, hu⟩ := createWithDB_uuids heq
          obtain ⟨_, _, _, _, hcat⟩ := createWithDB_ok heq
          refine ⟨by omega, by omega, ?_⟩
          intro c2 hc2
          rw [hcat, List.mem_append, List.mem_singleton] at hc2
          rcases hc2 with hc2 | hc2
          · exact Or.inl hc2
          · exact Or.inr ⟨by rw [hc2]; exact hid, by omega⟩

theorem createLoop_run (env : Env) (userID : String) (payloads : List CreateTransactionInput) :
    ∀ (index : Nat) (created : List Transaction) (s s1 : Session) (out : List Transaction),
      createLoop env userID index payloads created s = (.ok out, s1) →
      ∃ built : List Transaction,
        out = created ++ built.map afterCreate
          ∧ List.Forall₂ (carries userID) payloads built
          ∧ s1.working.transactions = s.working.transactions ++ built.map stored
          ∧ (∃ extra, s1.working.categories = s.working.categories ++ extra)
          ∧ (∀ t ∈ built, ∃ c ∈ s1.working.categories,
              t.Category = some c ∧ t.CategoryID = some c.CategoryID ∧ c.UserID = userID
                ∧ c.Type_ = t.Type_)
          ∧ (∀ bound : Nat, s.uuids + 2 * payloads.length ≤ bound →
              (∀ m n, s.uuids ≤ m → m < n → n < bound → env.uuid m ≠ env.uuid n) →
              (∀ n, s.uuids ≤ n → n < bound →
                ∀ c ∈ s.working.categories, c.CategoryID ≠ env.uuid n) →
              ∀ t ∈ built, ∀ c, t.Category = some c →
                { c with CategoryID := t.TransactionID } ∈ s1.working.categories) := by
  induction payloads with
  | nil =>
    intro index created s s1 out h
    unfold createLoop at h
    cases h
    exact ⟨[], by simp, List.Forall₂.nil, by simp, ⟨[], by simp⟩, by simp, by simp⟩
  | cons p rest ih =>
    intro index created s s1 out h
    unfold createLoop at h
    split at h
    · cases h
    · rename_i q hval
      have hq := validateTransaction_ok hval
      subst hq
      split at h
      · cases h
      · rename_i category s2 hens
        have h1 := (EnsureAndCreate_tx hens).2
        obtain ⟨c, hr, hmem, hu, hty, extra, hext⟩ := EnsureAndCreate_ok hens
        obtain ⟨hu1, hu2, hnew⟩ := EnsureAndCreate_uuids hens
        subst hr
        simp only [NewString] at h
        split at h
        · cases h
        · rename_i s3 hins
          have h2 := insertTransaction_ok hins
          obtain ⟨hu3, ⟨extra3, hext3⟩, hnew3⟩ := insertTransaction_categories hins
          obtain ⟨built, hout, hall, htx, ⟨extra2, hext2⟩, hcat, hclone⟩ := ih _ _ _ _ _ h
          rw [List.append_assoc] at hout
          have hgrow : ∀ x ∈ s3.working.categories, x ∈ s1.working.categories := by
            intro x hx
            rw [hext2]
            exact List.mem_append_left _ hx
          refine ⟨_ :: built, hout, List.Forall₂.cons ?_ hall, ?_, ⟨extra ++ extra3 ++ extra2, ?_⟩,
            ?_, ?_⟩
          · simp [carries, normalized]
          · rw [htx, h2]
            simp only [List.singleton_append, List.map_cons, List.append_assoc]
            rw [← h1]
          · rw [hext2, hext3]
            show s2.working.categories ++ extra3 ++ extra2 = _
            rw [hext]
            simp only [List.append_assoc]
          · intro t ht
            rw [List.mem_cons] at ht
            rcases ht with ht | ht
            · subst ht
              refine ⟨c, hgrow c ?_, rfl, rfl, hu, hty⟩
              rw [hext3]
              exact List.mem_append_left _ hmem
            · exact hcat t ht
          · intro bound hb hdist hfresh t ht c0 hc0
            simp only [List.length_cons] at hb
            have hfresh2 : ∀ n, s2.uuids ≤ n → n < bound →
                ∀ x ∈ s2.working.categories, x.CategoryID ≠ env.uuid n := by
              intro n hn1 hn2 x hx
              rcases hnew x hx with hx | ⟨hx, hlt⟩
              · exact hfresh n (by omega) hn2 x hx
              · rw [hx]
                exact hdist _ _ (le_refl _) (by omega) hn2
            rw [List.mem_cons] at ht
            rcases ht with ht | ht
            · subst ht
              have hc1 : c0 = c := (Option.some.inj hc0).symm
              subst hc1
              apply hgrow
              exact insertTransaction_clone hins rfl
                (fun x hx => hfresh2 _ (le_refl _) (by omega) x hx)
            · refine hclone bound (by simp only [hu3]; omega) ?_ ?_ t ht c0 hc0
              · intro m n hm hmn hn
                exact hdist m n (by simp only [hu3] at hm; omega) hmn hn
              · intro n hn1 hn2 x hx
                simp only [hu3] at hn1
                rcases hnew3 x hx with hx | hx
                · exact hfresh2 n (by omega) hn2 x hx
                · rw [hx]
                  exact hdist _ _ (by omega) (by omega) hn2

theorem Create_run {env : Env} {userID : String} {payloads : List CreateTransactionInput}
    {s s1 : Session} {created : List Transaction}
    (h : Create env userID payloads s = (.ok created, s1)) :
    ∃ built : List Transaction,
      created = built.map afterCreate
        ∧ List.Forall₂ (carries userID) payloads built
        ∧ s1.committed.transactions = s.committed.transactions ++ built.map stored
        ∧ (∃ extra, s1.committed.categories = s.committed.categories ++ extra)
        ∧ (∀ t ∈ built, ∃ c ∈ s1.committed.categories,
            t.Category = some c ∧ t.CategoryID = some c.CategoryID ∧ c.UserID = userID
              ∧ c.Type_ = t.Type_)
        ∧ (∀ bound : Nat, s.uuids + 2 * payloads.length ≤ bound →
            (∀ m n, s.uuids ≤ m → m < n → n < bound → env.uuid m ≠ env.uuid n) →
            (∀ n, s.uuids ≤ n → n < bound →
              ∀ c ∈ s.committed.categories, c.CategoryID ≠ env.uuid n) →
            ∀ t ∈ built, ∀ c, t.Category = some c →
              { c with CategoryID := t.TransactionID } ∈ s1.committed.categories) := by
  unfold Create at h
  split at h
  · cases h
  · unfold gorm.Transaction at h
    split at h
    · rename_i heq
      cases h
      obtain ⟨built, hout, hall, htx, hext, hcat, hclone⟩ :=
        createLoop_run env userID payloads _ _ _ _ _ heq
      simp only [List.nil_append] at hout
      exact ⟨built, hout, hall, htx, hext, hcat, hclone⟩
    · cases h

theorem Forall₂_right_mem {α β : Type} {R : α → β → Prop} {l1 : List α} {l2 : List β}
    (h : List.Forall₂ R l1 l2) : ∀ b ∈ l2, ∃ a ∈ l1, R a b := by
  induction h with
  | nil => intro b hb; cases hb
  | cons hr _ ih =>
    intro b hb
    rw [List.mem_cons] at hb
    rcases hb with hb | hb
    · subst hb
      exact ⟨_, List.mem_cons_self _ _, hr⟩
    · obtain ⟨a, ha, hab⟩ := ih b hb
      exact ⟨a, List.mem_cons_of_mem _ ha, hab⟩

/-- C12: type agreement.  Every transaction returned by a successful `Create` has a
non-nil `CategoryID`, which is the id of the transaction itself (saving the association
writes it there); when the identifiers drawn during the call are fresh, that id is the id
of a category of the resulting store, the one attached to the returned transaction, which
is owned by the same user and has the type of the transaction.  Every row that the
transactions table gains holds the id of a category of the resulting store (the resolved
one) that is owned by the same user and has the type of the row; hence, starting from a
store in which every transaction with a category has the type of its category, `Create`
leads to a store with the same property. -/
theorem Create_type_agreement (env : Env) (userID : String)
    (payloads : List CreateTransactionInput) (s s1 : Session) (created : List Transaction)
    (h : Create env userID payloads s = (.ok created, s1)) :
    (∀ t ∈ created, t.CategoryID = some t.TransactionID)
      ∧ (freshIds env s (2 * payloads.length) →
          ∀ t ∈ created, ∃ c ∈ s1.committed.categories,
            t.CategoryID = some c.CategoryID ∧ t.Category = some c ∧ c.UserID = t.UserID
              ∧ c.Type_ = t.Type_)
      ∧ (∃ rows, s1.committed.transactions = s.committed.transactions ++ rows
          ∧ rows.length = created.length
          ∧ ∀ row ∈ rows, ∃ c ∈ s1.committed.categories,
              row.CategoryID = some c.CategoryID ∧ c.UserID = row.UserID ∧ c.Type_ = row.Type_)
      ∧ (typeAgreement s.committed → typeAgreement s1.committed) := by
  obtain ⟨built, hcreated, hall, htx, ⟨extra, hext⟩, hcat, hclone⟩ := Create_run h
  have huser : ∀ t ∈ built, t.UserID = userID := by
    intro t ht
    obtain ⟨q, _, hq⟩ := Forall₂_right_mem hall t ht
    exact hq.2.2.2.2.2.2.2.2
  have hrows : ∀ row ∈ built.map stored, ∃ c ∈ s1.committed.categories,
      row.CategoryID = some c.CategoryID ∧ c.UserID = row.UserID ∧ c.Type_ = row.Type_ := by
    intro row hrow
    obtain ⟨t, ht, rfl⟩ := List.mem_map.mp hrow
    obtain ⟨c, hc, _, hid, hcu, hty⟩ := hcat t ht
    exact ⟨c, hc, hid, by rw [hcu]; exact (huser t ht).symm, hty⟩
  refine ⟨?_, ?_, ⟨built.map stored, htx, by rw [hcreated]; simp, hrows⟩, ?_⟩
  · intro t ht
    rw [hcreated] at ht
    obtain ⟨t0, ht0, rfl⟩ := List.mem_map.mp ht
    obtain ⟨c, _, hc0, _⟩ := hcat t0 ht0
    rw [(afterCreate_category t0 c hc0).1, (afterCreate_columns t0).1]
  · intro hfresh t ht
    rw [hcreated] at ht
    obtain ⟨t0, ht0, rfl⟩ := List.mem_map.mp ht
    obtain ⟨c, _, hc0, _, hcu, hty⟩ := hcat t0 ht0
    have hmem := hclone (s.uuids + 2 * payloads.length) (le_refl _) hfresh.1 hfresh.2 t0 ht0 c hc0
    obtain ⟨hid, hcl⟩ := afterCreate_category t0 c hc0
    obtain ⟨_, hty2, _, _, _, _, _, _, _, hu2, _⟩ := afterCreate_columns t0
    refine ⟨_, hmem, hid, hcl, ?_, ?_⟩
    · rw [hu2, huser t0 ht0]
      exact hcu
    · rw [hty2]
      exact hty
  · intro hinv t ht id hid
    rw [htx, List.mem_append] at ht
    rcases ht with ht | ht
    · obtain ⟨c, hc, h1, h2⟩ := hinv t ht id hid
      exact ⟨c, by rw [hext]; exact List.mem_append_left _ hc, h1, h2⟩
    · obtain ⟨c, hc, hcid, _, hty⟩ := hrows t ht
      have hid2 : t.CategoryID = some id := hid
      rw [hcid] at hid2
      exact ⟨c, hc, Option.some.inj hid2, hty⟩

/-- The request `inlineRequest` of user `u1` on the sample ledger, whose only categorised
transaction is an EXPENSE in the EXPENSE category `c1`: type agreement holds before, and
so after; the identifiers `id-0` and `id-1` are fresh, and the returned transaction `id-1`
has `CategoryID` `id-1`, the id of an INCOME category of `u1` in the resulting store. -/
theorem Create_type_agreement_witness :
    typeAgreement ledgerSession.committed
      ∧ typeAgreement (Create sampleEnv "u1" [inlineRequest] ledgerSession).2.committed
      ∧ ∃ c ∈ (Create sampleEnv "u1" [inlineRequest] ledgerSession).2.committed.categories,
          c.CategoryID = "id-1" ∧ c.UserID = "u1" ∧ c.Type_ = "INCOME" := by
  have h0 : typeAgreement ledgerSession.committed := by
    intro t ht id hid
    simp only [ledgerSession, List.mem_cons, List.mem_singleton, List.not_mem_nil,
      or_false] at ht
    rcases ht with rfl | rfl | rfl
    · refine ⟨⟨"c1", "EXPENSE", "food", "", "u1"⟩, by decide, ?_, rfl⟩
      exact Option.some.inj hid
    · cases hid
    · cases hid
  have hfresh : freshIds sampleEnv ledgerSession (2 * [inlineRequest].length) := by
    constructor
    · intro m n hm hmn hn
      have hn2 : n < 2 := hn
      interval_cases n <;> interval_cases m
      decide
    · intro n _ hn
      have hn2 : n < 2 := hn
      interval_cases n <;> decide
  have h := Create_type_agreement sampleEnv "u1" [inlineRequest] ledgerSession
    (Create sampleEnv "u1" [inlineRequest] ledgerSession).2
    [afterCreate (bonusStruct "id-1" "id-0")] (by rfl)
  refine ⟨h0, h.2.2.2 h0, ?_⟩
  obtain ⟨c, hc, hid, _, hu, hty⟩ := h.2.1 hfresh _ (List.mem_singleton.mpr rfl)
  exact ⟨c, hc, (Option.some.inj hid).symm, hu, hty⟩

theorem balancesStep_other (b : TransactionBalances) (t : Transaction)
    (h : ¬ t.Type_ ∈ ["EXPENSE", "INSTALLMENTS", "INCOME", "SAVING"]) : balancesStep b t = b := by
  simp only [List.mem_cons, List.mem_singleton, List.not_mem_nil, or_false, not_or] at h
  have h1 : ¬ (t.Type_ = "EXPENSE" ∨ t.Type_ = "INSTALLMENTS") := fun hc => hc.elim h.1 h.2.1
  simp only [balancesStep, TransactionExpense, TransactionInstallment, TransactionIncome,
    TransactionSaving, if_neg h1, if_neg h.2.2.1, if_neg h.2.2.2]

theorem foldl_balancesStep (txs : List Transaction) :
    ∀ b : TransactionBalances,
      txs.foldl balancesStep b
        = ⟨(txs.filter (fun t => t.Type_ = "EXPENSE" ∨ t.Type_ = "INSTALLMENTS")).foldl
              addToSummary b.Expenses,
           (txs.filter (fun t => t.Type_ = "INCOME")).foldl addToSummary b.Incomes,
           (txs.filter (fun t => t.Type_ = "SAVING")).foldl addToSummary b.Savings⟩ := by
  induction txs with
  | nil => intro b; rfl
  | cons t rest ih =>
    intro b
    rw [List.foldl_cons, ih]
    by_cases h1 : t.Type_ = "EXPENSE" ∨ t.Type_ = "INSTALLMENTS"
    · have h2 : ¬ t.Type_ = "INCOME" := by
        rintro h
        rw [h] at h1
        exact absurd h1 (by decide)
      have h3 : ¬ t.Type_ = "SAVING" := by
        rintro h
        rw [h] at h1
        exact absurd h1 (by decide)
      have hs : balancesStep b t = { b with Expenses := addToSummary b.Expenses t } := by
        simp only [balancesStep, TransactionExpense, TransactionInstallment, if_pos h1]
      rw [hs]
      simp [List.filter_cons, h1, h2, h3]
    · by_cases h2 : t.Type_ = "INCOME"
      · have h3 : ¬ t.Type_ = "SAVING" := by
          rw [h2]; decide
        have hs : balancesStep b t = { b with Incomes := addToSummary b.Incomes t } := by
          simp only [balancesStep, TransactionExpense, TransactionInstallment,
            TransactionIncome, if_neg h1, if_pos h2]
        rw [hs]
        simp [List.filter_cons, h1, h2, h3]
      · by_cases h3 : t.Type_ = "SAVING"
        · have hs : balancesStep b t = { b with Savings := addToSummary b.Savings t } := by
            simp only [balancesStep, TransactionExpense, TransactionInstallment,
              TransactionIncome, TransactionSaving, if_neg h1, if_neg h2, if_pos h3]
          rw [hs]
          simp [List.filter_cons, h1, h2, h3]
        · have hs : balancesStep b t = b := by
            simp only [balancesStep, TransactionExpense, TransactionInstallment,
              TransactionIncome, TransactionSaving, if_neg h1, if_neg h2, if_neg h3]
          rw [hs]
          simp [List.filter_cons, h1, h2, h3]

theorem Balances_of_List {env : Env} {userID : String} {filters : TransactionFilters}
    {s s1 : Session} {txs : List Transaction}
    (h : TransactionService.List env userID filters s = (.ok txs, s1)) :
    Balances env userID filters s
      = (.ok ⟨(txs.filter (fun t => t.Type_ = "EXPENSE" ∨ t.Type_ = "INSTALLMENTS")).foldl
                addToSummary zeroSummary,
              (txs.filter (fun t => t.Type_ = "INCOME")).foldl addToSummary zeroSummary,
              (txs.filter (fun t => t.Type_ = "SAVING")).foldl addToSummary zeroSummary⟩,
          s1) := by
  unfold Balances
  rw [h]
  simp only [foldl_balancesStep]
  rfl

/-- C14: `Balances` buckets by transaction type: on the list of matching transactions that
`List` returns, the Expenses summary is the left fold of `addToSummary` over exactly the
transactions of type EXPENSE or INSTALLMENTS, Incomes over exactly those of type INCOME and
Savings over exactly those of type SAVING, each starting from the all-zero summary; a
transaction of any other type changes none of the three summaries. -/
theorem Balances_buckets (env : Env) (userID : String) (filters : TransactionFilters)
    (s s1 : Session) (txs : List Transaction)
    (h : TransactionService.List env userID filters s = (.ok txs, s1)) :
    Balances env userID filters s
        = (.ok ⟨(txs.filter (fun t => t.Type_ = "EXPENSE" ∨ t.Type_ = "INSTALLMENTS")).foldl
                  addToSummary ⟨0, 0, 0, 0⟩,
                (txs.filter (fun t => t.Type_ = "INCOME")).foldl addToSummary ⟨0, 0, 0, 0⟩,
                (txs.filter (fun t => t.Type_ = "SAVING")).foldl addToSummary ⟨0, 0, 0, 0⟩⟩,
            s1)
      ∧ ∀ (b : TransactionBalances) (t : Transaction),
          ¬ t.Type_ ∈ ["EXPENSE", "INSTALLMENTS", "INCOME", "SAVING"] → balancesStep b t = b :=
  ⟨Balances_of_List h, balancesStep_other⟩

/-- On the sample ledger, for `u1`: the EXPENSE transaction goes to Expenses, the INCOME
transaction to Incomes, and Savings stays all-zero. -/
theorem Balances_buckets_witness :
    Balances sampleEnv "u1" noFilters ledgerSession
      = (.ok ⟨addToSummary ⟨0, 0, 0, 0⟩ expenseRow,
              addToSummary ⟨0, 0, 0, 0⟩ incomeRow,
              ⟨0, 0, 0, 0⟩⟩,
          ledgerSession.tick) :=
  (Balances_buckets sampleEnv "u1" noFilters ledgerSession ledgerSession.tick
    [incomeRow, expenseRow] rfl).1

/-! ## Rounding and accumulation -/

theorem isCents_round (x : ℚ) : isCents (round x) := by
  refine ⟨mathRound (x * 100), ?_⟩
  unfold round
  field_simp

theorem mathRound_intCast (n : Int) : mathRound (n : ℚ) = n := by
  have hhalf : ⌊(1 / 2 : ℚ)⌋ = 0 := by
    rw [Int.floor_eq_iff]
    norm_num
  unfold mathRound
  split
  · rw [Int.floor_int_add, hhalf, add_zero]
  · rw [show (-(n : ℚ) + 1 / 2) = ((-n : Int) : ℚ) + 1 / 2 by push_cast; ring,
      Int.floor_int_add, hhalf, add_zero, neg_neg]

theorem round_of_isCents (x : ℚ) (h : isCents x) : round x = x := by
  obtain ⟨n, hn⟩ := h
  unfold round
  have hx : x * 100 = (n : ℚ) := by rw [← hn]; ring
  rw [hx, mathRound_intCast, ← hx]
  field_simp

theorem mathRound_near (y : ℚ) : |(mathRound y : ℚ) - y| ≤ 1 / 2 := by
  unfold mathRound
  split
  · have h1 := Int.floor_le (y + 1 / 2)
    have h2 := Int.lt_floor_add_one (y + 1 / 2)
    rw [abs_le]
    constructor <;> linarith
  · have h1 := Int.floor_le (-y + 1 / 2)
    have h2 := Int.lt_floor_add_one (-y + 1 / 2)
    rw [abs_le]
    push_cast
    constructor <;> linarith

theorem round_near (x : ℚ) : |round x - x| ≤ 1 / 200 := by
  have h := mathRound_near (x * 100)
  unfold round
  rw [abs_le] at h ⊢
  constructor
  · have := h.1
    field_simp
    linarith
  · have := h.2
    field_simp
    linarith

theorem addToSummary_eq (summary : BalanceSummary) (trx : Transaction) :
    addToSummary summary trx
      = ⟨round (summary.Total + (contribution trx).Total),
         round (summary.UYU + (contribution trx).UYU),
         round (summary.USD + (contribution trx).USD),
         round (summary.EUR + (contribution trx).EUR)⟩ := by
  unfold addToSummary contribution
  simp only [CurrencyUYU, CurrencyUSD, CurrencyEUR]
  by_cases h1 : trx.Currency = "UYU"
  · have h2 : ¬ trx.Currency = "USD" := by rw [h1]; decide
    have h3 : ¬ trx.Currency = "EUR" := by rw [h1]; decide
    simp [h1, h2, h3]
  · by_cases h2 : trx.Currency = "USD"
    · have h3 : ¬ trx.Currency = "EUR" := by rw [h2]; decide
      cases hr : trx.ExchangeRate <;> simp [h1, h2, h3]
    · by_cases h3 : trx.Currency = "EUR"
      · cases hr : trx.ExchangeRate <;> simp [h1, h2, h3]
      · simp [h1, h2, h3]

theorem addToSummary_inCents (summary : BalanceSummary) (trx : Transaction) :
    (addToSummary summary trx).inCents := by
  rw [addToSummary_eq]
  exact ⟨isCents_round _, isCents_round _, isCents_round _, isCents_round _⟩

theorem isCents_zero : isCents 0 := ⟨0, by norm_num⟩

theorem isCents_add {x y : ℚ} (hx : isCents x) (hy : isCents y) : isCents (x + y) := by
  obtain ⟨a, ha⟩ := hx
  obtain ⟨b, hb⟩ := hy
  exact ⟨a + b, by push_cast; rw [← ha, ← hb]; ring⟩

theorem foldl_addToSummary_inCents (txs : List Transaction) :
    ∀ b : BalanceSummary, b.inCents → (txs.foldl addToSummary b).inCents := by
  induction txs with
  | nil => intro b hb; exact hb
  | cons t rest ih =>
    intro b _
    rw [List.foldl_cons]
    exact ih _ (addToSummary_inCents b t)

theorem Balances_ledger :
    (Balances sampleEnv "u1" noFilters ledgerSession).1
      = .ok ⟨⟨100, 100, 0, 0⟩, ⟨2000, 0, 50, 0⟩, ⟨0, 0, 0, 0⟩⟩ := by
  have hl : TransactionService.List sampleEnv "u1" noFilters ledgerSession
      = (.ok [incomeRow, expenseRow], ledgerSession.tick) := rfl
  rw [Balances_of_List hl]
  have r0 : round 0 = 0 := round_of_isCents 0 isCents_zero
  have r1 : round 100 = 100 := round_of_isCents 100 ⟨10000, by norm_num⟩
  have r2 : round 50 = 50 := round_of_isCents 50 ⟨5000, by norm_num⟩
  have r3 : round 2000 = 2000 := round_of_isCents 2000 ⟨200000, by norm_num⟩
  simp [List.filter, incomeRow, expenseRow, addToSummary_eq, contribution, zeroSummary, r0, r1]
  norm_num [r2, r3]

/-- C15: per-currency accumulation, in exact arithmetic.  `addToSummary` adds the amount of
a UYU transaction to the UYU subtotal and to the total; it adds the amount of a USD (resp.
EUR) transaction to the USD (resp. EUR) subtotal, and `amount * exchangeRate` to the total
when the exchange rate is present, nothing when it is absent; each figure is then rounded
to 2 decimals, which leaves the sum as it is when the summary and what is added are whole
numbers of cents.  For EXPENSE 100 UYU and INCOME 50 USD at exchange rate 40, `Balances`
gives incomes.total = 2000, incomes.usd = 50, expenses.total = 100, expenses.uyu = 100 and
every other figure 0. -/
theorem addToSummary_per_currency (summary : BalanceSummary) (trx : Transaction) (rate : ℚ) :
    (trx.Currency = "UYU" →
        addToSummary summary trx
          = ⟨round (summary.Total + trx.Amount), round (summary.UYU + trx.Amount),
             round summary.USD, round summary.EUR⟩)
      ∧ (trx.Currency = "USD" → trx.ExchangeRate = some rate →
          addToSummary summary trx
            = ⟨round (summary.Total + trx.Amount * rate), round summary.UYU,
               round (summary.USD + trx.Amount), round summary.EUR⟩)
      ∧ (trx.Currency = "USD" → trx.ExchangeRate = none →
          addToSummary summary trx
            = ⟨round summary.Total, round summary.UYU,
               round (summary.USD + trx.Amount), round summary.EUR⟩)
      ∧ (trx.Currency = "EUR" → trx.ExchangeRate = some rate →
          addToSummary summary trx
            = ⟨round (summary.Total + trx.Amount * rate), round summary.UYU,
               round summary.USD, round (summary.EUR + trx.Amount)⟩)
      ∧ (trx.Currency = "EUR" → trx.ExchangeRate = none →
          addToSummary summary trx
            = ⟨round summary.Total, round summary.UYU,
               round summary.USD, round (summary.EUR + trx.Amount)⟩)
      ∧ (summary.inCents → (contribution trx).inCents →
          addToSummary summary trx
            = ⟨summary.Total + (contribution trx).Total, summary.UYU + (contribution trx).UYU,
               summary.USD + (contribution trx).USD, summary.EUR + (contribution trx).EUR⟩)
      ∧ (Balances sampleEnv "u1" noFilters ledgerSession).1
          = .ok ⟨⟨100, 100, 0, 0⟩, ⟨2000, 0, 50, 0⟩, ⟨0, 0, 0, 0⟩⟩ := by
  refine ⟨?_, ?_, ?_, ?_, ?_, ?_, Balances_ledger⟩
  · intro h
    rw [addToSummary_eq]
    simp [contribution, h]
  · intro h hr
    rw [addToSummary_eq]
    simp [contribution, h, hr]
  · intro h hr
    rw [addToSummary_eq]
    simp [contribution, h, hr]
  · intro h hr
    rw [addToSummary_eq]
    simp [contribution, h, hr]
  · intro h hr
    rw [addToSummary_eq]
    simp [contribution, h, hr]
  · intro hs hc
    rw [addToSummary_eq,
      round_of_isCents _ (isCents_add hs.1 hc.1),
      round_of_isCents _ (isCents_add hs.2.1 hc.2.1),
      round_of_isCents _ (isCents_add hs.2.2.1 hc.2.2.1),
      round_of_isCents _ (isCents_add hs.2.2.2 hc.2.2.2)]

/-- C16: figures are rounded to 2 decimals after each addition.  With amounts as exact
rationals, `round` is a whole number of cents at distance at most half a cent, half a cent
going away from zero; each of
Total, UYU, USD, EUR in the result of `addToSummary` is `round` of the previous value plus
the contribution of the transaction; so every figure of every summary returned by
`Balances` is a whole number of cents. -/
theorem addToSummary_rounds :
    (∀ x : ℚ, isCents (round x) ∧ |round x - x| ≤ 1 / 200)
      ∧ (round (1 / 200) = 1 / 100 ∧ round (-1 / 200) = -1 / 100)
      ∧ (∀ (summary : BalanceSummary) (trx : Transaction),
          (addToSummary summary trx).Total = round (summary.Total + (contribution trx).Total)
            ∧ (addToSummary summary trx).UYU = round (summary.UYU + (contribution trx).UYU)
            ∧ (addToSummary summary trx).USD = round (summary.USD + (contribution trx).USD)
            ∧ (addToSummary summary trx).EUR = round (summary.EUR + (contribution trx).EUR))
      ∧ (∀ (env : Env) (userID : String) (filters : TransactionFilters) (s s1 : Session)
          (b : TransactionBalances),
          Balances env userID filters s = (.ok b, s1) →
          (∃ n : Int, 100 * b.Expenses.Total = n) ∧ (∃ n : Int, 100 * b.Expenses.UYU = n)
            ∧ (∃ n : Int, 100 * b.Expenses.USD = n) ∧ (∃ n : Int, 100 * b.Expenses.EUR = n)
            ∧ (∃ n : Int, 100 * b.Incomes.Total = n) ∧ (∃ n : Int, 100 * b.Incomes.UYU = n)
            ∧ (∃ n : Int, 100 * b.Incomes.USD = n) ∧ (∃ n : Int, 100 * b.Incomes.EUR = n)
            ∧ (∃ n : Int, 100 * b.Savings.Total = n) ∧ (∃ n : Int, 100 * b.Savings.UYU = n)
            ∧ (∃ n : Int, 100 * b.Savings.USD = n) ∧ (∃ n : Int, 100 * b.Savings.EUR = n)) := by
  refine ⟨fun x => ⟨isCents_round x, round_near x⟩, ?_, ?_, ?_⟩
  · constructor <;> norm_num [round, mathRound]
  · intro summary trx
    rw [addToSummary_eq]
    exact ⟨rfl, rfl, rfl, rfl⟩
  · intro env userID filters s s1 b h
    have hz : zeroSummary.inCents := ⟨isCents_zero, isCents_zero, isCents_zero, isCents_zero⟩
    cases hl : TransactionService.List env userID filters s with
    | mk r s2 =>
      cases r with
      | error e =>
        unfold Balances at h
        rw [hl] at h
        cases h
      | ok txs =>
        rw [Balances_of_List hl] at h
        cases h
        have h1 := foldl_addToSummary_inCents
          (txs.filter (fun t => t.Type_ = "EXPENSE" ∨ t.Type_ = "INSTALLMENTS")) _ hz
        have h2 := foldl_addToSummary_inCents (txs.filter (fun t => t.Type_ = "INCOME")) _ hz
        have h3 := foldl_addToSummary_inCents (txs.filter (fun t => t.Type_ = "SAVING")) _ hz
        exact ⟨h1.1, h1.2.1, h1.2.2.1, h1.2.2.2, h2.1, h2.2.1, h2.2.2.1, h2.2.2.2,
          h3.1, h3.2.1, h3.2.2.1, h3.2.2.2⟩

theorem isCents_sum (l : List ℚ) (h : ∀ x ∈ l, isCents x) : isCents l.sum := by
  induction l with
  | nil => exact isCents_zero
  | cons x rest ih =>
    rw [List.sum_cons]
    exact isCents_add (h x (List.mem_cons_self _ _))
      (ih (fun y hy => h y (List.mem_cons_of_mem _ hy)))

theorem log_eq (x : ℚ) (e : Int) (h1 : (2 : ℚ) ^ e ≤ |x|) (h2 : |x| < (2 : ℚ) ^ (e + 1)) :
    Int.log 2 |x| = e := by
  have hpos : 0 < |x| := lt_of_lt_of_le (by positivity) h1
  have a : e ≤ Int.log 2 |x| :=
    (Int.zpow_le_iff_le_log (by norm_num) hpos).mp (by exact_mod_cast h1)
  have b : Int.log 2 |x| < e + 1 :=
    (Int.lt_zpow_iff_log_lt (by norm_num) hpos).mp (by exact_mod_cast h2)
  omega

theorem nearest_eq (x : ℚ) (e : Int) (n : Int) (h1 : (2 : ℚ) ^ e ≤ |x|)
    (h2 : |x| < (2 : ℚ) ^ (e + 1)) (hn : float64.roundHalfEven (x / 2 ^ (e - 52)) = n) :
    float64.nearest x = n * 2 ^ (e - 52) := by
  unfold float64.nearest
  rw [log_eq x e h1 h2, hn]

theorem roundHalfEven_of_lt (y : ℚ) (n : Int) (h1 : (n : ℚ) ≤ y) (h2 : y < n + 1 / 2) :
    float64.roundHalfEven y = n := by
  have hf : ⌊y⌋ = n := by
    rw [Int.floor_eq_iff]
    exact ⟨h1, by linarith⟩
  unfold float64.roundHalfEven
  rw [hf, if_pos (by linarith)]

theorem roundHalfEven_of_gt (y : ℚ) (n : Int) (h1 : (n : ℚ) - 1 / 2 < y) (h2 : y ≤ n) :
    float64.roundHalfEven y = n := by
  by_cases he : y = n
  · subst he
    unfold float64.roundHalfEven
    simp
  · have hlt : y < n := lt_of_le_of_ne h2 he
    have hf : ⌊y⌋ = n - 1 := by
      rw [Int.floor_eq_iff]
      push_cast
      exact ⟨by linarith, by linarith⟩
    unfold float64.roundHalfEven
    rw [hf]
    push_cast
    rw [if_neg (by linarith), if_pos (by linarith)]
    ring

theorem TotalSavings_exact {env : Env} {userID : String} {s : Session}
    (hstore : env.fault s.stmts = false) :
    (TotalSavings env userID s).1 = .ok (round (savingsOf userID s.committed).sum) := by
  unfold TotalSavings sumSavings savingsOf
  simp only [hstore, Bool.false_eq_true, if_false, Session.view, TransactionSaving]

/-- C19 (as amended): in exact arithmetic, when the query does not fail in the storage
layer, `TotalSavings` returns the sum of the amounts of all the transactions of the user
that have type SAVING, rounded once to 2 decimals, halves away from zero: the result is a
whole number of cents within 0.005 of that sum, and the sum itself when the amounts are
whole numbers of cents; it depends on the amounts only, not on currencies or exchange
rates nor on any other transaction; and it is 0 when the user has no SAVING
transaction. -/
theorem TotalSavings_sum (env : Env) (userID : String) (s : Session)
    (hstore : env.fault s.stmts = false) :
    (TotalSavings env userID s).1 = .ok (round (savingsOf userID s.committed).sum)
      ∧ (∃ total, (TotalSavings env userID s).1 = .ok total ∧ isCents total
          ∧ |total - (savingsOf userID s.committed).sum| ≤ 1 / 200)
      ∧ ((∀ x ∈ savingsOf userID s.committed, isCents x) →
          (TotalSavings env userID s).1 = .ok (savingsOf userID s.committed).sum)
      ∧ (∀ s2 : Session, env.fault s2.stmts = false →
          savingsOf userID s2.committed = savingsOf userID s.committed →
          (TotalSavings env userID s2).1 = (TotalSavings env userID s).1)
      ∧ ((∀ t ∈ s.committed.transactions, t.UserID = userID → t.Type_ ≠ "SAVING") →
          (TotalSavings env userID s).1 = .ok 0) := by
  have h1 := @TotalSavings_exact env userID s hstore
  refine ⟨h1, ⟨_, h1, isCents_round _, round_near _⟩, ?_, ?_, ?_⟩
  · intro hcents
    rw [h1, round_of_isCents _ (isCents_sum _ hcents)]
  · intro s2 hstore2 hsame
    rw [h1, TotalSavings_exact hstore2, hsame]
  · intro hnone
    rw [h1]
    have hf : savingsOf userID s.committed = [] := by
      unfold savingsOf
      rw [List.map_eq_nil_iff, List.filter_eq_nil_iff]
      intro t ht
      simp only [decide_eq_true_eq, not_and]
      exact hnone t ht
    rw [hf]
    simp only [List.sum_nil]
    rw [round_of_isCents 0 isCents_zero]

/-- On the store `savingsSession`, user `u1` has saved 1.004 USD and 2.003 EUR: the total
is 3.007 rounded to 3.01, whatever the currencies and the exchange rate; the EXPENSE of
`u1` and the saving of `u2` do not count. -/
theorem TotalSavings_sum_witness :
    savingsOf "u1" savingsSession.committed = [1004 / 1000, 2003 / 1000]
      ∧ (TotalSavings sampleEnv "u1" savingsSession).1 = .ok (301 / 100) := by
  have hs : savingsOf "u1" savingsSession.committed = [1004 / 1000, 2003 / 1000] := by
    have h0 : savingsOf "u1" savingsSession.committed = [mkRat 251 250, mkRat 2003 1000] := by
      decide
    rw [h0]
    norm_num [Rat.mkRat_eq_div]
  refine ⟨hs, ?_⟩
  rw [(TotalSavings_sum sampleEnv "u1" savingsSession rfl).1, hs]
  norm_num [round, mathRound]

/-- C19 (counterexample): the program rounds in `float64` arithmetic.  A stored amount of
1.115 is the `float64` nearest to 1.115, which is a little below it; for the store whose
only transaction is a SAVING of that amount the sum is that amount, which rounded once to
2 decimals is 1.11, whereas `TotalSavings` as the program evaluates it returns the
`float64` of 1.12, because the product by 100 is rounded to 111.5. -/
theorem TotalSavings_float64_tie :
    float64.nearest (1115 / 1000) = float1115
      ∧ savingsOf "u1" tieSession.committed = [float1115]
      ∧ float64.nearest (float1115 * 100) = 223 / 2
      ∧ (float64.TotalSavings sampleEnv "u1" tieSession).1 = .ok (float64.nearest (112 / 100))
      ∧ round (savingsOf "u1" tieSession.committed).sum = 111 / 100
      ∧ 9 / 1000 < float64.nearest (112 / 100) - round (savingsOf "u1" tieSession.committed).sum := by
  have hd : float1115 = 5021513584518103 / 4503599627370496 := by
    norm_num [float1115, Rat.mkRat_eq_div]
  have hs : savingsOf "u1" tieSession.committed = [float1115] := by decide
  have hn1 : float64.nearest (1115 / 1000) = 5021513584518103 / 4503599627370496 := by
    rw [nearest_eq (1115 / 1000) 0 5021513584518103 (by norm_num [abs_of_pos])
      (by norm_num [abs_of_pos]) (roundHalfEven_of_lt _ _ (by norm_num) (by norm_num))]
    norm_num
  have hn2 : float64.nearest (5021513584518103 / 4503599627370496 * 100) = 223 / 2 := by
    rw [nearest_eq _ 6 7846114975809536 (by norm_num [abs_of_pos])
      (by norm_num [abs_of_pos]) (roundHalfEven_of_gt _ _ (by norm_num) (by norm_num))]
    norm_num
  have hn3 : float64.nearest (112 / 100) = 1261007895663739 / 1125899906842624 := by
    rw [nearest_eq (112 / 100) 0 5044031582654956 (by norm_num [abs_of_pos])
      (by norm_num [abs_of_pos]) (roundHalfEven_of_gt _ _ (by norm_num) (by norm_num))]
    norm_num
  have hn4 : float64.nearest (5021513584518103 / 4503599627370496)
      = 5021513584518103 / 4503599627370496 := by
    rw [nearest_eq _ 0 5021513584518103 (by norm_num [abs_of_pos])
      (by norm_num [abs_of_pos]) (roundHalfEven_of_lt _ _ (by norm_num) (by norm_num))]
    norm_num
  have hr : round (5021513584518103 / 4503599627370496) = 111 / 100 := by
    norm_num [round, mathRound]
  have hm : mathRound (223 / 2) = 112 := by
    norm_num [mathRound]
  refine ⟨by rw [hn1, hd], hs, by rw [hd, hn2], ?_, ?_, ?_⟩
  · have hsum : sumSavings sampleEnv Handle.root "u1" tieSession
        = (.ok (savingsOf "u1" tieSession.committed).sum, tieSession.tick) := rfl
    unfold float64.TotalSavings
    rw [hsum, hs]
    simp only [List.sum_cons, List.sum_nil, add_zero, float64.round, hd, hn4, hn2, hm]
    norm_num
  · rw [hs]
    simp only [List.sum_cons, List.sum_nil, add_zero, hd, hr]
  · rw [hs]
    simp only [List.sum_cons, List.sum_nil, add_zero, hd, hr, hn3]
    norm_num

/-! ## The month index -/

theorem containsMonth_iff (list : List Month) (month : Month) :
    containsMonth list month = true ↔ month ∈ list := by
  induction list with
  | nil => simp [containsMonth]
  | cons v rest ih =>
    unfold containsMonth
    by_cases h : v = month
    · simp [h]
    · rw [if_neg h, ih]
      simp [Ne.symm h]

theorem mapGet_nil (k : Int) : mapGet [] k = [] := rfl

theorem mapGet_cons (e : Int × List Month) (m : List (Int × List Month)) (k : Int) :
    mapGet (e :: m) k = if e.1 = k then e.2 else mapGet m k := by
  unfold mapGet
  by_cases h : e.1 = k <;> simp [List.find?_cons, h]

theorem mapGet_of_not_mem (m : List (Int × List Month)) (k : Int)
    (h : ¬ k ∈ m.map Prod.fst) : mapGet m k = [] := by
  induction m with
  | nil => rfl
  | cons e rest ih =>
    simp only [List.map_cons, List.mem_cons, not_or] at h
    rw [mapGet_cons, if_neg (fun hc => h.1 hc.symm), ih h.2]

theorem mapGet_of_mem (m : List (Int × List Month)) (e : Int × List Month)
    (hk : (m.map Prod.fst).Nodup) (he : e ∈ m) : mapGet m e.1 = e.2 := by
  induction m with
  | nil => cases he
  | cons x rest ih =>
    simp only [List.map_cons, List.nodup_cons] at hk
    rw [mapGet_cons]
    rcases List.mem_cons.mp he with h | h
    · subst h
      rw [if_pos rfl]
    · have hne : ¬ x.1 = e.1 := by
        intro hc
        exact hk.1 (hc ▸ List.mem_map_of_mem Prod.fst h)
      rw [if_neg hne, ih hk.2 h]

theorem any_key_iff (m : List (Int × List Month)) (k : Int) :
    m.any (fun e => decide (e.1 = k)) = true ↔ k ∈ m.map Prod.fst := by
  simp only [List.any_eq_true, decide_eq_true_eq, List.mem_map]

theorem keys_mapSet (m : List (Int × List Month)) (k : Int) (v : List Month) :
    (mapSet m k v).map Prod.fst
      = if k ∈ m.map Prod.fst then m.map Prod.fst else m.map Prod.fst ++ [k] := by
  unfold mapSet
  by_cases h : k ∈ m.map Prod.fst
  · rw [if_pos ((any_key_iff m k).mpr h), if_pos h, List.map_map]
    apply List.map_congr_left
    intro e _
    by_cases he : e.1 = k <;> simp [he]
  · rw [if_neg (fun hc => h ((any_key_iff m k).mp hc)), if_neg h]
    simp

theorem mapGet_update (m : List (Int × List Month)) (k : Int) (v : List Month) (k2 : Int) :
    mapGet (m.map (fun e => if e.1 = k then (k, v) else e)) k2
      = if k2 = k ∧ k ∈ m.map Prod.fst then v else mapGet m k2 := by
  induction m with
  | nil => simp [mapGet_nil]
  | cons e rest ih =>
    rw [List.map_cons, mapGet_cons, mapGet_cons, ih]
    by_cases hek : e.1 = k
    · by_cases hk2 : k2 = k
      · subst hk2
        simp [hek]
      · have h1 : ¬ k = k2 := fun hc => hk2 hc.symm
        have h2 : ¬ e.1 = k2 := by rw [hek]; exact h1
        simp [hek, hk2, h1, h2]
    · by_cases hk2 : k2 = k
      · subst hk2
        have h3 : ¬ k2 = e.1 := fun hc => hek hc.symm
        have hm : k2 ∈ List.map Prod.fst (e :: rest) ↔ k2 ∈ List.map Prod.fst rest := by
          rw [List.map_cons, List.mem_cons]
          exact ⟨fun h => h.resolve_left h3, Or.inr⟩
        simp only [hm, if_neg hek]
      · simp [hek, hk2]

theorem mapGet_append_single (m : List (Int × List Month)) (k : Int) (v : List Month)
    (k2 : Int) (h : ¬ k ∈ m.map Prod.fst) :
    mapGet (m ++ [(k, v)]) k2 = if k2 = k then v else mapGet m k2 := by
  induction m with
  | nil =>
    rw [List.nil_append, mapGet_cons, mapGet_nil]
    by_cases hk : k = k2
    · simp [hk]
    · have : ¬ k2 = k := fun hc => hk hc.symm
      simp [hk, this]
  | cons e rest ih =>
    simp only [List.map_cons, List.mem_cons, not_or] at h
    rw [List.cons_append, mapGet_cons, mapGet_cons, ih h.2]
    by_cases hk2 : k2 = k
    · subst hk2
      have : ¬ e.1 = k2 := fun hc => h.1 hc.symm
      simp [this]
    · simp [hk2]

theorem mapGet_mapSet (m : List (Int × List Month)) (k : Int) (v : List Month) (k2 : Int) :
    mapGet (mapSet m k v) k2 = if k2 = k then v else mapGet m k2 := by
  unfold mapSet
  by_cases h : k ∈ m.map Prod.fst
  · rw [if_pos ((any_key_iff m k).mpr h), mapGet_update]
    by_cases hk : k2 = k <;> simp [hk, h]
  · rw [if_neg (fun hc => h ((any_key_iff m k).mp hc)), mapGet_append_single m k v k2 h]

theorem IndexInv_step {m : List (Int × List Month)} {seen : List (Month × Int)}
    (h : IndexInv m seen) (row : Month × Int) : IndexInv (monthsStep m row) (seen ++ [row]) := by
  obtain ⟨mo0, y0⟩ := row
  unfold monthsStep
  simp only
  constructor
  · rw [keys_mapSet]
    split
    · exact h.keys
    · rename_i hk
      rw [List.nodup_append]
      refine ⟨h.keys, List.nodup_singleton _, ?_⟩
      intro a ha hb
      rw [List.mem_singleton] at hb
      exact hk (hb ▸ ha)
  · intro y
    rw [mapGet_mapSet]
    split
    · split
      · rename_i hc
        rw [List.nodup_append]
        refine ⟨h.nodup y0, List.nodup_singleton _, ?_⟩
        intro a ha hb
        rw [List.mem_singleton] at hb
        subst hb
        exact hc ((containsMonth_iff _ _).mpr ha)
      · exact h.nodup y0
    · exact h.nodup y
  · intro y mo
    rw [mapGet_mapSet, List.mem_append, List.mem_singleton, Prod.mk.injEq]
    by_cases hy : y = y0
    · subst hy
      rw [if_pos rfl]
      by_cases hc : containsMonth (mapGet m y) mo0 = true
      · rw [if_neg (not_not.mpr hc), h.months]
        constructor
        · exact Or.inl
        · rintro (h1 | ⟨h1, _⟩)
          · exact h1
          · rw [h1, ← h.months]
            exact (containsMonth_iff _ _).mp hc
      · rw [if_pos hc, List.mem_append, List.mem_singleton, h.months]
        constructor
        · rintro (h1 | h1)
          · exact Or.inl h1
          · exact Or.inr ⟨h1, rfl⟩
        · rintro (h1 | ⟨h1, _⟩)
          · exact Or.inl h1
          · exact Or.inr h1
    · rw [if_neg hy, h.months]
      constructor
      · exact Or.inl
      · rintro (h1 | ⟨_, h1⟩)
        · exact h1
        · exact absurd h1 hy
  · intro y
    rw [keys_mapSet]
    have hyears := h.years y
    constructor
    · intro hy
      split at hy
      · obtain ⟨mo, hmo⟩ := hyears.mp hy
        exact ⟨mo, List.mem_append_left _ hmo⟩
      · rw [List.mem_append, List.mem_singleton] at hy
        rcases hy with hy | hy
        · obtain ⟨mo, hmo⟩ := hyears.mp hy
          exact ⟨mo, List.mem_append_left _ hmo⟩
        · exact ⟨mo0, by rw [hy]; exact List.mem_append_right _ (List.mem_singleton.mpr rfl)⟩
    · rintro ⟨mo, hmo⟩
      rw [List.mem_append, List.mem_singleton, Prod.mk.injEq] at hmo
      split
      · rename_i hk
        rcases hmo with hmo | ⟨_, hmo⟩
        · exact hyears.mpr ⟨mo, hmo⟩
        · rw [hmo]; exact hk
      · rw [List.mem_append, List.mem_singleton]
        rcases hmo with hmo | ⟨_, hmo⟩
        · exact Or.inl (hyears.mpr ⟨mo, hmo⟩)
        · exact Or.inr hmo

theorem IndexInv_foldl (rows : List (Month × Int)) :
    ∀ (m : List (Int × List Month)) (seen : List (Month × Int)),
      IndexInv m seen → IndexInv (rows.foldl monthsStep m) (seen ++ rows) := by
  induction rows with
  | nil => intro m seen h; simpa using h
  | cons row rest ih =>
    intro m seen h
    rw [List.foldl_cons]
    have := ih _ _ (IndexInv_step h row)
    rwa [List.append_assoc, List.singleton_append] at this

theorem IndexInv_nil : IndexInv [] [] where
  keys := List.nodup_nil
  nodup := fun _ => List.nodup_nil
  months := fun y mo => by simp [mapGet_nil]
  years := fun y => by simp

theorem calendar_order :
    ∀ a ∈ validMonths, ∀ b ∈ validMonths, a ≠ b → ¬ sortIndex b < sortIndex a →
      monthNumber a < monthNumber b := by
  decide

theorem sortMonths_spec (months : List Month) (hn : months.Nodup)
    (hv : ∀ mo ∈ months, mo ∈ validMonths) :
    (sortMonths months).Nodup ∧ (∀ mo, mo ∈ sortMonths months ↔ mo ∈ months)
      ∧ (sortMonths months).Pairwise (fun a b => monthNumber a < monthNumber b) := by
  have hp : (sortMonths months).Perm months := List.perm_insertionSort _ _
  have hs : (sortMonths months).Pairwise (fun a b => ¬ sortIndex b < sortIndex a) :=
    List.sorted_insertionSort _ _
  have hn2 : (sortMonths months).Nodup := hp.nodup_iff.mpr hn
  refine ⟨hn2, fun mo => hp.mem_iff, ?_⟩
  have hboth := hs.and hn2
  refine hboth.imp_of_mem ?_
  intro a b ha hb hab
  exact calendar_order a (hv a (hp.mem_iff.mp ha)) b (hv b (hp.mem_iff.mp hb)) hab.2 hab.1

theorem MonthsAndYears_rows {env : Env} {userID : String} {s : Session}
    (hstore : env.fault s.stmts = false) :
    (MonthsAndYears env userID s).1
      = .ok ((((s.committed.transactions.filter (fun t => t.UserID = userID)).map
          (fun t => (t.Month, t.Year))).foldl monthsStep []).map
            (fun e => (e.1, sortMonths e.2))) := by
  unfold MonthsAndYears findMonthYears
  simp only [hstore, Bool.false_eq_true, if_false, Session.view]

/-- C17: the month/year index.  When the query does not fail in the storage layer and the
rows of the user carry valid months, `MonthsAndYears` returns a map (distinct keys) whose
keys are exactly the years that occur in the transactions of the user, and whose list for
each year contains exactly the months occurring with that year, without duplicates, in
strictly increasing calendar order; the rows (MARCH, 2024), (JANUARY, 2024) of the sample
ledger give the single entry 2024 with JANUARY, MARCH. -/
theorem MonthsAndYears_index (env : Env) (userID : String) (s : Session)
    (hstore : env.fault s.stmts = false)
    (hvalid : ∀ t ∈ s.committed.transactions, t.UserID = userID → t.Month ∈ validMonths) :
    (∃ result, (MonthsAndYears env userID s).1 = .ok result
        ∧ (result.map Prod.fst).Nodup
        ∧ (∀ y, y ∈ result.map Prod.fst
            ↔ ∃ t ∈ s.committed.transactions, t.UserID = userID ∧ t.Year = y)
        ∧ (∀ y months, (y, months) ∈ result →
            months.Nodup
              ∧ (∀ mo, mo ∈ months
                  ↔ ∃ t ∈ s.committed.transactions,
                      t.UserID = userID ∧ t.Year = y ∧ t.Month = mo)
              ∧ months.Pairwise (fun a b => monthNumber a < monthNumber b)))
      ∧ (MonthsAndYears sampleEnv "u1" ledgerSession).1
          = .ok [(2024, ["JANUARY", "MARCH"])] := by
  refine ⟨?_, rfl⟩
  refine ⟨_, MonthsAndYears_rows hstore, ?_⟩
  have hinv := IndexInv_foldl
    ((s.committed.transactions.filter (fun t => t.UserID = userID)).map
      (fun t => (t.Month, t.Year))) [] [] IndexInv_nil
  rw [List.nil_append] at hinv
  have hrow : ∀ mo y, (mo, y) ∈ (s.committed.transactions.filter
      (fun t => t.UserID = userID)).map (fun t => (t.Month, t.Year))
      ↔ ∃ t ∈ s.committed.transactions, t.UserID = userID ∧ t.Year = y ∧ t.Month = mo := by
    intro mo y
    simp only [List.mem_map, List.mem_filter, decide_eq_true_eq, Prod.mk.injEq]
    constructor
    · rintro ⟨t, ⟨ht, hu⟩, hm, hy⟩
      exact ⟨t, ht, hu, hy, hm⟩
    · rintro ⟨t, ht, hu, hy, hm⟩
      exact ⟨t, ⟨ht, hu⟩, hm, hy⟩
  have hkeys : ∀ (m : List (Int × List Month)),
      (m.map (fun e => (e.1, sortMonths e.2))).map Prod.fst = m.map Prod.fst := by
    intro m
    rw [List.map_map]
    rfl
  refine ⟨?_, ?_, ?_⟩
  · rw [hkeys]
    exact hinv.keys
  · intro y
    rw [hkeys, hinv.years]
    constructor
    · rintro ⟨mo, hmo⟩
      obtain ⟨t, ht, hu, hy, _⟩ := (hrow mo y).mp hmo
      exact ⟨t, ht, hu, hy⟩
    · rintro ⟨t, ht, hu, hy⟩
      exact ⟨t.Month, (hrow t.Month y).mpr ⟨t, ht, hu, hy, rfl⟩⟩
  · intro y months hmem
    obtain ⟨e, he, heq⟩ := List.mem_map.mp hmem
    simp only [Prod.mk.injEq] at heq
    obtain ⟨hy, hms⟩ := heq
    have hget := mapGet_of_mem _ e hinv.keys he
    have hmonths : ∀ mo, mo ∈ e.2 ↔ ∃ t ∈ s.committed.transactions,
        t.UserID = userID ∧ t.Year = y ∧ t.Month = mo := by
      intro mo
      rw [← hget, hinv.months, hy, hrow]
    have hn : e.2.Nodup := by
      rw [← hget]
      exact hinv.nodup _
    have hv : ∀ mo ∈ e.2, mo ∈ validMonths := by
      intro mo hmo
      obtain ⟨t, ht, hu, _, hm⟩ := (hmonths mo).mp hmo
      rw [← hm]
      exact hvalid t ht hu
    obtain ⟨h1, h2, h3⟩ := sortMonths_spec e.2 hn hv
    rw [← hms]
    refine ⟨h1, ?_, h3⟩
    intro mo
    rw [h2, hmonths]

/-- On the sample ledger, whose months are valid: the index of `u1`. -/
theorem MonthsAndYears_index_witness :
    ∃ result, (MonthsAndYears sampleEnv "u1" ledgerSession).1 = .ok result
      ∧ (∀ y, y ∈ result.map Prod.fst
          ↔ ∃ t ∈ ledgerSession.committed.transactions, t.UserID = "u1" ∧ t.Year = y) := by
  obtain ⟨result, h1, _, h3, _⟩ :=
    (MonthsAndYears_index sampleEnv "u1" ledgerSession rfl (by decide)).1
  exact ⟨result, h1, h3⟩

/-! ## Listing -/

theorem List_query (env : Env) (userID : String) (filters : TransactionFilters) (s : Session) :
    TransactionService.List env userID filters s
      = findTransactions env Handle.root (fun t => decide (passes userID filters t)) s := by
  obtain ⟨ft, fd, fm, fy⟩ := filters
  unfold TransactionService.List
  simp only
  congr 1
  funext t
  cases ft <;> cases fd <;> cases fm <;> cases fy <;>
    simp [passes, Bool.and_assoc, and_assoc]

theorem stored_preload (db : DB) (t : Transaction) : stored (preload db t) = stored t := by
  unfold preload stored
  rfl

theorem preload_UserID (db : DB) (t : Transaction) : (preload db t).UserID = t.UserID := by
  unfold preload
  rfl

theorem filter_passes_user (userID : String) (filters : TransactionFilters)
    (txs : List Transaction) :
    txs.filter (fun t => decide (passes userID filters t))
      = (txs.filter (fun t => decide (t.UserID = userID))).filter
          (fun t => decide (passes userID filters t)) := by
  rw [List.filter_filter]
  apply List.filter_congr
  intro t _
  by_cases h : passes userID filters t
  · simp [h, h.1]
  · simp [h]

theorem List_ok {env : Env} {userID : String} {filters : TransactionFilters} {s : Session}
    (hstore : env.fault s.stmts = false) :
    TransactionService.List env userID filters s
      = (.ok (((s.committed.transactions.filter
            (fun t => decide (passes userID filters t))).reverse).map (preload s.committed)),
          s.tick) := by
  rw [List_query]
  unfold findTransactions
  simp only [hstore, Bool.false_eq_true, if_false, Session.view]

theorem Balances_fst (env : Env) (userID : String) (filters : TransactionFilters)
    (s s2 : Session)
    (h : (TransactionService.List env userID filters s).1
      = (TransactionService.List env userID filters s2).1) :
    (Balances env userID filters s).1 = (Balances env userID filters s2).1 := by
  unfold Balances
  rcases h1 : TransactionService.List env userID filters s with ⟨r1, t1⟩
  rcases h2 : TransactionService.List env userID filters s2 with ⟨r2, t2⟩
  rw [h1, h2] at h
  simp only at h
  subst h
  cases r1 <;> rfl

/-- C18: filters are optional and AND-combined, and results are scoped to the owner.  When
the query does not fail in the storage layer, `List` returns exactly the stored
transactions (each once, with its category loaded) whose user id is the caller's and
which equal every supplied filter value among type, day, month and year, an absent filter
imposing no constraint; no returned transaction is owned by another user; and the results
of `List` and of `Balances` are the same on every store that has the same transactions of
the caller, whatever the transactions of other users. -/
theorem List_filters (env : Env) (userID : String) (filters : TransactionFilters) (s : Session)
    (hstore : env.fault s.stmts = false) :
    ∃ result, (TransactionService.List env userID filters s).1 = .ok result
      ∧ (result.map (fun t => { t with Category := none })).Perm
          ((s.committed.transactions.filter
              (fun t => t.UserID = userID
                ∧ (∀ v ∈ filters.Type_, t.Type_ = v) ∧ (∀ v ∈ filters.Day, t.Day = some v)
                ∧ (∀ v ∈ filters.Month, t.Month = v) ∧ (∀ v ∈ filters.Year, t.Year = v))).map
            (fun t => { t with Category := none }))
      ∧ (∀ t ∈ result, t.UserID = userID)
      ∧ (∀ others : List Transaction,
          others.filter (fun t => t.UserID = userID)
            = s.committed.transactions.filter (fun t => t.UserID = userID) →
          (TransactionService.List env userID filters
              { s with committed := { s.committed with transactions := others } }).1
            = (TransactionService.List env userID filters s).1
          ∧ (Balances env userID filters
              { s with committed := { s.committed with transactions := others } }).1
            = (Balances env userID filters s).1) := by
  refine ⟨_, congrArg Prod.fst (List_ok hstore), ?_, ?_, ?_⟩
  · rw [List.map_map]
    have hf : ((fun t : Transaction => { t with Category := none }) ∘ preload s.committed)
        = (fun t : Transaction => { t with Category := none }) := by
      funext t
      exact stored_preload s.committed t
    rw [hf]
    exact (List.reverse_perm _).map _
  · intro t ht
    obtain ⟨t0, ht0, rfl⟩ := List.mem_map.mp ht
    rw [preload_UserID]
    rw [List.mem_reverse, List.mem_filter] at ht0
    exact (of_decide_eq_true ht0.2).1
  · intro others hsame
    have hl : (TransactionService.List env userID filters
        { s with committed := { s.committed with transactions := others } }).1
        = (TransactionService.List env userID filters s).1 := by
      rw [List_ok hstore]
      rw [@List_ok env userID filters
        { s with committed := { s.committed with transactions := others } } hstore]
      simp only
      rw [filter_passes_user userID filters others, hsame, ← filter_passes_user]
      rfl
    exact ⟨hl, Balances_fst _ _ _ _ _ hl⟩

/-- On the sample ledger, filtered by type INCOME for `u1`: the one INCOME transaction of
`u1`, and nothing of `u2`. -/
theorem List_filters_witness :
    (TransactionService.List sampleEnv "u1" ⟨some "INCOME", none, none, none⟩ ledgerSession).1
        = .ok [incomeRow]
      ∧ ∃ result,
          (TransactionService.List sampleEnv "u1" ⟨some "INCOME", none, none, none⟩
              ledgerSession).1 = .ok result
            ∧ ∀ t ∈ result, t.UserID = "u1" := by
  refine ⟨rfl, ?_⟩
  obtain ⟨result, h1, _, h3, _⟩ :=
    List_filters sampleEnv "u1" ⟨some "INCOME", none, none, none⟩ ledgerSession rfl
  exact ⟨result, h1, h3⟩

/-! ## Deleting a category -/

theorem countTransactions_ok {env : Env} {exec : Handle} {categoryID userID : String}
    {s : Session} (hstore : env.fault s.stmts = false) :
    countTransactions env exec categoryID userID s
      = (.ok (((s.view exec).transactions.filter
          (fun t => t.CategoryID = some categoryID ∧ t.UserID = userID)).length : Int),
          s.tick) := by
  unfold countTransactions
  simp only [hstore, Bool.false_eq_true, if_false]

/-- C20: deleting a category that still owns transactions without the cascade flag fails
and changes nothing.  In every store in which the user owns the category and at least one
transaction of the user refers to it, and when the lookup and the count do not fail in
the storage layer, `CategoryService.Delete` with `deleteTransactions = false` returns the
`CategoryHasTransactions` error and leaves all categories and transactions unchanged. -/
theorem Delete_refuses_owned_transactions (env : Env) (userID categoryID : String)
    (s : Session) (c : Category) (t : Transaction)
    (hlookup : env.fault s.stmts = false) (hcount : env.fault (s.stmts + 1) = false)
    (hc : c ∈ s.committed.categories) (hcid : c.CategoryID = categoryID)
    (hcu : c.UserID = userID)
    (ht : t ∈ s.committed.transactions) (htc : t.CategoryID = some categoryID)
    (htu : t.UserID = userID) :
    (CategoryService.Delete env userID categoryID false s).1
        = some (.app (New CategoryHasTransactions .none))
      ∧ (CategoryService.Delete env userID categoryID false s).2.committed.categories
          = s.committed.categories
      ∧ (CategoryService.Delete env userID categoryID false s).2.committed.transactions
          = s.committed.transactions := by
  have hfind : ∃ c2, (gorm.Begin s).working.categories.find?
      (fun c => c.CategoryID = categoryID ∧ c.UserID = userID) = some c2 := by
    cases hf : (gorm.Begin s).working.categories.find?
        (fun c => c.CategoryID = categoryID ∧ c.UserID = userID) with
    | some c2 => exact ⟨c2, rfl⟩
    | none =>
      rw [List.find?_eq_none] at hf
      have := hf c hc
      simp [hcid, hcu] at this
  obtain ⟨c2, hf⟩ := hfind
  have htake : takeCategory env Handle.tx categoryID userID (gorm.Begin s)
      = (.ok c2, (gorm.Begin s).tick) :=
    takeCategory_some (by exact hlookup) hf
  have hcnt := @countTransactions_ok env Handle.tx categoryID userID (gorm.Begin s).tick
    (by exact hcount)
  have hpos : (0 : Int) < (((gorm.Begin s).tick.view Handle.tx).transactions.filter
      (fun t => t.CategoryID = some categoryID ∧ t.UserID = userID)).length := by
    have hmem : t ∈ ((gorm.Begin s).tick.view Handle.tx).transactions.filter
        (fun t => t.CategoryID = some categoryID ∧ t.UserID = userID) := by
      rw [List.mem_filter]
      exact ⟨ht, by simp [htc, htu]⟩
    exact_mod_cast List.length_pos_of_mem hmem
  have hres : CategoryService.Delete env userID categoryID false s
      = (some (.app (New CategoryHasTransactions .none)),
          gorm.Rollback (gorm.Begin s).tick.tick) := by
    unfold CategoryService.Delete
    simp only [htake, hcnt]
    rw [if_pos ⟨hpos, by simp⟩]
  rw [hres]
  exact ⟨rfl, rfl, rfl⟩

/-- On the sample ledger, category `c1` of `u1` is referred to by the EXPENSE transaction
`t1`: deleting it without the cascade flag is refused. -/
theorem Delete_refuses_owned_transactions_witness :
    (CategoryService.Delete sampleEnv "u1" "c1" false ledgerSession).1
        = some (.app (New CategoryHasTransactions .none))
      ∧ (CategoryService.Delete sampleEnv "u1" "c1" false ledgerSession).2.committed
          = ledgerSession.committed := by
  obtain ⟨h1, h2, h3⟩ := Delete_refuses_owned_transactions sampleEnv "u1" "c1" ledgerSession
    ⟨"c1", "EXPENSE", "food", "", "u1"⟩ expenseRow rfl rfl (by decide) rfl rfl (by decide) rfl rfl
  refine ⟨h1, ?_⟩
  cases hd : (CategoryService.Delete sampleEnv "u1" "c1" false ledgerSession).2.committed with
  | mk cats txs =>
    rw [hd] at h2 h3
    simp only at h2 h3
    rw [h2, h3]

/-! ## Invalid months -/

theorem lower_mem (c : Char) (h : 97 ≤ c.toNat ∧ c.toNat ≤ 122) :
    c ∈ "abcdefghijklmnopqrstuvwxyz".data := by
  have hc := Char.ofNat_toNat c
  obtain ⟨h1, h2⟩ := h
  generalize c.toNat = n at hc h1 h2
  subst hc
  interval_cases n <;> decide

theorem toUpper_of_not_lower (c : Char) (h : ¬ (97 ≤ c.toNat ∧ c.toNat ≤ 122)) :
    c.toUpper = c := by
  unfold Char.toUpper
  simp only [ge_iff_le]
  rw [if_neg h]

theorem upperRune_idem (c : Char) : upperRune (upperRune c) = upperRune c := by
  by_cases h1 : c = Char.ofNat 0x131
  · subst h1; decide
  · by_cases h2 : c = Char.ofNat 0x17F
    · subst h2; decide
    · by_cases hl : 97 ≤ c.toNat ∧ c.toNat ≤ 122
      · have key : ∀ x ∈ "abcdefghijklmnopqrstuvwxyz".data,
            upperRune (upperRune x) = upperRune x := by decide
        exact key c (lower_mem c hl)
      · have hc : upperRune c = c := by
          unfold upperRune
          rw [if_neg h1, if_neg h2, toUpper_of_not_lower c hl]
        rw [hc, hc]

theorem ToUpper_idem (s : String) : ToUpper (ToUpper s) = ToUpper s := by
  unfold ToUpper
  simp only [List.map_map]
  congr 1
  apply List.map_congr_left
  intro c _
  exact upperRune_idem c

theorem MaxDays_invalid_month (month : String) (year : Int)
    (h : ¬ ToUpper month ∈ validMonths) : day.MaxDays (ToUpper month) year = 31 := by
  simp only [validMonths, MonthJanuary, MonthFebruary, MonthMarch, MonthApril, MonthMay,
    MonthJune, MonthJuly, MonthAugust, MonthSeptember, MonthOctober, MonthNovember,
    MonthDecember, List.mem_cons, List.mem_singleton, List.not_mem_nil, or_false, not_or] at h
  unfold day.MaxDays
  simp only [ToUpper_idem]
  rw [if_neg (by tauto), if_neg (by tauto), if_neg (by tauto)]

/-- C29: with an invalid month the day rule falls back to a 31-day bound: for every
request whose upper-cased month is empty or not one of the 12 month names, whatever the
year, validation reports the month issue, and for a present day it reports the day issue
if and only if the day is <= 0 or >= 32; so a day in 1..31 gives no day issue. -/
theorem day_bound_invalid_month (order : MapOrder) (p : CreateTransactionInput) (index : Nat)
    (d : Int) (hm : ¬ ToUpper p.Month ∈ validMonths) (hd : p.Day = some d) :
    reports order p index "month"
      ∧ (reports order p index "day" ↔ d ≤ 0 ∨ 32 ≤ d)
      ∧ (1 ≤ d ∧ d ≤ 31 → ¬ reports order p index "day") := by
  have hmonth : reports order p index "month" := by
    rw [reports_iff_violated, mem_violatedRules]
    simp only [String.reduceEq, and_false, and_true, false_or, or_false]
    exact hm
  have hday : reports order p index "day" ↔ d ≤ 0 ∨ 32 ≤ d := by
    rw [reports_iff_violated, mem_violatedRules]
    simp only [String.reduceEq, and_false, and_true, false_or, or_false]
    rw [dayRule_iff, MaxDays_invalid_month _ _ hm, hd]
    simp only [reduceCtorEq, Option.some.injEq, exists_eq_left', false_or, not_and, not_le]
    constructor
    · intro h
      by_cases h1 : 1 ≤ d
      · exact Or.inr (by have := h h1; omega)
      · exact Or.inl (by omega)
    · rintro (h | h) h1 <;> omega
  refine ⟨hmonth, hday, ?_⟩
  rintro ⟨h1, h2⟩ hrep
  have := hday.mp hrep
  omega

/-- The month `SMARCH` is no month: day 31 is accepted, day 32 is not, and the month is
reported in both cases. -/
theorem day_bound_invalid_month_witness :
    ¬ reports sampleOrder { zeroAmountRequest with Month := "Smarch", Day := some 31 } 0 "day"
      ∧ reports sampleOrder { zeroAmountRequest with Month := "Smarch", Day := some 32 } 0 "day"
      ∧ reports sampleOrder { zeroAmountRequest with Month := "Smarch", Day := some 32 } 0
          "month" :=
  ⟨(day_bound_invalid_month sampleOrder
      { zeroAmountRequest with Month := "Smarch", Day := some 31 } 0 31 (by decide) rfl).2.2
      (by decide),
   ((day_bound_invalid_month sampleOrder
      { zeroAmountRequest with Month := "Smarch", Day := some 32 } 0 32 (by decide) rfl).2.1).mpr
      (by decide),
   (day_bound_invalid_month sampleOrder
      { zeroAmountRequest with Month := "Smarch", Day := some 32 } 0 32 (by decide) rfl).1⟩

/-! ## The first invalid request of a batch -/

theorem createLoop_append (env : Env) (userID : String) (rest : List CreateTransactionInput)
    (pre : List CreateTransactionInput) :
    ∀ (index : Nat) (created : List Transaction) (s s1 : Session) (out : List Transaction),
      createLoop env userID index pre created s = (.ok out, s1) →
      createLoop env userID index (pre ++ rest) created s
        = createLoop env userID (index + pre.length) rest out s1 := by
  induction pre with
  | nil =>
    intro index created s s1 out h
    unfold createLoop at h
    cases h
    rfl
  | cons p pre ih =>
    intro index created s s1 out h
    rw [List.cons_append]
    unfold createLoop at h
    conv_lhs => unfold createLoop
    split at h
    · cases h
    · rename_i q hval
      split at h
      · cases h
      · rename_i category s2 hens
        simp only [NewString] at h ⊢
        split at h
        · cases h
        · rename_i s3 hins
          rw [ih _ _ _ _ _ h, List.length_cons]
          congr 1
          omega

theorem createLoop_invalid (env : Env) (userID : String) (p : CreateTransactionInput)
    (rest : List CreateTransactionInput) (index : Nat) (created : List Transaction)
    (s : Session) (e : GoError)
    (h : (validateTransaction (env.order index) p index).2 = some e) :
    createLoop env userID index (p :: rest) created s = (.error e, s) := by
  unfold createLoop
  rcases hv : validateTransaction (env.order index) p index with ⟨q, r⟩
  rw [hv] at h
  simp only at h
  subst h
  rfl

theorem issues_labelled (order : MapOrder) (p : CreateTransactionInput) (index : Nat) :
    ∀ issue ∈ issuesOf (validateTransaction order p index).2,
      ∃ rule, issue.field = "transactions[" ++ toString index ++ "]." ++ rule := by
  intro issue hmem
  rw [issuesOf_validateTransaction] at hmem
  have h := ruleIssues_fields order p index
  have hf : issue.field ∈ (ruleIssues order p index).map Issue.field :=
    List.mem_map_of_mem Issue.field hmem
  rw [h] at hf
  obtain ⟨rule, _, hr⟩ := List.mem_map.mp hf
  exact ⟨rule, hr.symm⟩

/-- C26 (as amended): a batch reports only the issues of its first invalid request.  When
the requests before index i are created without error and request i fails validation,
`Create` returns the validation error of request i alone: a `ServerParamsMissing` error
whose issues are those of request i, every field label of which starts with
`transactions[i].`; the requests after i are not validated, and nothing is persisted. -/
theorem Create_first_invalid (env : Env) (userID : String)
    (pre : List CreateTransactionInput) (p : CreateTransactionInput)
    (rest : List CreateTransactionInput) (s s1 : Session) (created : List Transaction)
    (hpre : createLoop env userID 0 pre [] { s with working := s.committed }
      = (.ok created, s1))
    (hinv : (validateTransaction (env.order pre.length) p pre.length).2 ≠ none) :
    (Create env userID (pre ++ p :: rest) s).1
        = .error (.app (New ServerParamsMissing
            (.issues (issuesOf (validateTransaction (env.order pre.length) p pre.length).2))))
      ∧ issuesOf (validateTransaction (env.order pre.length) p pre.length).2 ≠ []
      ∧ (∀ issue ∈ issuesOf (validateTransaction (env.order pre.length) p pre.length).2,
          ∃ rule, issue.field = "transactions[" ++ toString pre.length ++ "]." ++ rule)
      ∧ (Create env userID (pre ++ p :: rest) s).2.committed = s.committed := by
  have hne : ruleIssues (env.order pre.length) p pre.length ≠ [] := by
    intro h0
    exact hinv ((validateTransaction_none_iff _ _ _).mpr h0)
  have hval : (validateTransaction (env.order pre.length) p pre.length).2
      = some (.app (New ServerParamsMissing
          (.issues (ruleIssues (env.order pre.length) p pre.length)))) := by
    rw [validateTransaction_eq]
    simp only [if_neg hne]
  have hloop : createLoop env userID 0 (pre ++ p :: rest) [] { s with working := s.committed }
      = (.error (.app (New ServerParamsMissing
          (.issues (ruleIssues (env.order pre.length) p pre.length)))), s1) := by
    rw [createLoop_append env userID (p :: rest) pre 0 [] _ s1 created hpre, Nat.zero_add]
    exact createLoop_invalid env userID p rest pre.length created s1 _ hval
  have hcommitted := createLoop_committed env userID pre _ _ _ _ _ hpre
  have hcreate : Create env userID (pre ++ p :: rest) s
      = (.error (.app (New ServerParamsMissing
          (.issues (ruleIssues (env.order pre.length) p pre.length)))),
          { s1 with working := s1.committed }) := by
    unfold Create
    rw [if_neg (by simp)]
    unfold gorm.Transaction
    rw [hloop]
  rw [issuesOf_validateTransaction]
  refine ⟨by rw [hcreate], hne, ?_, ?_⟩
  · have h := issues_labelled (env.order pre.length) p pre.length
    rw [issuesOf_validateTransaction] at h
    exact h
  · rw [hcreate]
    exact hcommitted

/-- C26 (counterexample): on the sample store, in the batch of `missingCategoryRequest`
followed by `zeroAmountRequest`, index 1 is the first request that fails validation, yet
`Create` returns `CategoryNotFound` for request 0, not the validation error of request 1. -/
theorem Create_first_invalid_after_failure :
    (validateTransaction (sampleEnv.order 0) missingCategoryRequest 0).2 = none
      ∧ (validateTransaction (sampleEnv.order 1) zeroAmountRequest 1).2 ≠ none
      ∧ (Create sampleEnv "u1" [missingCategoryRequest, zeroAmountRequest] sampleSession).1
          = .error (.app (New CategoryNotFound .none)) :=
  ⟨by decide, by decide, rfl⟩

/-- The batch of `inlineRequest`, `zeroAmountRequest` and `missingCategoryRequest` on the
sample store: the first request is created, the second is the first invalid one. -/
theorem Create_first_invalid_witness :
    (Create sampleEnv "u1" [inlineRequest, zeroAmountRequest, missingCategoryRequest]
        sampleSession).1
      = .error (.app (New ServerParamsMissing
          (.issues [⟨"transactions[1].amount", "Amount must be greater than zero"⟩]))) :=
  (Create_first_invalid sampleEnv "u1" [inlineRequest] zeroAmountRequest
    [missingCategoryRequest] sampleSession _ _ (by rfl) (by decide)).1

/-! ## Cascade delete -/

theorem find_owned {cats : List Category} {categoryID userID : String} {c : Category}
    (hc : c ∈ cats) (hcid : c.CategoryID = categoryID) (hcu : c.UserID = userID) :
    ∃ c2, cats.find? (fun c => c.CategoryID = categoryID ∧ c.UserID = userID) = some c2
      ∧ c2.CategoryID = categoryID := by
  cases hf : cats.find? (fun c => c.CategoryID = categoryID ∧ c.UserID = userID) with
  | some c2 =>
    have h := List.find?_some hf
    simp only [decide_eq_true_eq] at h
    exact ⟨c2, rfl, h.1⟩
  | none =>
    rw [List.find?_eq_none] at hf
    have := hf c hc
    simp [hcid, hcu] at this

theorem Delete_cascade_run {env : Env} {userID categoryID : String} {s : Session}
    {c : Category}
    (h0 : env.fault s.stmts = false) (h1 : env.fault (s.stmts + 1) = false)
    (h2 : env.fault (s.stmts + 2) = false) (h3 : env.fault (s.stmts + 3) = false)
    (h4 : env.fault (s.stmts + 4) = false)
    (hc : c ∈ s.committed.categories) (hcid : c.CategoryID = categoryID)
    (hcu : c.UserID = userID) :
    (CategoryService.Delete env userID categoryID true s).1 = none
      ∧ (CategoryService.Delete env userID categoryID true s).2.committed.categories
          = s.committed.categories.filter (fun c => ¬ c.CategoryID = categoryID)
      ∧ (CategoryService.Delete env userID categoryID true s).2.committed.transactions
          = s.committed.transactions.filter
              (fun t => ¬ (t.CategoryID = some categoryID ∧ t.UserID = userID)) := by
  obtain ⟨c2, hf, hid⟩ := find_owned hc hcid hcu
  have htake : takeCategory env Handle.tx categoryID userID (gorm.Begin s)
      = (.ok c2, (gorm.Begin s).tick) :=
    takeCategory_some (by exact h0) hf
  have hcnt := @countTransactions_ok env Handle.tx categoryID userID (gorm.Begin s).tick
    (by exact h1)
  have hres : CategoryService.Delete env userID categoryID true s
      = (none,
          { committed :=
              { categories := s.committed.categories.filter
                  (fun c => ¬ c.CategoryID = categoryID),
                transactions := s.committed.transactions.filter
                  (fun t => ¬ (t.CategoryID = some categoryID ∧ t.UserID = userID)) },
            working :=
              { categories := s.committed.categories.filter
                  (fun c => ¬ c.CategoryID = categoryID),
                transactions := s.committed.transactions.filter
                  (fun t => ¬ (t.CategoryID = some categoryID ∧ t.UserID = userID)) },
            stmts := s.stmts + 5, uuids := s.uuids }) := by
    unfold CategoryService.Delete
    simp only [htake, hcnt]
    rw [if_neg (by simp)]
    simp only [if_true, deleteTransactionsOf, deleteCategory, gorm.Commit, gorm.Begin,
      Session.tick, Session.write, h2, h3, h4, Bool.false_eq_true, if_false, hid]
  rw [hres]
  exact ⟨rfl, rfl, rfl⟩

theorem Delete_not_owned_run {env : Env} {userID categoryID : String} {s : Session}
    (h0 : env.fault s.stmts = false)
    (hnone : ∀ c ∈ s.committed.categories, ¬ (c.CategoryID = categoryID ∧ c.UserID = userID))
    (deleteTransactions : Bool) :
    (CategoryService.Delete env userID categoryID deleteTransactions s).1
        = some (.app (New CategoryNotFound .none))
      ∧ (CategoryService.Delete env userID categoryID deleteTransactions s).2.committed
          = s.committed := by
  have hf : ((gorm.Begin s).view Handle.tx).categories.find?
      (fun c => c.CategoryID = categoryID ∧ c.UserID = userID) = none := by
    rw [List.find?_eq_none]
    intro c hc
    simpa using hnone c hc
  have htake : takeCategory env Handle.tx categoryID userID (gorm.Begin s)
      = (.error .recordNotFound, (gorm.Begin s).tick) :=
    takeCategory_none (by exact h0) hf
  have hres : CategoryService.Delete env userID categoryID deleteTransactions s
      = (some (.app (New CategoryNotFound .none)), gorm.Rollback (gorm.Begin s).tick) := by
    unfold CategoryService.Delete
    simp only [htake, if_true]
  rw [hres]
  exact ⟨rfl, rfl⟩

/-- C21: cascade delete removes the category and its transactions and nothing else.  When
no statement fails in the storage layer: in every store in which the user owns the
category, `CategoryService.Delete` with `deleteTransactions = true` returns nil, and the
persisted tables are the old ones without the rows of that category id and without the
transactions of that user that refer to it, all other rows unchanged and in the same
order (when the id is the primary key, that is the table without that one category); in
every store in which the user owns no category of that id it returns `CategoryNotFound`
and the persisted tables are unchanged. -/
theorem Delete_cascade (env : Env) (userID categoryID : String) (s : Session)
    (hstore : ∀ k < 5, env.fault (s.stmts + k) = false) :
    (∀ c ∈ s.committed.categories, c.CategoryID = categoryID → c.UserID = userID →
        (CategoryService.Delete env userID categoryID true s).1 = none
          ∧ (CategoryService.Delete env userID categoryID true s).2.committed.categories
              = s.committed.categories.filter (fun c2 => ¬ c2.CategoryID = categoryID)
          ∧ ((∀ c2 ∈ s.committed.categories, c2.CategoryID = categoryID → c2 = c) →
              (CategoryService.Delete env userID categoryID true s).2.committed.categories
                = s.committed.categories.filter (fun c2 => ¬ c2 = c))
          ∧ (CategoryService.Delete env userID categoryID true s).2.committed.transactions
              = s.committed.transactions.filter
                  (fun t => ¬ (t.CategoryID = some categoryID ∧ t.UserID = userID)))
      ∧ ((∀ c ∈ s.committed.categories, ¬ (c.CategoryID = categoryID ∧ c.UserID = userID)) →
        (CategoryService.Delete env userID categoryID true s).1
            = some (.app (New CategoryNotFound .none))
          ∧ (CategoryService.Delete env userID categoryID true s).2.committed = s.committed) := by
  have h0 : env.fault s.stmts = false := hstore 0 (by omega)
  constructor
  · intro c hc hcid hcu
    obtain ⟨r1, r2, r3⟩ := Delete_cascade_run h0 (hstore 1 (by omega)) (hstore 2 (by omega))
      (hstore 3 (by omega)) (hstore 4 (by omega)) hc hcid hcu
    refine ⟨r1, r2, ?_, r3⟩
    intro huniq
    rw [r2]
    apply List.filter_congr
    intro c2 hc2
    by_cases h : c2.CategoryID = categoryID
    · have := huniq c2 hc2 h
      simp [h, this, hcid]
    · have hne : ¬ c2 = c := fun e => h (by rw [e]; exact hcid)
      simp [h, hne]
  · intro hnone
    exact Delete_not_owned_run h0 hnone true

/-- On the sample ledger: deleting category `c1` of `u1` with the cascade flag leaves
category `c2` and the transactions `t2` and `t3`; user `u1` does not own `c2`, so deleting
it fails with `CategoryNotFound`. -/
theorem Delete_cascade_witness :
    ((CategoryService.Delete sampleEnv "u1" "c1" true ledgerSession).1 = none
      ∧ (CategoryService.Delete sampleEnv "u1" "c1" true ledgerSession).2.committed.categories
          = [⟨"c2", "INCOME", "salary", "", "u2"⟩]
      ∧ (CategoryService.Delete sampleEnv "u1" "c1" true ledgerSession).2.committed.transactions
          = [incomeRow, otherRow])
      ∧ (CategoryService.Delete sampleEnv "u1" "c2" true ledgerSession).1
          = some (.app (New CategoryNotFound .none)) := by
  refine ⟨?_, ?_⟩
  · obtain ⟨r1, r2, _, r3⟩ := (Delete_cascade sampleEnv "u1" "c1" ledgerSession
      (fun _ _ => rfl)).1 ⟨"c1", "EXPENSE", "food", "", "u1"⟩ (by decide) rfl rfl
    refine ⟨r1, ?_, ?_⟩
    · rw [r2]; decide
    · rw [r3]; decide
  · exact ((Delete_cascade sampleEnv "u1" "c2" ledgerSession (fun _ _ => rfl)).2
      (by decide)).1

/-! ## The status of `CategoryHasTransactions` -/

/-- C22 (counterexample): the registered definition of `CategoryHasTransactions` does not
have HTTP status 409 Conflict, and its status differs from that of `UserExists`. -/
theorem Lookup_CategoryHasTransactions_not_conflict :
    (Lookup CategoryHasTransactions).HTTPStatus ≠ http.StatusConflict
      ∧ (Lookup CategoryHasTransactions).HTTPStatus ≠ (Lookup UserExists).HTTPStatus := by
  decide

/-- C22 (as amended): the error returned when deleting a category that still owns
transactions without the cascade flag is of the bad-request kind: the registered
definition of its code `CategoryHasTransactions` has HTTP status 400 Bad Request, whereas
the duplicate-user error `UserExists` has 409 Conflict; the registered codes with status
409 are `UserExists` and `TransactionCategoryTypeMismatch`. -/
theorem Lookup_CategoryHasTransactions_status :
    (Lookup CategoryHasTransactions).HTTPStatus = http.StatusBadRequest
      ∧ http.StatusBadRequest = 400
      ∧ (Lookup UserExists).HTTPStatus = http.StatusConflict
      ∧ http.StatusConflict = 409
      ∧ (registry.filter (fun e => e.2.HTTPStatus = http.StatusConflict)).map Prod.fst
          = [UserExists, TransactionCategoryTypeMismatch] := by
  decide

/-! ## Creating, then listing -/

theorem find_unique {cats : List Category} {id : String} {c : Category}
    (hc : c ∈ cats)
    (hkey : ∀ c2 ∈ cats, c2.CategoryID = id → c2 = c) (q : Category → Bool)
    (hq : q c = true) (hq2 : ∀ c2, q c2 = true → c2.CategoryID = id) :
    cats.find? q = some c := by
  cases hf : cats.find? q with
  | some c2 =>
    have h1 := List.find?_some hf
    have h2 := List.mem_of_find?_eq_some hf
    rw [hkey c2 h2 (hq2 c2 h1)]
  | none =>
    rw [List.find?_eq_none] at hf
    exact absurd hq (hf c hc)

theorem Create_by_id_run {env : Env} {userID id : String} {p : CreateTransactionInput}
    {s : Session} {c : Category}
    (hval : (validateTransaction (env.order 0) p 0).2 = none)
    (hid : p.CategoryID = some id)
    (hfind : s.committed.categories.find? (fun c => c.CategoryID = id ∧ c.UserID = userID)
      = some c)
    (hty : c.Type_ = ToUpper p.Type_)
    (h0 : env.fault s.stmts = false) (h1 : env.fault (s.stmts + 1) = false) :
    ∃ s1 : Session,
      Create env userID [p] s
          = (.ok [afterCreate (builtFor (env.uuid s.uuids) userID (normalized p) c)], s1)
        ∧ s1.stmts = s.stmts + 2
        ∧ s1.committed.transactions
            = s.committed.transactions
              ++ [stored (builtFor (env.uuid s.uuids) userID (normalized p) c)]
        ∧ s1.committed.categories
            = if s.committed.categories.any (fun c2 => c2.CategoryID = env.uuid s.uuids) then
                s.committed.categories
              else s.committed.categories ++ [{ c with CategoryID := env.uuid s.uuids }] := by
  have hv : validateTransaction (env.order 0) p 0 = (normalized p, none) := by
    have h := validateTransaction_eq (env.order 0) p 0
    rw [h] at hval
    rw [h]
    simp only at hval
    rw [hval]
  have htake : takeCategory env Handle.tx id userID { s with working := s.committed }
      = (.ok c, ({ s with working := s.committed } : Session).tick) :=
    takeCategory_some (by exact h0) hfind
  have hrun : Create env userID [p] s
      = (.ok [afterCreate (builtFor (env.uuid s.uuids) userID (normalized p) c)],
          { committed :=
              { categories :=
                  if s.committed.categories.any (fun c2 => c2.CategoryID = env.uuid s.uuids) then
                    s.committed.categories
                  else s.committed.categories ++ [{ c with CategoryID := env.uuid s.uuids }],
                transactions := s.committed.transactions
                  ++ [stored (builtFor (env.uuid s.uuids) userID (normalized p) c)] },
            working :=
              { categories :=
                  if s.committed.categories.any (fun c2 => c2.CategoryID = env.uuid s.uuids) then
                    s.committed.categories
                  else s.committed.categories ++ [{ c with CategoryID := env.uuid s.uuids }],
                transactions := s.committed.transactions
                  ++ [stored (builtFor (env.uuid s.uuids) userID (normalized p) c)] },
            stmts := s.stmts + 2, uuids := s.uuids + 1 }) := by
    unfold Create
    rw [if_neg (by simp)]
    unfold gorm.Transaction createLoop
    simp only [hv, normalized, hid, EnsureAndCreate, getByIDWithDB, Option.getD_some, htake,
      hty, ne_eq, not_true_eq_false, if_false, NewString, insertTransaction, Session.tick, h1,
      Bool.false_eq_true, Session.write, createLoop, List.nil_append, builtFor, stored]
  exact ⟨_, hrun, rfl, rfl, rfl⟩

theorem preload_categories (db db2 : DB) (h : db2.categories = db.categories)
    (t : Transaction) : preload db2 t = preload db t := by
  unfold preload
  rw [h]

theorem passes_noFilters (userID : String) (t : Transaction) :
    passes userID noFilters t ↔ t.UserID = userID := by
  simp [passes, noFilters]

/-- C24: a created transaction is listed with its category.  For every user, every
category `c` of that user in the store (whose id is its key) and every request that passes
validation, has the type of `c` and refers to it by `categoryId`, when no statement fails
in the storage layer: `Create` succeeds with one transaction `t`, which carries the fields
of the request (its own `CategoryID` is the id of the transaction, which saving the
association wrote there); the unfiltered `List` for that user then returns first a
transaction with the id of `t`, the fields of the request and `CategoryID` equal to the
supplied id, followed by the earlier transactions of the user, so on a store with no
prior transactions the list has exactly that one element; and when the id of `t` is not
the id of a stored category, the category listed with it is the one attached to `t`, the
copy of `c` under the id of `t`. -/
theorem Create_then_List (env : Env) (userID id : String) (p : CreateTransactionInput)
    (s : Session) (c : Category)
    (hval : (validateTransaction (env.order 0) p 0).2 = none)
    (hid : p.CategoryID = some id)
    (hc : c ∈ s.committed.categories) (hcid : c.CategoryID = id) (hcu : c.UserID = userID)
    (hkey : ∀ c2 ∈ s.committed.categories, c2.CategoryID = id → c2 = c)
    (hty : c.Type_ = ToUpper p.Type_)
    (hstore : ∀ k < 3, env.fault (s.stmts + k) = false) :
    ∃ t listed : Transaction,
      (Create env userID [p] s).1 = .ok [t]
        ∧ carries userID p t ∧ t.CategoryID = some t.TransactionID
        ∧ (TransactionService.List env userID noFilters (Create env userID [p] s).2).1
            = .ok (listed ::
                ((s.committed.transactions.filter (fun t0 => t0.UserID = userID)).reverse.map
                  (preload (Create env userID [p] s).2.committed)))
        ∧ listed.TransactionID = t.TransactionID ∧ carries userID p listed
        ∧ listed.CategoryID = some id
        ∧ (s.committed.transactions = [] →
            (TransactionService.List env userID noFilters (Create env userID [p] s).2).1
              = .ok [listed])
        ∧ ((∀ c2 ∈ s.committed.categories, c2.CategoryID ≠ t.TransactionID) →
            listed.Category = t.Category
              ∧ listed.Category = some { c with CategoryID := t.TransactionID }) := by
  have hfind : s.committed.categories.find? (fun c => c.CategoryID = id ∧ c.UserID = userID)
      = some c :=
    find_unique hc hkey _ (by simp [hcid, hcu]) (by intro c2 h2; simp at h2; exact h2.1)
  obtain ⟨s1, hrun, hstmts, htx, hcats⟩ :=
    Create_by_id_run hval hid hfind hty (hstore 0 (by omega)) (hstore 1 (by omega))
  have hlist : (TransactionService.List env userID noFilters s1).1
      = .ok (((s1.committed.transactions.filter
          (fun t => decide (passes userID noFilters t))).reverse).map (preload s1.committed)) := by
    rw [List_ok (by rw [hstmts]; exact hstore 2 (by omega))]
  have hp : ∀ t0 : Transaction,
      decide (passes userID noFilters t0) = decide (t0.UserID = userID) := by
    intro t0
    rw [decide_eq_decide]
    exact passes_noFilters userID t0
  have hmain : (TransactionService.List env userID noFilters s1).1
      = .ok (preload s1.committed (stored (builtFor (env.uuid s.uuids) userID (normalized p) c))
          :: ((s.committed.transactions.filter (fun t0 => t0.UserID = userID)).reverse.map
              (preload s1.committed))) := by
    rw [hlist, htx]
    simp only [List.filter_append, List.reverse_append, List.map_append, hp]
    have hrow : (stored (builtFor (env.uuid s.uuids) userID (normalized p) c)).UserID = userID :=
      rfl
    simp only [List.filter_cons, hrow, decide_True, if_true, List.filter_nil,
      List.reverse_cons, List.reverse_nil, List.nil_append, List.map_cons, List.map_nil,
      List.singleton_append]
  rw [hrun]
  refine ⟨afterCreate (builtFor (env.uuid s.uuids) userID (normalized p) c),
    preload s1.committed (stored (builtFor (env.uuid s.uuids) userID (normalized p) c)),
    rfl, ?_, rfl, hmain, rfl, ?_, ?_, ?_, ?_⟩
  · exact carries_afterCreate userID p _ ⟨rfl, rfl, rfl, rfl, rfl, rfl, rfl, rfl, rfl⟩
  · exact ⟨rfl, rfl, rfl, rfl, rfl, rfl, rfl, rfl, rfl⟩
  · show some c.CategoryID = some id
    rw [hcid]
  · intro hempty
    simp only at hmain ⊢
    rw [hmain, hempty]
    rfl
  · intro hfresh
    have hany : s.committed.categories.any (fun c2 => c2.CategoryID = env.uuid s.uuids)
        = false := by
      rw [List.any_eq_false]
      intro c2 hc2
      simpa using hfresh c2 hc2
    have hfound : s1.committed.categories.find? (fun c2 => c2.CategoryID = env.uuid s.uuids)
        = some { c with CategoryID := env.uuid s.uuids } := by
      rw [hcats, hany]
      simp only [Bool.false_eq_true, if_false, List.find?_append]
      have hnone : s.committed.categories.find? (fun c2 => c2.CategoryID = env.uuid s.uuids)
          = none := by
        rw [List.find?_eq_none]
        intro c2 hc2
        simpa using hfresh c2 hc2
      rw [hnone]
      simp
    exact ⟨hfound, hfound⟩

/-- The case of the end-to-end test, on the sample store, which has no transaction yet:
user `u2` records INCOME 1000 USD at exchange rate 40 on day 1 of JANUARY 2024 in the
INCOME category `c2`; the list then has exactly one element, with `CategoryID` equal to
`c2`. -/
theorem Create_then_List_witness :
    ∃ t, (TransactionService.List sampleEnv "u2" noFilters
          (Create sampleEnv "u2" [salaryRequest] sampleSession).2).1 = .ok [t]
      ∧ t.CategoryID = some "c2" ∧ t.Amount = 1000 ∧ t.Currency = "USD" := by
  obtain ⟨_, t, _, _, _, _, _, hcar, hcat, hone, _⟩ := Create_then_List sampleEnv "u2" "c2"
    salaryRequest sampleSession ⟨"c2", "INCOME", "salary", "", "u2"⟩ (by decide) rfl (by decide)
    rfl rfl (by decide) (by decide) (fun _ _ => rfl)
  exact ⟨t, hone rfl, hcat, hcar.2.1, hcar.2.2.1.trans (by decide)⟩

/-! ## Order of accumulation -/

theorem mathRound_nonneg (y : ℚ) (hy : 0 ≤ y) : 0 ≤ mathRound y := by
  unfold mathRound
  rw [if_pos hy]
  exact Int.floor_nonneg.mpr (by linarith)

theorem mathRound_int_add (n : Int) (y : ℚ) (hn : 0 ≤ n) (hy : 0 ≤ y) :
    mathRound ((n : ℚ) + y) = n + mathRound y := by
  have hn2 : (0 : ℚ) ≤ (n : ℚ) := by exact_mod_cast hn
  unfold mathRound
  rw [if_pos (by linarith), if_pos hy, add_assoc, Int.floor_int_add]

theorem round_nonneg (x : ℚ) (hx : 0 ≤ x) : 0 ≤ round x := by
  unfold round
  have h : (0 : ℚ) ≤ (mathRound (x * 100) : ℚ) := by
    exact_mod_cast mathRound_nonneg (x * 100) (by linarith)
  exact div_nonneg h (by norm_num)

theorem round_cents_add (f c : ℚ) (hf : isCents f) (hf0 : 0 ≤ f) (hc : 0 ≤ c) :
    round (f + c) = f + round c := by
  obtain ⟨n, hn⟩ := hf
  have hn0 : 0 ≤ n := by
    have : (0 : ℚ) ≤ (n : ℚ) := by rw [← hn]; linarith
    exact_mod_cast this
  unfold round
  have h1 : (f + c) * 100 = (n : ℚ) + c * 100 := by rw [← hn]; ring
  rw [h1, mathRound_int_add n (c * 100) hn0 (by linarith)]
  push_cast
  rw [← hn]
  ring

theorem foldl_round_add (g : Transaction → ℚ) (txs : List Transaction) :
    (∀ t ∈ txs, 0 ≤ g t) → ∀ a : ℚ, isCents a → 0 ≤ a →
      txs.foldl (fun acc t => round (acc + g t)) a
        = a + (txs.map (fun t => round (g t))).sum := by
  induction txs with
  | nil => intro _ a _ _; simp
  | cons t rest ih =>
    intro hg a ha ha0
    have hgt : 0 ≤ g t := hg t (List.mem_cons_self _ _)
    rw [List.foldl_cons, ih (fun u hu => hg u (List.mem_cons_of_mem _ hu)) _
      (isCents_round _) (round_nonneg _ (by linarith)), round_cents_add a (g t) ha ha0 hgt]
    simp only [List.map_cons, List.sum_cons]
    ring

theorem foldl_addToSummary_figures (txs : List Transaction) :
    ∀ b : BalanceSummary,
      txs.foldl addToSummary b
        = ⟨txs.foldl (fun acc t => round (acc + (contribution t).Total)) b.Total,
           txs.foldl (fun acc t => round (acc + (contribution t).UYU)) b.UYU,
           txs.foldl (fun acc t => round (acc + (contribution t).USD)) b.USD,
           txs.foldl (fun acc t => round (acc + (contribution t).EUR)) b.EUR⟩ := by
  induction txs with
  | nil => intro b; rfl
  | cons t rest ih =>
    intro b
    rw [List.foldl_cons, ih, addToSummary_eq]
    rfl

theorem contribution_nonneg (t : Transaction) (h : nonNegative t) :
    0 ≤ (contribution t).Total ∧ 0 ≤ (contribution t).UYU ∧ 0 ≤ (contribution t).USD
      ∧ 0 ≤ (contribution t).EUR := by
  obtain ⟨ha, hr⟩ := h
  unfold contribution
  refine ⟨?_, ?_, ?_, ?_⟩
  · simp only
    split
    · exact ha
    · split
      · cases hx : t.ExchangeRate with
        | none => simp
        | some r => exact mul_nonneg ha (hr r (by rw [hx]; rfl))
      · exact le_refl _
  · simp only; split <;> [exact ha; exact le_refl _]
  · simp only; split <;> [exact ha; exact le_refl _]
  · simp only; split <;> [exact ha; exact le_refl _]

theorem foldl_addToSummary_roundedSum (txs : List Transaction)
    (hnn : ∀ t ∈ txs, nonNegative t) :
    txs.foldl addToSummary zeroSummary = roundedSum txs := by
  rw [foldl_addToSummary_figures]
  unfold roundedSum zeroSummary
  simp only
  rw [foldl_round_add _ txs (fun t ht => (contribution_nonneg t (hnn t ht)).1) 0 isCents_zero
        (le_refl _),
      foldl_round_add _ txs (fun t ht => (contribution_nonneg t (hnn t ht)).2.1) 0 isCents_zero
        (le_refl _),
      foldl_round_add _ txs (fun t ht => (contribution_nonneg t (hnn t ht)).2.2.1) 0 isCents_zero
        (le_refl _),
      foldl_round_add _ txs (fun t ht => (contribution_nonneg t (hnn t ht)).2.2.2) 0 isCents_zero
        (le_refl _)]
  simp only [zero_add]

theorem roundedSum_perm {l1 l2 : List Transaction} (h : l1.Perm l2) :
    roundedSum l1 = roundedSum l2 := by
  unfold roundedSum
  rw [(h.map _).sum_eq, (h.map (fun t => round (contribution t).UYU)).sum_eq,
    (h.map (fun t => round (contribution t).USD)).sum_eq,
    (h.map (fun t => round (contribution t).EUR)).sum_eq]

theorem foldl_balancesStep_roundedSum (txs : List Transaction)
    (hnn : ∀ t ∈ txs, nonNegative t) :
    txs.foldl balancesStep ⟨⟨0, 0, 0, 0⟩, ⟨0, 0, 0, 0⟩, ⟨0, 0, 0, 0⟩⟩
      = ⟨roundedSum (txs.filter (fun t => t.Type_ = "EXPENSE" ∨ t.Type_ = "INSTALLMENTS")),
         roundedSum (txs.filter (fun t => t.Type_ = "INCOME")),
         roundedSum (txs.filter (fun t => t.Type_ = "SAVING"))⟩ := by
  rw [foldl_balancesStep]
  have hz : (⟨0, 0, 0, 0⟩ : BalanceSummary) = zeroSummary := rfl
  simp only [hz]
  rw [foldl_addToSummary_roundedSum _ (fun t ht => hnn t (List.mem_of_mem_filter ht)),
    foldl_addToSummary_roundedSum _ (fun t ht => hnn t (List.mem_of_mem_filter ht)),
    foldl_addToSummary_roundedSum _ (fun t ht => hnn t (List.mem_of_mem_filter ht))]

/-- C25: `Balances` does not depend on the order of the transactions.  In exact
arithmetic, for every list of transactions whose amounts and exchange rates are not
negative, the loop of `Balances` yields, in each summary, figures that are the sums of the
individually rounded contributions of the transactions of that summary; it therefore
yields the same balances on every permutation of the list; and whenever `List` returns
that list, `Balances` returns these balances, the same as on any store on which `List`
returns a permutation of it. -/
theorem Balances_order_independent (txs : List Transaction)
    (hnn : ∀ t ∈ txs, nonNegative t) :
    txs.foldl balancesStep ⟨⟨0, 0, 0, 0⟩, ⟨0, 0, 0, 0⟩, ⟨0, 0, 0, 0⟩⟩
        = ⟨roundedSum (txs.filter (fun t => t.Type_ = "EXPENSE" ∨ t.Type_ = "INSTALLMENTS")),
           roundedSum (txs.filter (fun t => t.Type_ = "INCOME")),
           roundedSum (txs.filter (fun t => t.Type_ = "SAVING"))⟩
      ∧ (∀ txs2 : List Transaction, txs2.Perm txs →
          txs2.foldl balancesStep ⟨⟨0, 0, 0, 0⟩, ⟨0, 0, 0, 0⟩, ⟨0, 0, 0, 0⟩⟩
            = txs.foldl balancesStep ⟨⟨0, 0, 0, 0⟩, ⟨0, 0, 0, 0⟩, ⟨0, 0, 0, 0⟩⟩)
      ∧ (∀ (env : Env) (userID : String) (filters : TransactionFilters) (s s1 : Session),
          TransactionService.List env userID filters s = (.ok txs, s1) →
          (Balances env userID filters s).1
              = .ok ⟨roundedSum
                      (txs.filter (fun t => t.Type_ = "EXPENSE" ∨ t.Type_ = "INSTALLMENTS")),
                     roundedSum (txs.filter (fun t => t.Type_ = "INCOME")),
                     roundedSum (txs.filter (fun t => t.Type_ = "SAVING"))⟩
            ∧ ∀ (s2 s3 : Session) (txs2 : List Transaction),
                TransactionService.List env userID filters s2 = (.ok txs2, s3) →
                txs2.Perm txs →
                (Balances env userID filters s2).1 = (Balances env userID filters s).1) := by
  have hperm : ∀ txs2 : List Transaction, txs2.Perm txs →
      txs2.foldl balancesStep ⟨⟨0, 0, 0, 0⟩, ⟨0, 0, 0, 0⟩, ⟨0, 0, 0, 0⟩⟩
        = txs.foldl balancesStep ⟨⟨0, 0, 0, 0⟩, ⟨0, 0, 0, 0⟩, ⟨0, 0, 0, 0⟩⟩ := by
    intro txs2 hp
    rw [foldl_balancesStep_roundedSum txs hnn,
      foldl_balancesStep_roundedSum txs2 (fun t ht => hnn t (hp.mem_iff.mp ht)),
      roundedSum_perm (hp.filter _), roundedSum_perm (hp.filter (fun t => t.Type_ = "INCOME")),
      roundedSum_perm (hp.filter (fun t => t.Type_ = "SAVING"))]
  have hbal : ∀ (env : Env) (userID : String) (filters : TransactionFilters) (s s1 : Session)
      (l : List Transaction), TransactionService.List env userID filters s = (.ok l, s1) →
      (Balances env userID filters s).1
        = .ok (l.foldl balancesStep ⟨⟨0, 0, 0, 0⟩, ⟨0, 0, 0, 0⟩, ⟨0, 0, 0, 0⟩⟩) := by
    intro env userID filters s s1 l hl
    unfold Balances
    rw [hl]
  refine ⟨foldl_balancesStep_roundedSum txs hnn, hperm, ?_⟩
  intro env userID filters s s1 hl
  refine ⟨?_, ?_⟩
  · rw [hbal _ _ _ _ _ _ hl, foldl_balancesStep_roundedSum txs hnn]
  · intro s2 s3 txs2 hl2 hp
    rw [hbal _ _ _ _ _ _ hl, hbal _ _ _ _ _ _ hl2, hperm txs2 hp]

/-- The two transactions of `u1` on the sample ledger, in either order. -/
theorem Balances_order_independent_witness :
    [expenseRow, incomeRow].foldl balancesStep ⟨⟨0, 0, 0, 0⟩, ⟨0, 0, 0, 0⟩, ⟨0, 0, 0, 0⟩⟩
      = [incomeRow, expenseRow].foldl balancesStep
          ⟨⟨0, 0, 0, 0⟩, ⟨0, 0, 0, 0⟩, ⟨0, 0, 0, 0⟩⟩ :=
  (Balances_order_independent [incomeRow, expenseRow]
    (by
      intro t ht
      simp only [List.mem_cons, List.mem_singleton, List.not_mem_nil, or_false] at ht
      rcases ht with rfl | rfl
      · refine ⟨by norm_num [incomeRow], ?_⟩
        intro r hr
        simp only [incomeRow, Option.mem_def, Option.some.injEq] at hr
        rw [← hr]; norm_num
      · refine ⟨by norm_num [expenseRow], ?_⟩
        intro r hr
        simp [expenseRow] at hr)).2.1
    [expenseRow, incomeRow] (List.Perm.swap _ _ _)

/-! ## Rounding after every addition -/

/-- C27: rounding after every addition is not rounding once.  On the sample store the
batch of two requests of EXPENSE 0.004 UYU passes validation and is created; `Balances`
then gives the Expenses summary the UYU subtotal 0.00 (every figure is 0), whereas the
exact sum 0.008 of the two amounts, rounded once to 2 decimals, is 0.01. -/
theorem Balances_rounds_each_addition :
    (validateTransaction (sampleEnv.order 0) tinyRequest 0).2 = none
      ∧ (validateTransaction (sampleEnv.order 1) tinyRequest 1).2 = none
      ∧ tinyRequest.Amount = 4 / 1000
      ∧ (Create sampleEnv "u1" [tinyRequest, tinyRequest] sampleSession).1
          = .ok [tinyRow "id-0", tinyRow "id-1"]
      ∧ (Balances sampleEnv "u1" noFilters
            (Create sampleEnv "u1" [tinyRequest, tinyRequest] sampleSession).2).1
          = .ok ⟨⟨0, 0, 0, 0⟩, ⟨0, 0, 0, 0⟩, ⟨0, 0, 0, 0⟩⟩
      ∧ round ((tinyRow "id-0").Amount + (tinyRow "id-1").Amount) = 1 / 100 := by
  have hr1 : round (mkRat 1 250) = 0 := by
    norm_num [round, mathRound, Rat.mkRat_eq_div]
  have hr0 : round 0 = 0 := round_of_isCents 0 isCents_zero
  have hr2 : round (mkRat 1 250 + mkRat 1 250) = 1 / 100 := by
    norm_num [round, mathRound, Rat.mkRat_eq_div]
  refine ⟨by decide, by decide, ?_, rfl, ?_, hr2⟩
  · norm_num [tinyRequest, Rat.mkRat_eq_div]
  · have hl : TransactionService.List sampleEnv "u1" noFilters
        (Create sampleEnv "u1" [tinyRequest, tinyRequest] sampleSession).2
          = (.ok [{ tinyRow "id-1" with CategoryID := some "c1" },
                  { tinyRow "id-0" with CategoryID := some "c1" }],
              (Create sampleEnv "u1" [tinyRequest, tinyRequest] sampleSession).2.tick) := rfl
    rw [Balances_of_List hl]
    simp [List.filter, addToSummary_eq, contribution, zeroSummary, tinyRow, hr1, hr0]

/-! ## Total savings and balances -/

theorem contribution_amount_nonneg (t : Transaction) (h : 0 ≤ t.Amount) :
    0 ≤ (contribution t).UYU ∧ 0 ≤ (contribution t).USD ∧ 0 ≤ (contribution t).EUR := by
  unfold contribution
  refine ⟨?_, ?_, ?_⟩
  · simp only; split <;> [exact h; exact le_refl _]
  · simp only; split <;> [exact h; exact le_refl _]
  · simp only; split <;> [exact h; exact le_refl _]

theorem preload_fields (db : DB) (t : Transaction) :
    (preload db t).Type_ = t.Type_ ∧ (preload db t).Amount = t.Amount
      ∧ (preload db t).Currency = t.Currency := by
  unfold preload
  exact ⟨rfl, rfl, rfl⟩

theorem sum_map_filter_preload (db : DB) (f : Transaction → ℚ)
    (hf : ∀ t, f (preload db t) = f t) (q : Transaction → Bool)
    (hq : ∀ t, q (preload db t) = q t) (l : List Transaction) :
    (((l.map (preload db)).filter q).map f).sum = ((l.filter q).map f).sum := by
  induction l with
  | nil => rfl
  | cons t rest ih =>
    rw [List.map_cons, List.filter_cons, List.filter_cons, hq]
    by_cases h : q t = true
    · simp only [h, if_true, List.map_cons, List.sum_cons, hf, ih]
    · simp only [h, if_false, ih, Bool.false_eq_true]

theorem rounded_saving (t : Transaction) (hcur : t.Currency ∈ ["UYU", "USD", "EUR"])
    (hcents : isCents t.Amount) :
    round (contribution t).UYU + round (contribution t).USD + round (contribution t).EUR
      = t.Amount := by
  have r0 : round 0 = 0 := round_of_isCents 0 isCents_zero
  have ra : round t.Amount = t.Amount := round_of_isCents _ hcents
  simp only [List.mem_cons, List.mem_singleton, List.not_mem_nil, or_false] at hcur
  unfold contribution
  rcases hcur with h | h | h <;> simp [h, r0, ra]

/-- C28: `TotalSavings` agrees with `Balances` on cent-precise data.  In exact arithmetic,
in every store in which the SAVING transactions of the user have currency UYU, USD or EUR
and positive amounts that are whole numbers of cents, and when the queries do not fail in
the storage layer, `TotalSavings` returns the sum of the figures `UYU`, `USD` and `EUR` of
the Savings summary that `Balances` returns for the user without filters. -/
theorem TotalSavings_agrees_with_Balances (env : Env) (userID : String) (s : Session)
    (hstore : env.fault s.stmts = false)
    (hdata : ∀ t ∈ s.committed.transactions, t.UserID = userID → t.Type_ = "SAVING" →
      t.Currency ∈ ["UYU", "USD", "EUR"] ∧ 0 < t.Amount ∧ isCents t.Amount) :
    ∃ (total : ℚ) (b : TransactionBalances),
      (TotalSavings env userID s).1 = .ok total
        ∧ (Balances env userID noFilters s).1 = .ok b
        ∧ total = b.Savings.UYU + b.Savings.USD + b.Savings.EUR := by
  have h1 : (TotalSavings env userID s).1
      = .ok (round ((s.committed.transactions.filter
          (fun t => t.UserID = userID ∧ t.Type_ = "SAVING")).map (fun t => t.Amount)).sum) := by
    unfold TotalSavings sumSavings
    simp only [hstore, Bool.false_eq_true, if_false, Session.view, TransactionSaving]
  have hsav : ∀ t ∈ s.committed.transactions.filter
      (fun t => t.UserID = userID ∧ t.Type_ = "SAVING"),
      t.Currency ∈ ["UYU", "USD", "EUR"] ∧ 0 < t.Amount ∧ isCents t.Amount := by
    intro t ht
    rw [List.mem_filter] at ht
    have h2 : t.UserID = userID ∧ t.Type_ = "SAVING" := by simpa using ht.2
    exact hdata t ht.1 h2.1 h2.2
  have hcents : isCents ((s.committed.transactions.filter
      (fun t => t.UserID = userID ∧ t.Type_ = "SAVING")).map (fun t => t.Amount)).sum := by
    apply isCents_sum
    intro x hx
    obtain ⟨t, ht, rfl⟩ := List.mem_map.mp hx
    exact (hsav t ht).2.2
  have hl := @List_ok env userID noFilters s hstore
  have hb := Balances_of_List hl
  refine ⟨_, _, h1, by rw [hb], ?_⟩
  rw [round_of_isCents _ hcents]
  simp only
  -- the savings of the listing
  have hmem : ∀ t ∈ (((s.committed.transactions.filter
      (fun t => decide (passes userID noFilters t))).reverse).map (preload s.committed)).filter
        (fun t => t.Type_ = "SAVING"),
      t.Currency ∈ ["UYU", "USD", "EUR"] ∧ 0 < t.Amount ∧ isCents t.Amount := by
    intro t ht
    rw [List.mem_filter] at ht
    obtain ⟨t0, ht0, rfl⟩ := List.mem_map.mp ht.1
    rw [List.mem_reverse, List.mem_filter] at ht0
    obtain ⟨hty, ham, hcu⟩ := preload_fields s.committed t0
    have hu : t0.UserID = userID := by
      have := ht0.2
      simp only [decide_eq_true_eq] at this
      exact this.1
    have hs : t0.Type_ = "SAVING" := by
      have := ht.2
      simp only [decide_eq_true_eq, hty] at this
      exact this
    rw [ham, hcu]
    exact hdata t0 ht0.1 hu hs
  rw [foldl_addToSummary_figures]
  simp only [zeroSummary]
  rw [foldl_round_add _ _ (fun t ht => by
        have := (contribution_amount_nonneg t (le_of_lt (hmem t ht).2.1)).1; exact this)
        0 isCents_zero (le_refl _),
      foldl_round_add _ _ (fun t ht => by
        have := (contribution_amount_nonneg t (le_of_lt (hmem t ht).2.1)).2.1; exact this)
        0 isCents_zero (le_refl _),
      foldl_round_add _ _ (fun t ht => by
        have := (contribution_amount_nonneg t (le_of_lt (hmem t ht).2.1)).2.2; exact this)
        0 isCents_zero (le_refl _)]
  simp only [zero_add]
  rw [← List.sum_map_add, ← List.sum_map_add]
  rw [List.map_congr_left (fun t ht => rounded_saving t (hmem t ht).1 (hmem t ht).2.2)]
  rw [sum_map_filter_preload s.committed (fun t => t.Amount)
    (fun t => (preload_fields s.committed t).2.1) (fun t => decide (t.Type_ = "SAVING"))
    (fun t => by simp only [(preload_fields s.committed t).1])]
  rw [List.filter_reverse, List.map_reverse, List.sum_reverse, List.filter_filter]
  congr 2
  apply List.filter_congr
  intro t _
  by_cases hu : t.UserID = userID <;> by_cases hs : t.Type_ = "SAVING" <;>
    simp [hu, hs, passes_noFilters]

/-- On the sample ledger, user `u2` has one SAVING transaction, of 7 EUR. -/
theorem TotalSavings_agrees_with_Balances_witness :
    ∃ (total : ℚ) (b : TransactionBalances),
      (TotalSavings sampleEnv "u2" ledgerSession).1 = .ok total
        ∧ (Balances sampleEnv "u2" noFilters ledgerSession).1 = .ok b
        ∧ total = b.Savings.UYU + b.Savings.USD + b.Savings.EUR :=
  TotalSavings_agrees_with_Balances sampleEnv "u2" ledgerSession rfl (by
    intro t ht hu hs
    simp only [ledgerSession, List.mem_cons, List.mem_singleton, List.not_mem_nil,
      or_false] at ht
    rcases ht with rfl | rfl | rfl
    · exact absurd hu (by decide)
    · exact absurd hu (by decide)
    · exact ⟨by decide, by norm_num [otherRow], ⟨700, by norm_num [otherRow]⟩⟩)

/-! ## Blank category ids -/

theorem dropWhile_all_iff {α : Type} (q : α → Bool) (l : List α) :
    (∀ x ∈ l.dropWhile q, q x = true) ↔ ∀ x ∈ l, q x = true := by
  constructor
  · intro h
    have hnil : l.dropWhile q = [] := by
      cases hd : l.dropWhile q with
      | nil => rfl
      | cons y ys =>
        have h1 : q y = true := h y (by rw [hd]; exact List.mem_cons_self _ _)
        have h2 := @List.head_dropWhile_not α q l (by rw [hd]; exact List.cons_ne_nil _ _)
        simp only [hd, List.head_cons] at h2
        rw [h1] at h2
        exact absurd h2 (by decide)
    exact List.dropWhile_eq_nil_iff.mp hnil
  · intro h x hx
    exact h x ((List.dropWhile_sublist q).subset hx)

theorem TrimSpace_eq_empty_iff (s : String) : TrimSpace s = "" ↔ blank s := by
  unfold TrimSpace blank
  rw [← dropWhile_all_iff isSpace s.data, ← List.rdropWhile_eq_nil_iff]
  constructor
  · intro h
    exact congrArg String.data h
  · intro h
    rw [h]

theorem trim_idem (l : List Char) :
    (((l.dropWhile isSpace).rdropWhile isSpace).dropWhile isSpace).rdropWhile isSpace
      = (l.dropWhile isSpace).rdropWhile isSpace := by
  have h1 : ((l.dropWhile isSpace).rdropWhile isSpace).dropWhile isSpace
      = (l.dropWhile isSpace).rdropWhile isSpace := by
    cases hd : l.dropWhile isSpace with
    | nil => simp
    | cons y ys =>
      have hy := @List.head_dropWhile_not Char isSpace l (by rw [hd]; exact List.cons_ne_nil _ _)
      simp only [hd, List.head_cons] at hy
      have hpre := List.rdropWhile_prefix isSpace (y :: ys)
      have hne : (y :: ys).rdropWhile isSpace ≠ [] := by
        intro h0
        rw [List.rdropWhile_eq_nil_iff] at h0
        have := h0 y (List.mem_cons_self _ _)
        rw [this] at hy
        exact absurd hy (by decide)
      cases hr : (y :: ys).rdropWhile isSpace with
      | nil => exact absurd hr hne
      | cons z zs =>
        rw [hr] at hpre
        have hz : z = y := by
          obtain ⟨t, ht⟩ := hpre
          simp only [List.cons_append, List.cons.injEq] at ht
          exact ht.1
        subst hz
        rw [List.dropWhile_cons]
        simp [hy]
  rw [h1, List.rdropWhile_idempotent]

theorem TrimSpace_idem (s : String) : TrimSpace (TrimSpace s) = TrimSpace s := by
  unfold TrimSpace
  simp only [trim_idem]

theorem sanitizeCategory_idem (c : UpdateCategoryPayload) :
    sanitizeCategory (sanitizeCategory c) = sanitizeCategory c := by
  unfold sanitizeCategory
  simp only [ToUpper_idem, TrimSpace_idem]

theorem sanitize_fields (p : CreateTransactionInput) :
    (sanitizeTransactionInput p).CategoryID
        = (match p.CategoryID with
           | some id => if TrimSpace id = "" then none else some id
           | none => none)
      ∧ (sanitizeTransactionInput p).Category = p.Category.map sanitizeCategory
      ∧ (sanitizeTransactionInput p).Note = TrimSpace p.Note
      ∧ (sanitizeTransactionInput p).Type_ = p.Type_
      ∧ (sanitizeTransactionInput p).Amount = p.Amount
      ∧ (sanitizeTransactionInput p).Currency = p.Currency
      ∧ (sanitizeTransactionInput p).Day = p.Day
      ∧ (sanitizeTransactionInput p).Month = p.Month
      ∧ (sanitizeTransactionInput p).Year = p.Year
      ∧ (sanitizeTransactionInput p).ExchangeRate = p.ExchangeRate := by
  obtain ⟨ty, am, cu, no, da, mo, ye, ex, ci, ca⟩ := p
  unfold sanitizeTransactionInput
  cases ci with
  | none => cases ca <;> simp
  | some id =>
    by_cases h : TrimSpace id = "" <;> cases ca <;> simp [h]

theorem category_report_iff (order : MapOrder) (p : CreateTransactionInput) (index : Nat) :
    reports order p index "category" ↔ ¬ categoryRule p := by
  rw [reports_iff_violated, mem_violatedRules]
  simp only [String.reduceEq, and_false, and_true, false_or, or_false]

theorem missing_category_issue_mem (order : MapOrder) (p : CreateTransactionInput)
    (index : Nat) (h : p.CategoryID = none ∧ p.Category = none) :
    validationIssue index "category" "Either categoryId or category must be provided"
      ∈ ruleIssues order p index := by
  unfold ruleIssues
  simp only [List.mem_append]
  refine Or.inl (Or.inr ?_)
  rw [if_pos h]
  exact List.mem_singleton.mpr rfl

/-- C30: a blank `categoryId` counts as absent.  `sanitizeTransactionInput` turns a
`categoryId` that is empty or only white space into an absent one and leaves any other
`categoryId` as it is, untrimmed; so the sanitized form of a request with a blank
`categoryId` and an inline category gets no category issue from validation, and that of a
request with a blank `categoryId` and no inline category gets the issue `Either categoryId
or category must be provided`; and sanitizing twice is sanitizing once. -/
theorem sanitizeTransactionInput_blank_categoryId (p : CreateTransactionInput) :
    (∀ id, p.CategoryID = some id → blank id →
        (sanitizeTransactionInput p).CategoryID = none)
      ∧ (∀ id, p.CategoryID = some id → ¬ blank id →
        (sanitizeTransactionInput p).CategoryID = some id)
      ∧ (p.CategoryID = none → (sanitizeTransactionInput p).CategoryID = none)
      ∧ (∀ (order : MapOrder) (index : Nat) (id : String),
          p.CategoryID = some id → blank id → p.Category ≠ none →
          ¬ reports order (sanitizeTransactionInput p) index "category")
      ∧ (∀ (order : MapOrder) (index : Nat) (id : String),
          p.CategoryID = some id → blank id → p.Category = none →
          validationIssue index "category" "Either categoryId or category must be provided"
            ∈ issuesOf (validateTransaction order (sanitizeTransactionInput p) index).2)
      ∧ sanitizeTransactionInput (sanitizeTransactionInput p) = sanitizeTransactionInput p := by
  obtain ⟨hci, hca, hno, hty, ham, hcu, hda, hmo, hye, hex⟩ := sanitize_fields p
  have hblank : ∀ id, p.CategoryID = some id → blank id →
      (sanitizeTransactionInput p).CategoryID = none := by
    intro id hid hb
    rw [hci, hid]
    simp only [(TrimSpace_eq_empty_iff id).mpr hb, if_true]
  have hother : ∀ id, p.CategoryID = some id → ¬ blank id →
      (sanitizeTransactionInput p).CategoryID = some id := by
    intro id hid hb
    rw [hci, hid]
    have : ¬ TrimSpace id = "" := fun h => hb ((TrimSpace_eq_empty_iff id).mp h)
    simp only [this, if_false]
  have hnone : p.CategoryID = none → (sanitizeTransactionInput p).CategoryID = none := by
    intro hid
    rw [hci, hid]
  refine ⟨hblank, hother, hnone, ?_, ?_, ?_⟩
  · intro order index id hid hb hcat
    rw [category_report_iff, not_not]
    refine Or.inr ⟨hblank id hid hb, ?_⟩
    rw [hca]
    cases hc : p.Category with
    | none => exact absurd hc hcat
    | some c => simp
  · intro order index id hid hb hcat
    rw [issuesOf_validateTransaction]
    apply missing_category_issue_mem
    refine ⟨hblank id hid hb, ?_⟩
    rw [hca, hcat]
    rfl
  · obtain ⟨hci2, hca2, hno2, hty2, ham2, hcu2, hda2, hmo2, hye2, hex2⟩ :=
      sanitize_fields (sanitizeTransactionInput p)
    have e1 : (sanitizeTransactionInput (sanitizeTransactionInput p)).CategoryID
        = (sanitizeTransactionInput p).CategoryID := by
      rw [hci2]
      cases hid : p.CategoryID with
      | none => rw [hnone hid]
      | some id =>
        by_cases hb : blank id
        · rw [hblank id hid hb]
        · rw [hother id hid hb]
          have : ¬ TrimSpace id = "" := fun h => hb ((TrimSpace_eq_empty_iff id).mp h)
          simp only [this, if_false]
    have e2 : (sanitizeTransactionInput (sanitizeTransactionInput p)).Category
        = (sanitizeTransactionInput p).Category := by
      rw [hca2, hca]
      cases p.Category with
      | none => rfl
      | some c => simp only [Option.map_some', sanitizeCategory_idem]
    have e3 : (sanitizeTransactionInput (sanitizeTransactionInput p)).Note
        = (sanitizeTransactionInput p).Note := by
      rw [hno2, hno, TrimSpace_idem]
    cases h1 : sanitizeTransactionInput (sanitizeTransactionInput p) with
    | mk a1 a2 a3 a4 a5 a6 a7 a8 a9 a10 =>
      cases h2 : sanitizeTransactionInput p with
      | mk b1 b2 b3 b4 b5 b6 b7 b8 b9 b10 =>
        rw [h1, h2] at e1 e2 e3
        rw [h1] at hty2 ham2 hcu2 hda2 hmo2 hye2 hex2
        rw [h2] at hty2 ham2 hcu2 hda2 hmo2 hye2 hex2
        simp only at e1 e2 e3 hty2 ham2 hcu2 hda2 hmo2 hye2 hex2
        rw [e1, e2, e3, hty2, ham2, hcu2, hda2, hmo2, hye2, hex2]

/-- The request `blankIdRequest`, whose `categoryId` is a space and a tab: sanitized, it
has no `categoryId`, a trimmed note and an upper-cased inline category, and validation
reports no category issue. -/
theorem sanitizeTransactionInput_blankIdRequest :
    sanitizeTransactionInput blankIdRequest
        = { blankIdRequest with Note := "tip", CategoryID := none,
                                Category := some ⟨"INCOME", "bonus", ""⟩ }
      ∧ ¬ reports sampleOrder (sanitizeTransactionInput blankIdRequest) 0 "category" := by
  decide

/-! ## Signup: emails are unique ignoring case -/

theorem userExists_ok {env : UserEnv} {email : String} {s s1 : UserStore} {found : Bool}
    (h : userExists env email s = (.ok found, s1)) :
    s1.users = s.users
      ∧ (found = true ↔ ∃ u ∈ s.users, env.sqlLower u.Email = email) := by
  unfold userExists at h
  split at h
  · cases h
  · cases h
    refine ⟨rfl, ?_⟩
    simp only [gt_iff_lt, Nat.cast_pos, decide_eq_true_eq, List.length_pos_iff_exists_mem,
      List.mem_filter]

theorem userExists_err {env : UserEnv} {email : String} {s s1 : UserStore} {e : UserError}
    (h : userExists env email s = (.error e, s1)) : s1.users = s.users := by
  unfold userExists at h
  split at h
  · cases h; rfl
  · cases h

theorem userExists_run {env : UserEnv} {email : String} {s : UserStore}
    (hstore : env.fault s.stmts = false) :
    userExists env email s
      = (.ok (decide (∃ u ∈ s.users, env.sqlLower u.Email = email)),
          { s with stmts := s.stmts + 1 }) := by
  unfold userExists
  simp only [hstore, Bool.false_eq_true, if_false, gt_iff_lt, Nat.cast_pos,
    List.length_pos_iff_exists_mem, List.mem_filter, decide_eq_true_eq]

theorem insertUser_ok {env : UserEnv} {row : models.User} {s s1 : UserStore}
    (h : insertUser env row s = (none, s1)) : s1.users = s.users ++ [row] := by
  unfold insertUser at h
  split at h
  · cases h
  · cases h; rfl

theorem insertUser_err {env : UserEnv} {row : models.User} {s s1 : UserStore} {e : UserError}
    (h : insertUser env row s = (some e, s1)) : s1.users = s.users := by
  unfold insertUser at h
  split at h
  · cases h; rfl
  · cases h

theorem UserCreate_ok {env : UserEnv} {input : CreateUserInput} {s s1 : UserStore}
    {user : models.User} (h : UserService.Create env input s = (.ok user, s1)) :
    user.Email = env.toLower input.Email ∧ s1.users = s.users ++ [user]
      ∧ ∀ u ∈ s.users, env.sqlLower u.Email ≠ env.toLower input.Email := by
  unfold UserService.Create at h
  split at h
  · cases h
  · simp only at h
    split at h
    · cases h
    · rename_i found s2 hex
      obtain ⟨hu, hfound⟩ := userExists_ok hex
      split at h
      · cases h
      · rename_i hnot
        split at h
        · cases h
        · split at h
          · cases h
          · rename_i s3 hins
            have hi := insertUser_ok hins
            cases h
            refine ⟨rfl, by rw [hi, ← hu], ?_⟩
            intro u hmem heq
            exact hnot (hfound.mpr ⟨u, hmem, heq⟩)

theorem UserCreate_error {env : UserEnv} {input : CreateUserInput} {s s1 : UserStore}
    {e : UserError} (h : UserService.Create env input s = (.error e, s1)) :
    s1.users = s.users := by
  unfold UserService.Create at h
  split at h
  · cases h; rfl
  · simp only at h
    split at h
    · rename_i hex
      cases h
      exact userExists_err hex
    · rename_i found s2 hex
      obtain ⟨hu, _⟩ := userExists_ok hex
      split at h
      · cases h; exact hu
      · split at h
        · cases h; exact hu
        · split at h
          · rename_i hins
            cases h
            rw [insertUser_err hins]
            exact hu
          · cases h

theorem UserCreate_step {env : UserEnv} (input : CreateUserInput) {s : UserStore}
    (hidem : ∀ x, env.toLower (env.toLower x) = env.toLower x)
    (hsql : ∀ x, env.sqlLower (env.toLower x) = env.toLower x)
    (hagree : lowerAgrees env s.users) (hd : distinctEmails env s.users) :
    lowerAgrees env (UserService.Create env input s).2.users
      ∧ distinctEmails env (UserService.Create env input s).2.users := by
  rcases h : UserService.Create env input s with ⟨res, s1⟩
  cases res with
  | error e =>
    have := UserCreate_error h
    simp only
    rw [this]
    exact ⟨hagree, hd⟩
  | ok user =>
    obtain ⟨hemail, husers, hnew⟩ := UserCreate_ok h
    simp only
    rw [husers]
    constructor
    · intro u hu
      rw [List.mem_append, List.mem_singleton] at hu
      rcases hu with hu | rfl
      · exact hagree u hu
      · rw [hemail, hsql, hidem]
    · unfold distinctEmails
      rw [List.pairwise_append]
      refine ⟨hd, List.pairwise_singleton _ _, ?_⟩
      intro a ha b hb
      rw [List.mem_singleton] at hb
      subst hb
      unfold sameEmail
      rw [hemail, hidem, ← hagree a ha]
      exact hnew a ha

theorem signups_invariant {env : UserEnv}
    (hidem : ∀ x, env.toLower (env.toLower x) = env.toLower x)
    (hsql : ∀ x, env.sqlLower (env.toLower x) = env.toLower x)
    (inputs : List CreateUserInput) :
    ∀ s : UserStore, lowerAgrees env s.users → distinctEmails env s.users →
      lowerAgrees env (signups env inputs s).users
        ∧ distinctEmails env (signups env inputs s).users := by
  induction inputs with
  | nil => intro s h1 h2; exact ⟨h1, h2⟩
  | cons input rest ih =>
    intro s h1 h2
    obtain ⟨h3, h4⟩ := UserCreate_step input hidem hsql h1 h2
    exact ih _ h3 h4

theorem toLower_idem (c : Char) : c.toLower.toLower = c.toLower := by
  by_cases h : 65 ≤ c.toNat ∧ c.toNat ≤ 90
  · have key : ∀ x ∈ "ABCDEFGHIJKLMNOPQRSTUVWXYZ".data, x.toLower.toLower = x.toLower := by
      decide
    exact key c (upper_mem c h)
  · rw [toLower_of_not_upper c h, toLower_of_not_upper c h]

theorem asciiLower_idem (x : String) : asciiLower (asciiLower x) = asciiLower x := by
  unfold asciiLower
  simp only [List.map_map]
  congr 1
  apply List.map_congr_left
  intro c _
  exact toLower_idem c

/-- C23: user emails are unique ignoring case, two emails being equal ignoring case when
`strings.ToLower` maps them to the same string.  Provided that `strings.ToLower` leaves
lower-cased strings as they are, that the `LOWER` of the database does too, and that on
the emails of the store `LOWER` computes what `strings.ToLower` computes (as it does on
every email that `Create` has stored): a successful `UserService.Create` appends one user,
whose email is the lower-cased input email; a valid signup succeeds when no stored email
equals its email ignoring case (the hash being computed, the insertion being accepted and
no statement failing); a valid signup whose email equals a stored email ignoring case
fails with `UserExists` and leaves the users unchanged; hence, from a store in which no
two emails are equal ignoring case, no sequence of `Create` calls leads to a store in
which two are. -/
theorem UserService_Create_unique_email (env : UserEnv) (input : CreateUserInput)
    (s : UserStore)
    (hidem : ∀ x, env.toLower (env.toLower x) = env.toLower x)
    (hsql : ∀ x, env.sqlLower (env.toLower x) = env.toLower x)
    (hagree : lowerAgrees env s.users) :
    (∀ (user : models.User) (s1 : UserStore),
        UserService.Create env input s = (.ok user, s1) →
        user.Email = env.toLower input.Email ∧ s1.users = s.users ++ [user])
      ∧ (validateUser env input = [] →
          env.fault s.stmts = false → env.fault (s.stmts + 1) = false →
          (∀ u ∈ s.users, ¬ sameEmail env u.Email input.Email) →
          (∀ u ∈ s.users, u.UserID ≠ env.uuid (s.draws + 1)) →
          ∀ hashed, env.bcrypt s.draws input.Password = some hashed →
          UserService.Create env input s
            = (.ok ⟨env.uuid (s.draws + 1), env.toLower input.Email, input.FirstName,
                    input.LastName, hashed⟩,
                { users := s.users ++ [⟨env.uuid (s.draws + 1), env.toLower input.Email,
                    input.FirstName, input.LastName, hashed⟩],
                  stmts := s.stmts + 2, draws := s.draws + 2 }))
      ∧ (validateUser env input = [] → env.fault s.stmts = false →
          (∃ u ∈ s.users, sameEmail env u.Email input.Email) →
          (UserService.Create env input s).1 = .error (.app (New UserExists .none))
            ∧ (UserService.Create env input s).2.users = s.users)
      ∧ (distinctEmails env s.users →
          ∀ inputs : List CreateUserInput, distinctEmails env (signups env inputs s).users) := by
  refine ⟨?_, ?_, ?_, ?_⟩
  · intro user s1 h
    obtain ⟨h1, h2, _⟩ := UserCreate_ok h
    exact ⟨h1, h2⟩
  · intro hval h0 h1 hnew hid hashed hhash
    have hex : ¬ ∃ u ∈ s.users, env.sqlLower u.Email = env.toLower input.Email := by
      rintro ⟨u, hu, he⟩
      exact hnew u hu (by unfold sameEmail; rw [← hagree u hu]; exact he)
    have hdup : ¬ ∃ u ∈ s.users, u.UserID = env.uuid (s.draws + 1)
        ∨ u.Email = env.toLower input.Email := by
      rintro ⟨u, hu, he | he⟩
      · exact hid u hu he
      · apply hnew u hu
        unfold sameEmail
        rw [he, hidem]
    unfold UserService.Create
    simp only [hval, userExists_run h0, hex, decide_False, Bool.false_eq_true, if_false, hhash,
      insertUser, h1, false_or, List.any_eq_true, decide_eq_true_eq, Bool.decide_or,
      Bool.or_eq_true, hdup]
  · intro hval h0 hsame
    obtain ⟨u, hu, he⟩ := hsame
    have hex : ∃ u ∈ s.users, env.sqlLower u.Email = env.toLower input.Email :=
      ⟨u, hu, by rw [hagree u hu]; exact he⟩
    have hres : UserService.Create env input s
        = (.error (.app (New UserExists .none)), { s with stmts := s.stmts + 1 }) := by
      unfold UserService.Create
      simp only [hval, userExists_run h0, hex, decide_True, if_true]
    rw [hres]
    exact ⟨rfl, rfl⟩
  · intro hd inputs
    exact (signups_invariant hidem hsql inputs s hagree hd).2

/-- On the sample users table, where `bob@example.com` is registered: the signup with
`Bob@Example.com` fails with `UserExists` and leaves the table unchanged, the signup with
`Ann@Example.com` stores `ann@example.com`. -/
theorem UserService_Create_unique_email_witness :
    ((UserService.Create sampleUserEnv bobSignup sampleUsers).1
        = .error (.app (New UserExists .none))
      ∧ (UserService.Create sampleUserEnv bobSignup sampleUsers).2.users = sampleUsers.users)
      ∧ (UserService.Create sampleUserEnv annSignup sampleUsers).2.users
          = sampleUsers.users ++ [⟨"id-1", "ann@example.com", "Ann", "Lee", "#hunter22"⟩] := by
  constructor
  · exact (UserService_Create_unique_email sampleUserEnv bobSignup sampleUsers asciiLower_idem
      asciiLower_idem (fun _ _ => rfl)).2.2.1 (by decide) rfl
      ⟨⟨"u1", "bob@example.com", "Bob", "Doe", "#secret"⟩, by decide, by decide⟩
  · have h := (UserService_Create_unique_email sampleUserEnv annSignup sampleUsers
      asciiLower_idem asciiLower_idem (fun _ _ => rfl)).2.1 (by decide) rfl rfl (by decide)
      (by decide) "#hunter22" rfl
    rw [h]
    decide

end Expenses
